import Mathlib

/-! STM32 serial bootloader client (`CM7/Core/Src/bootloader.c`)

A shallow embedding of the protocol client and of the Intel HEX upload path.

* Machine integers are `Nat`; every store into a `uint8_t`, `uint16_t` or
  `uint32_t` is an explicit `% 2^w`.
* The file-scope variables of `bootloader.c` are the fields of `State`.
* The UART is a `Uart`: a record of the calls made so far together with the
  answers the other side is going to give (a transport stub).  The functions
  are written in state-passing style and return the `Uart` they leave behind.
* `printf` output is not modelled.
-/

namespace Bootloader

/-! ## Constants of `bootloader.h` -/

def BL_ACK : Nat := 0x79
def BL_NACK : Nat := 0x1F
def BL_INIT_FRAME : Nat := 0x7F

def BL_CMD_GET : Nat := 0x00
def BL_CMD_GET_VERSION : Nat := 0x01
def BL_CMD_GET_ID : Nat := 0x02
def BL_CMD_READ_MEMORY : Nat := 0x11
def BL_CMD_GO : Nat := 0x21
def BL_CMD_WRITE_MEMORY : Nat := 0x31
def BL_CMD_ERASE : Nat := 0x43

/-- Conversion to `uint8_t`. -/
def u8 (n : Nat) : Nat := n % 256

/-- Conversion to `uint16_t`. -/
def u16 (n : Nat) : Nat := n % 65536

/-- Conversion to `uint32_t`. -/
def u32 (n : Nat) : Nat := n % 4294967296

/-- The operator `~` on a 32-bit `int`, seen as its unsigned bit pattern. -/
def bitnot (x : Nat) : Nat := 4294967295 - u32 x

/-- The macro `BL_COMPLEMENT(x)`, that is `(~(x))`.  Every use stores the result
in a `uint8_t`. -/
def BL_COMPLEMENT (x : Nat) : Nat := bitnot x

/-- The value `x - 1` of an `int` expression, seen as its unsigned 32-bit
pattern (`0 - 1` is `0xFFFFFFFF`). -/
def minus_one (x : Nat) : Nat := u32 (x + 4294967295)

/-! ## The transport -/

/-- The status codes of the HAL. -/
inductive HAL_StatusTypeDef where
  | HAL_OK
  | HAL_ERROR
  | HAL_BUSY
  | HAL_TIMEOUT
deriving DecidableEq, Repr

/-- One call on the transport, as a transport stub records it. -/
inductive Call where
  | transmit (data : List Nat) (timeout : Nat)
  | receive (size : Nat) (timeout : Nat)
deriving DecidableEq, Repr

/-- What the other side does during one receive call: the status the call
ends with, the bytes that arrive (`byte i` is the `i`-th of them) and, for a
call that does not end with `HAL_OK`, how many bytes had arrived when it gave
up.  A call that ends with `HAL_OK` has stored every byte it asked for. -/
structure RxReply where
  status : HAL_StatusTypeDef
  byte : Nat → Nat
  got : Nat

/-- The UART `huart8`: `tx k` is the status of the `k`-th transmit call still
to come, `rx k` the reply to the `k`-th receive call still to come, and `log`
the calls made so far, oldest first. -/
structure Uart where
  tx : Nat → HAL_StatusTypeDef
  rx : Nat → RxReply
  log : List Call

/-- The outcome of a receive call: its status, the buffer afterwards and the
UART afterwards. -/
structure Received where
  status : HAL_StatusTypeDef
  buf : List Nat
  uart : Uart

/-- The outcome of a transmit call. -/
structure Sent where
  status : HAL_StatusTypeDef
  uart : Uart

/-- The call `HAL_UART_Transmit(&huart8, data, size, timeout)`. -/
def HAL_UART_Transmit (u : Uart) (data : List Nat) (size timeout : Nat) : Sent :=
  { status := u.tx 0
    uart :=
      { tx := fun k => u.tx (k + 1)
        rx := u.rx
        log := u.log ++ [Call.transmit (data.take size) timeout] } }

/-- The number of bytes a receive call of `size` bytes stores. -/
def RxReply.stored (r : RxReply) (size : Nat) : Nat :=
  if r.status = HAL_StatusTypeDef.HAL_OK then size else min r.got size

/-- The call `HAL_UART_Receive(&huart8, buf, size, timeout)`: `buf` is the
memory from the pointer on, and the bytes that arrived overwrite its start. -/
def HAL_UART_Receive (u : Uart) (buf : List Nat) (size timeout : Nat) : Received :=
  let r := u.rx 0
  { status := r.status
    buf := (List.range (r.stored size)).map (fun i => u8 (r.byte i)) ++ buf.drop (r.stored size)
    uart :=
      { tx := u.tx
        rx := fun k => u.rx (k + 1)
        log := u.log ++ [Call.receive size timeout] } }

/-- Helper function to send data via UART. -/
def BL_UART_Transmit (u : Uart) (data : List Nat) (size timeout : Nat) : Sent :=
  HAL_UART_Transmit u data size timeout

/-- Function to wait and receive data via UART. -/
def BL_UART_Receive (u : Uart) (buf : List Nat) (size timeout : Nat) : Received :=
  HAL_UART_Receive u buf size timeout

/-- The local `uint8_t ack;` before anything is stored in it.  The code reads
`ack` only behind `status != HAL_OK ||`, that is after a receive call that
stored a byte in it, so this value is never looked at. -/
def ack_uninitialised : List Nat := [0]

/-! ## Session state -/

/-- The file-scope variables `base_address`, `start_address`,
`supported_cmd[15]` and `supported_cmd_len`. -/
structure State where
  base_address : Nat
  start_address : Nat
  supported_cmd : List Nat
  supported_cmd_len : Nat

/-- The initial values of the file-scope variables. -/
def State.initial : State :=
  { base_address := 0
    start_address := 0xFFFFFFFF
    supported_cmd := List.replicate 15 0
    supported_cmd_len := 1 }

/-- The array `supported_cmd` has its 15 bytes and `supported_cmd_len` stays
within it. -/
def State.WF (st : State) : Prop :=
  st.supported_cmd.length = 15 ∧ st.supported_cmd_len ≤ 15 ∧ ∀ b ∈ st.supported_cmd, b < 256

/-- The opcodes of the Supported-Command Set: the first `supported_cmd_len`
entries of `supported_cmd`. -/
def State.supported (st : State) : List Nat :=
  st.supported_cmd.take st.supported_cmd_len

/-- The loop of `BL_IsCommandSupported`, entered with counter `i` and `n`
entries still to look at.  The counter is a `uint8_t` and the bound a
`uint16_t`; with at most 255 entries the counter does not wrap. -/
def BL_IsCommandSupported.scan (st : State) (cmd : Nat) : Nat → Nat → Bool
  | 0, _ => false
  | n + 1, i =>
    if st.supported_cmd.getD i 0 = cmd then true
    else BL_IsCommandSupported.scan st cmd n (i + 1)

/-- Helper function to check if a command is supported. -/
def BL_IsCommandSupported (st : State) (cmd : Nat) : Bool :=
  BL_IsCommandSupported.scan st cmd st.supported_cmd_len 0

/-- The outcome of a command that leaves the file-scope variables alone. -/
structure CmdResult where
  ok : Bool
  uart : Uart

/-! ## Get and the handshake -/

/-- The outcome of `BL_Get`: the result, the byte at `buffer[-1]`, the caller's
buffer, the caller's `*out_len` and the UART, all as the call leaves them. -/
structure GetResult where
  ok : Bool
  below : Nat
  buffer : List Nat
  out_len : Nat
  uart : Uart

/-- Function to send the GET command and receive supported commands.  The
last receive call stores at `&buffer[-1]`, one byte below the caller's buffer;
`below` is the byte of memory found there.  Which object that byte belongs to
is settled by the caller and the memory layout, not by this function: the
byte is passed in and handed back in the field `below` of the result.
`out_len` is what `*out_len` holds on entry. -/
def BL_Get (st : State) (u : Uart) (below : Nat) (buffer : List Nat) (max_len out_len : Nat) :
    GetResult :=
  if BL_IsCommandSupported st BL_CMD_GET = false then ⟨false, below, buffer, out_len, u⟩ else
  let cmd := [BL_CMD_GET, u8 (BL_COMPLEMENT BL_CMD_GET)]
  let t1 := BL_UART_Transmit u cmd 2 100
  let r1 := BL_UART_Receive t1.uart ack_uninitialised 1 1000
  if r1.status ≠ HAL_StatusTypeDef.HAL_OK ∨ r1.buf.getD 0 0 ≠ BL_ACK then
    ⟨false, below, buffer, out_len, r1.uart⟩ else
  let r2 := BL_UART_Receive r1.uart buffer 1 1000
  if r2.status ≠ HAL_StatusTypeDef.HAL_OK then ⟨false, below, r2.buf, out_len, r2.uart⟩ else
  let num_bytes := u8 (r2.buf.getD 0 0)
  if num_bytes > max_len then ⟨false, below, r2.buf, out_len, r2.uart⟩ else
  let r3 := BL_UART_Receive r2.uart (below :: r2.buf) (u16 (num_bytes + 1)) 1000
  if r3.status ≠ HAL_StatusTypeDef.HAL_OK then
    ⟨false, r3.buf.headD below, r3.buf.drop 1, out_len, r3.uart⟩ else
  ⟨true, r3.buf.headD below, r3.buf.drop 1, num_bytes, r3.uart⟩

/-- The outcome of `BL_InitBootloader`: the result, the file-scope variables,
the byte of memory just below `supported_cmd` and the UART.  The byte below
`supported_cmd` is kept in a field of its own; see `BL_InitBootloader` for
what that means for the fields `base_address` and `start_address` of `st`. -/
structure InitResult where
  ok : Bool
  st : State
  below : Nat
  uart : Uart

/-- The local `uint8_t empty_buf[8];` before anything is stored in it; the
code never reads it. -/
def empty_buf_uninitialised : List Nat := List.replicate 8 0

/-- The function `BL_InitBootloader`.  `below` is the byte of memory just below
the array `supported_cmd`, where the last receive call of `BL_Get` stores.
The source does not settle which object lies there: a build that places
`supported_cmd` right behind `base_address` has the top byte of
`base_address` in that place, and the store then changes `base_address`.  The
definition keeps the byte apart from the four variables, so once that receive
call has stored a byte the fields `base_address` and `start_address` of the
result are those of a layout in which the byte belongs to neither, and are
not to be read as the values in every build.  The fields `ok`,
`supported_cmd`, `supported_cmd_len` and `uart`, and every call that returns
before that store, do not depend on the layout. -/
def BL_InitBootloader (st : State) (u : Uart) (below : Nat) : InitResult :=
  let d := HAL_UART_Receive u empty_buf_uninitialised 8 10
  let init_cmd := [BL_INIT_FRAME]
  let t := BL_UART_Transmit d.uart init_cmd 1 100
  let r := BL_UART_Receive t.uart ack_uninitialised 1 1000
  if r.status ≠ HAL_StatusTypeDef.HAL_OK ∨ r.buf.getD 0 0 ≠ BL_ACK then
    ⟨false, st, below, r.uart⟩ else
  let g := BL_Get st r.uart below st.supported_cmd 15 st.supported_cmd_len
  ⟨g.ok, { st with supported_cmd := g.buffer, supported_cmd_len := g.out_len }, g.below, g.uart⟩

/-! ## Go -/

/-- The array `address_packet` of `BL_Go`. -/
def BL_Go.address_packet (address : Nat) : List Nat :=
  let address_bytes := [u8 ((address >>> 24) &&& 0xFF), u8 ((address >>> 16) &&& 0xFF),
    u8 ((address >>> 8) &&& 0xFF), u8 (address &&& 0xFF)]
  let checksum := u8 (address_bytes.getD 0 0 ^^^ address_bytes.getD 1 0 ^^^
    address_bytes.getD 2 0 ^^^ address_bytes.getD 3 0)
  [address_bytes.getD 0 0, address_bytes.getD 1 0, address_bytes.getD 2 0,
    address_bytes.getD 3 0, checksum]

/-- Function to send the Go command, which jumps to user code. -/
def BL_Go (st : State) (u : Uart) (address : Nat) : CmdResult :=
  if BL_IsCommandSupported st BL_CMD_GO = false then ⟨false, u⟩ else
  let cmd := [BL_CMD_GO, u8 (BL_COMPLEMENT BL_CMD_GO)]
  let t1 := BL_UART_Transmit u cmd 2 100
  if t1.status ≠ HAL_StatusTypeDef.HAL_OK then ⟨false, t1.uart⟩ else
  let r1 := BL_UART_Receive t1.uart ack_uninitialised 1 1000
  if r1.status ≠ HAL_StatusTypeDef.HAL_OK ∨ r1.buf.getD 0 0 ≠ BL_ACK then ⟨false, r1.uart⟩ else
  let t2 := BL_UART_Transmit r1.uart (BL_Go.address_packet address) 5 100
  if t2.status ≠ HAL_StatusTypeDef.HAL_OK then ⟨false, t2.uart⟩ else
  let r2 := BL_UART_Receive t2.uart r1.buf 1 1000
  if r2.status ≠ HAL_StatusTypeDef.HAL_OK ∨ r2.buf.getD 0 0 ≠ BL_ACK then ⟨false, r2.uart⟩ else
  ⟨true, r2.uart⟩

/-- The function `BL_GoToUserApp`. -/
def BL_GoToUserApp (st : State) (u : Uart) : CmdResult :=
  BL_Go st u st.start_address

/-! ## Read Memory -/

/-- The outcome of `BL_ReadMemory`: the result, the caller's buffer `data`
afterwards and the UART afterwards. -/
structure ReadResult where
  ok : Bool
  data : List Nat
  uart : Uart

/-- The array `address_cmd` of `BL_ReadMemory`. -/
def BL_ReadMemory.address_cmd (address : Nat) : List Nat :=
  let address_bytes := [u8 ((address >>> 24) &&& 0xFF), u8 ((address >>> 16) &&& 0xFF),
    u8 ((address >>> 8) &&& 0xFF), u8 (address &&& 0xFF)]
  let checksum := u8 (address_bytes.getD 0 0 ^^^ address_bytes.getD 1 0 ^^^
    address_bytes.getD 2 0 ^^^ address_bytes.getD 3 0)
  [address_bytes.getD 0 0, address_bytes.getD 1 0, address_bytes.getD 2 0,
    address_bytes.getD 3 0, checksum]

/-- Function to read memory from the target device. -/
def BL_ReadMemory (st : State) (u : Uart) (address : Nat) (data : List Nat) (length : Nat) :
    ReadResult :=
  if BL_IsCommandSupported st BL_CMD_READ_MEMORY = false then ⟨false, data, u⟩ else
  let cmd := [BL_CMD_READ_MEMORY, u8 (BL_COMPLEMENT BL_CMD_READ_MEMORY)]
  let t1 := BL_UART_Transmit u cmd 2 100
  let r1 := BL_UART_Receive t1.uart ack_uninitialised 1 1000
  if r1.status ≠ HAL_StatusTypeDef.HAL_OK ∨ r1.buf.getD 0 0 ≠ BL_ACK then
    ⟨false, data, r1.uart⟩ else
  let t2 := BL_UART_Transmit r1.uart (BL_ReadMemory.address_cmd address) 5 100
  let r2 := BL_UART_Receive t2.uart r1.buf 1 1000
  if r2.status ≠ HAL_StatusTypeDef.HAL_OK ∨ r2.buf.getD 0 0 ≠ BL_ACK then
    ⟨false, data, r2.uart⟩ else
  let length_cmd := [u8 (minus_one length), u8 (bitnot (minus_one length))]
  let t3 := BL_UART_Transmit r2.uart length_cmd 2 100
  let r3 := BL_UART_Receive t3.uart r2.buf 1 1000
  if r3.status ≠ HAL_StatusTypeDef.HAL_OK ∨ r3.buf.getD 0 0 ≠ BL_ACK then
    ⟨false, data, r3.uart⟩ else
  let r4 := BL_UART_Receive r3.uart data length 1000
  ⟨decide (r4.status = HAL_StatusTypeDef.HAL_OK), r4.buf, r4.uart⟩

/-! ## Write Memory -/

/-- The array `address_cmd` of `BL_WriteMemory`. -/
def BL_WriteMemory.address_cmd (address : Nat) : List Nat :=
  let address_bytes := [u8 ((address >>> 24) &&& 0xFF), u8 ((address >>> 16) &&& 0xFF),
    u8 ((address >>> 8) &&& 0xFF), u8 (address &&& 0xFF)]
  let checksum := u8 (address_bytes.getD 0 0 ^^^ address_bytes.getD 1 0 ^^^
    address_bytes.getD 2 0 ^^^ address_bytes.getD 3 0)
  [address_bytes.getD 0 0, address_bytes.getD 1 0, address_bytes.getD 2 0,
    address_bytes.getD 3 0, checksum]

/-- The array `full_cmd` of `BL_WriteMemory`: the length byte, the copy of
`data[0 .. length-1]` and the checksum the loop computes. -/
def BL_WriteMemory.full_cmd (data : List Nat) (length : Nat) : List Nat :=
  let length_cmd := [u8 (minus_one length)]
  let checksum := (List.range length).foldl (fun checksum i => u8 (checksum ^^^ data.getD i 0))
    (length_cmd.getD 0 0)
  [length_cmd.getD 0 0] ++ (List.range length).map (fun i => data.getD i 0) ++ [checksum]

/-- Function to write memory to the target device. -/
def BL_WriteMemory (st : State) (u : Uart) (address : Nat) (data : List Nat) (length : Nat) :
    CmdResult :=
  if BL_IsCommandSupported st BL_CMD_WRITE_MEMORY = false then ⟨false, u⟩ else
  let cmd := [BL_CMD_WRITE_MEMORY, u8 (BL_COMPLEMENT BL_CMD_WRITE_MEMORY)]
  let t1 := BL_UART_Transmit u cmd 2 100
  let r1 := BL_UART_Receive t1.uart ack_uninitialised 1 1000
  if r1.status ≠ HAL_StatusTypeDef.HAL_OK ∨ r1.buf.getD 0 0 ≠ BL_ACK then ⟨false, r1.uart⟩ else
  let t2 := BL_UART_Transmit r1.uart (BL_WriteMemory.address_cmd address) 5 100
  let r2 := BL_UART_Receive t2.uart r1.buf 1 1000
  if r2.status ≠ HAL_StatusTypeDef.HAL_OK ∨ r2.buf.getD 0 0 ≠ BL_ACK then ⟨false, r2.uart⟩ else
  let t3 := BL_UART_Transmit r2.uart (BL_WriteMemory.full_cmd data length) (u16 (length + 2)) 100
  let r3 := BL_UART_Receive t3.uart r2.buf 1 1000
  ⟨decide (r3.status = HAL_StatusTypeDef.HAL_OK) && decide (r3.buf.getD 0 0 = BL_ACK), r3.uart⟩

/-! ## Erase Memory -/

/-- The array `payload[256]` of `BL_EraseMemory` after the page loop, the
checksum loop and the store of the checksum.  The array is modelled as 256
zero bytes before the stores.  The list follows the source for
`num_pages ≤ 127` only: the last store is at index `1 + 2 * num_pages`, so
from 128 pages on the source stores behind the end of the array and transmits
bytes from there, which a list of 256 entries does not render.  Statements
that reach the payload are made for `num_pages ≤ 127`. -/
def BL_EraseMemory.payload (page_numbers : List Nat) (num_pages : Nat) : List Nat :=
  let payload := (List.replicate 256 0).set 0 (u8 (minus_one num_pages))
  let payload := (List.range num_pages).foldl (fun payload i =>
    (payload.set (1 + 2 * i) (u8 (page_numbers.getD i 0 >>> 8))).set (2 + 2 * i)
      (u8 (page_numbers.getD i 0 &&& 0xFF))) payload
  let checksum := (List.range (1 + 2 * num_pages)).foldl
    (fun checksum i => u8 (checksum ^^^ payload.getD i 0)) 0
  payload.set (1 + 2 * num_pages) checksum

/-- Function to erase specific pages using the Erase command (without extended
erase).  Up to the second transmit call the definition follows the source for
every `num_pages`; from there on it does so for `num_pages ≤ 127`, see
`BL_EraseMemory.payload`. -/
def BL_EraseMemory (st : State) (u : Uart) (page_numbers : List Nat) (num_pages : Nat) :
    CmdResult :=
  if BL_IsCommandSupported st BL_CMD_ERASE = false then ⟨false, u⟩ else
  let cmd := [BL_CMD_ERASE, u8 (bitnot BL_CMD_ERASE)]
  let t1 := BL_UART_Transmit u cmd 2 100
  let r1 := BL_UART_Receive t1.uart ack_uninitialised 1 1000
  if r1.status ≠ HAL_StatusTypeDef.HAL_OK ∨ r1.buf.getD 0 0 ≠ BL_ACK then ⟨false, r1.uart⟩ else
  let t2 := BL_UART_Transmit r1.uart (BL_EraseMemory.payload page_numbers num_pages)
    (u16 (2 + 2 * num_pages)) 100
  let r2 := BL_UART_Receive t2.uart r1.buf 1 1000
  ⟨decide (r2.status = HAL_StatusTypeDef.HAL_OK) && decide (r2.buf.getD 0 0 = BL_ACK), r2.uart⟩

/-! ## Upload of an Intel HEX file -/

/-- The character `s[i]` of the C string at `s`.  The list holds the memory
from the pointer on; a read behind its end gives 0, as the terminating NUL of
a string does. -/
def charAt (s : List Nat) (i : Nat) : Nat := s.getD i 0

/-- Helper function to convert a hex character (0-9, a-f, A-F) to its numerical
value. -/
def hex_char_to_nibble (hex : Nat) : Nat :=
  if '0'.toNat ≤ hex ∧ hex ≤ '9'.toNat then u8 (hex - '0'.toNat)
  else if 'a'.toNat ≤ hex ∧ hex ≤ 'f'.toNat then u8 (hex - 'a'.toNat + 10)
  else if 'A'.toNat ≤ hex ∧ hex ≤ 'F'.toNat then u8 (hex - 'A'.toNat + 10)
  else 0xFF

/-- Function to convert a pair of hex characters to a byte; the argument
`&line[i]` is given as the line and the index. -/
def BL_HexPairToByte (line : List Nat) (i : Nat) : Nat :=
  let high_nibble := hex_char_to_nibble (charAt line i)
  let low_nibble := hex_char_to_nibble (charAt line (i + 1))
  if high_nibble = 0xFF ∨ low_nibble = 0xFF then 0
  else u8 ((high_nibble <<< 4) ||| low_nibble)

/-- The checksum loop of `BL_ProcessHexLine`,
`for (int i = 1; i < bound; i += 2) checksum += BL_HexPairToByte(&line[i]);`,
entered with the given `i` and `checksum`; `fuel` bounds the number of
iterations. -/
def BL_ProcessHexLine.sum (line : List Nat) (bound : Nat) : Nat → Nat → Nat → Nat
  | 0, _, checksum => checksum
  | fuel + 1, i, checksum =>
    if i < bound then
      BL_ProcessHexLine.sum line bound fuel (i + 2) (u8 (checksum + BL_HexPairToByte line i))
    else checksum

/-- The locals of `BL_ProcessHexLine` when it reaches the checksum test. -/
structure HexRecord where
  byte_count : Nat
  address : Nat
  record_type : Nat
  data : List Nat
  checksum : Nat
  provided_checksum : Nat

/-- The part of `BL_ProcessHexLine` that parses the fields and computes the
checksum.  Of the array `data[256]` only the `byte_count` elements the loop
stores are kept. -/
def BL_ProcessHexLine.parse (line : List Nat) : HexRecord :=
  let byte_count := BL_HexPairToByte line 1
  let address := u16 ((BL_HexPairToByte line 3 <<< 8) ||| BL_HexPairToByte line 5)
  let record_type := BL_HexPairToByte line 7
  let data := (List.range byte_count).map (fun i => BL_HexPairToByte line (9 + i * 2))
  let checksum := BL_ProcessHexLine.sum line (9 + byte_count * 2) (9 + byte_count * 2) 1 0
  let checksum := u8 (bitnot checksum + 1)
  let provided_checksum := BL_HexPairToByte line (9 + byte_count * 2)
  { byte_count := byte_count
    address := address
    record_type := record_type
    data := data
    checksum := checksum
    provided_checksum := provided_checksum }

/-- The outcome of a function that may change the file-scope variables. -/
structure Result where
  ok : Bool
  st : State
  uart : Uart

/-- Function to parse and write a single Intel HEX line.  An element of `data`
that the parse loop did not store reads as 0. -/
def BL_ProcessHexLine (st : State) (u : Uart) (line : List Nat) : Result :=
  if charAt line 0 ≠ ':'.toNat then ⟨false, st, u⟩ else
  let r := BL_ProcessHexLine.parse line
  if r.checksum ≠ r.provided_checksum then ⟨false, st, u⟩ else
  if r.record_type = 0x00 then
    let w := BL_WriteMemory st u (u32 (st.base_address + r.address)) r.data r.byte_count
    ⟨w.ok, st, w.uart⟩
  else if r.record_type = 0x01 then ⟨true, st, u⟩
  else if r.record_type = 0x04 then
    ⟨true, { st with base_address := u32 ((r.data.getD 0 0 <<< 8 ||| r.data.getD 1 0) <<< 16) }, u⟩
  else if r.record_type = 0x05 then
    ⟨true, { st with start_address := u32 ((r.data.getD 0 0 <<< 24) |||
      (r.data.getD 1 0 <<< 16) ||| (r.data.getD 2 0 <<< 8) ||| r.data.getD 3 0) }, u⟩
  else ⟨false, st, u⟩

/-- The call `strcspn(s, "\n")`: the number of characters of the string at `s`
before its first line feed, or its length when it has none. -/
def strcspn_newline : List Nat → Nat
  | [] => 0
  | c :: s => if c = 0 ∨ c = '\n'.toNat then 0 else strcspn_newline s + 1

/-- The buffer `line` after a successful `f_gets(line, sizeof(line), &SDFile)`
that read the characters `s`: the characters, a NUL, and behind it what the
buffer held before. -/
def f_gets (line : List Nat) (s : List Nat) : List Nat :=
  s ++ 0 :: line.drop (s.length + 1)

/-- The loop of `BL_UploadHexFile` with its return value.  `file` lists what
the successive calls of `f_gets` read until the first call that returns NULL,
and `line` is the buffer `char line[512]`. -/
def BL_UploadHexFile.loop : List (List Nat) → List Nat → State → Uart → Result
  | [], _, st, u => ⟨true, st, u⟩
  | s :: file, line, st, u =>
    let line := f_gets line s
    let line := line.set (strcspn_newline line) 0
    let r := BL_ProcessHexLine st u line
    if r.ok = false then ⟨false, r.st, r.uart⟩
    else BL_UploadHexFile.loop file line r.st r.uart

/-- Function to read and upload an Intel HEX file from an SD card.  `mounted`
is the result of `BL_Mount_FS`, `opened` tells whether `f_open` returned
`FR_OK`, and `line` is what the local buffer holds on entry. -/
def BL_UploadHexFile (mounted opened : Bool) (file : List (List Nat)) (line : List Nat)
    (st : State) (u : Uart) : Result :=
  if mounted = false then ⟨false, st, u⟩ else
  if opened = false then ⟨false, st, u⟩ else
  BL_UploadHexFile.loop file line st u

/-- The characters of a string literal as C characters. -/
def chars (s : String) : List Nat := s.toList.map Char.toNat

/-! ## Transport stubs and states used in the statements -/

/-- The reply is an acknowledge: the receive call succeeds and the byte it
stores is ACK. -/
def RxReply.isAck (r : RxReply) : Prop :=
  r.status = HAL_StatusTypeDef.HAL_OK ∧ u8 (r.byte 0) = BL_ACK

/-- A reply that delivers the bytes `bs` with status `HAL_OK`. -/
def RxReply.bytes (bs : List Nat) : RxReply :=
  { status := HAL_StatusTypeDef.HAL_OK, byte := fun i => bs.getD i 0, got := bs.length }

/-- A target that acknowledges everything: every transmit call succeeds and
every receive call delivers ACK. -/
def Uart.acking : Uart :=
  { tx := fun _ => HAL_StatusTypeDef.HAL_OK
    rx := fun _ => RxReply.bytes [BL_ACK]
    log := [] }

/-- A session in which the target reported Get, Go and Write Memory. -/
def State.flashing : State :=
  { base_address := 0
    start_address := 0xFFFFFFFF
    supported_cmd := [0x00, 0x21, 0x31] ++ List.replicate 12 0
    supported_cmd_len := 3 }

/-- The value of the bytes `b`, most significant first. -/
def be_value (b : List Nat) : Nat := b.foldl (fun acc x => acc * 256 + x) 0

/-! ## The Intel HEX format, as the specification words it

These definitions follow the format description `:BBAAAATTdd…CC`; they are
what the parser in `BL_ProcessHexLine` is compared with. -/

/-- The ASCII hexadecimal digit of `v < 16`, in upper case when `upper`. -/
def IntelHex.digit (upper : Bool) (v : Nat) : Nat :=
  if v < 10 then '0'.toNat + v
  else if upper then 'A'.toNat + (v - 10)
  else 'a'.toNat + (v - 10)

/-- Two hexadecimal digits per byte, the high digit first.  `casing p` tells
whether the digit at position `p` of the line is written in upper case. -/
def IntelHex.text (casing : Nat → Bool) : Nat → List Nat → List Nat
  | _, [] => []
  | p, b :: bytes =>
    IntelHex.digit (casing p) (b / 16) :: IntelHex.digit (casing (p + 1)) (b % 16) ::
      IntelHex.text casing (p + 2) bytes

/-- The bytes of a record from byte_count through the last data byte. -/
def IntelHex.fields (address record_type : Nat) (data : List Nat) : List Nat :=
  [data.length, address / 256, address % 256, record_type] ++ data

/-- The checksum of a record: the two's complement (mod 256) of the sum of
the bytes from byte_count through the last data byte. -/
def IntelHex.checksum (address record_type : Nat) (data : List Nat) : Nat :=
  (256 - (IntelHex.fields address record_type data).sum % 256) % 256

/-- The line of a record with the given checksum byte: the start marker and
two digits for every byte. -/
def IntelHex.line (casing : Nat → Bool) (address record_type : Nat) (data : List Nat)
    (checksum : Nat) : List Nat :=
  ':'.toNat :: IntelHex.text casing 1 (IntelHex.fields address record_type data ++ [checksum])

/-- The standard encoding of a record: the line that carries the right
checksum. -/
def IntelHex.encode (casing : Nat → Bool) (address record_type : Nat) (data : List Nat) :
    List Nat :=
  IntelHex.line casing address record_type data (IntelHex.checksum address record_type data)

/-- Digits in upper case throughout. -/
def IntelHex.upper : Nat → Bool := fun _ => true

/-- Digits in lower case throughout. -/
def IntelHex.lower : Nat → Bool := fun _ => false

/-! ## The orchestrator scenario -/

/-- The three lines of the orchestrator scenario, as the specification prints
them: the second one ends with its last data byte `01`. -/
def scenario_lines : List (List Nat) :=
  [chars (":020000040000FA"), chars (":10010000214601360121470136007EFE09D21901"),
   chars (":00000001FF")]

/-- The three lines of the orchestrator scenario with the checksum byte `40`
at the end of the second one. -/
def scenario_lines_complete : List (List Nat) :=
  [chars (":020000040000FA"), chars (":10010000214601360121470136007EFE09D2190140"),
   chars (":00000001FF")]

/-- The 16 data bytes of the second line of the scenario. -/
def scenario_data : List Nat :=
  [0x21, 0x46, 0x01, 0x36, 0x01, 0x21, 0x47, 0x01, 0x36, 0x00, 0x7E, 0xFE, 0x09, 0xD2, 0x19, 0x01]

/-! ## Stubs and specification-side definitions for the later statements -/

/-- A reply that times out after the bytes `bs` have arrived. -/
def RxReply.timeout (bs : List Nat) : RxReply :=
  { status := HAL_StatusTypeDef.HAL_TIMEOUT, byte := fun i => bs.getD i 0, got := bs.length }

/-- The target of the handshake scenario: nothing to drain, ACK for the
synchronization byte, ACK for the Get frame, the count byte 1, the version
byte and the single opcode 0x21, and ACK from then on. -/
def Uart.handshake (version : Nat) : Uart :=
  { tx := fun _ => HAL_StatusTypeDef.HAL_OK
    rx := fun k =>
      if k = 0 then RxReply.timeout []
      else if k = 3 then RxReply.bytes [1]
      else if k = 4 then RxReply.bytes [version, 0x21]
      else RxReply.bytes [BL_ACK]
    log := [] }

/-- A target that gives the replies `replies` to the receive calls, in order,
and then answers no more; every transmit call succeeds. -/
def Uart.script (replies : List RxReply) : Uart :=
  { tx := fun _ => HAL_StatusTypeDef.HAL_OK
    rx := fun k => replies.getD k (RxReply.timeout [])
    log := [] }

/-- A target that never answers: every receive call times out with nothing
received, every transmit call succeeds. -/
def Uart.silent : Uart :=
  { tx := fun _ => HAL_StatusTypeDef.HAL_OK
    rx := fun _ => RxReply.timeout []
    log := [] }

/-- A target that acknowledges everything while every transmit call reports
`HAL_ERROR`. -/
def Uart.tx_failing : Uart :=
  { tx := fun _ => HAL_StatusTypeDef.HAL_ERROR
    rx := fun _ => RxReply.bytes [BL_ACK]
    log := [] }

/-- The session a handshake leaves when the target reports the single opcode
0x21. -/
def State.go_only : State :=
  { base_address := 0
    start_address := 0xFFFFFFFF
    supported_cmd := [0x21] ++ List.replicate 14 0
    supported_cmd_len := 1 }

/-- The UART after the first three calls of `BL_InitBootloader`: the drain of
stale bytes, the synchronization byte and the receive of its acknowledge. -/
def sync_stage (u : Uart) : Uart :=
  (BL_UART_Receive (BL_UART_Transmit (HAL_UART_Receive u empty_buf_uninitialised 8 10).uart
    [BL_INIT_FRAME] 1 100).uart ack_uninitialised 1 1000).uart

/-- The calls a command made: what it added to the log of the UART `before`
it. -/
def calls_made (before after : Uart) : List Call :=
  after.log.drop before.log.length

/-- The receive calls among the calls `log`, as their sizes. -/
def receives : List Call → List Nat
  | [] => []
  | Call.receive size _ :: log => size :: receives log
  | Call.transmit _ _ :: log => receives log

/-- The frames of the transmit calls among the calls `log`, in order. -/
def frames : List Call → List (List Nat)
  | [] => []
  | Call.transmit data _ :: log => data :: frames log
  | Call.receive _ _ :: log => frames log

/-- The bytes of a list of page numbers on the wire: for each page its high
byte, then its low byte. -/
def page_bytes : List Nat → List Nat
  | [] => []
  | p :: pages => p / 256 :: p % 256 :: page_bytes pages

/-- The line buffer after `f_gets` read the characters `s` into it and the
line feed was cut off. -/
def Upload.read (line s : List Nat) : List Nat :=
  (f_gets line s).set (strcspn_newline (f_gets line s)) 0

/-- Where the upload stands after the lines `file` have all been processed in
file order, each one in the state the one before left: the line buffer, the
file-scope variables and the UART. -/
def Upload.after : List (List Nat) → List Nat → State → Uart → List Nat × State × Uart
  | [], line, st, u => (line, st, u)
  | s :: file, line, st, u =>
    Upload.after file (Upload.read line s)
      (BL_ProcessHexLine st u (Upload.read line s)).st
      (BL_ProcessHexLine st u (Upload.read line s)).uart

/-- Every line of `file`, processed in file order, is processed successfully. -/
def Upload.all_ok : List (List Nat) → List Nat → State → Uart → Prop
  | [], _, _, _ => True
  | s :: file, line, st, u =>
    (BL_ProcessHexLine st u (Upload.read line s)).ok = true ∧
    Upload.all_ok file (Upload.read line s)
      (BL_ProcessHexLine st u (Upload.read line s)).st
      (BL_ProcessHexLine st u (Upload.read line s)).uart

/-! ## Bytes -/

theorem u8_of_lt {n : Nat} (h : n < 256) : u8 n = n := Nat.mod_eq_of_lt h

theorem u8_lt (n : Nat) : u8 n < 256 := Nat.mod_lt _ (by decide)

theorem and_0xFF (x : Nat) : x &&& 0xFF = x % 256 :=
  Nat.and_pow_two_sub_one_eq_mod x 8

theorem xor_byte_lt {a b : Nat} (ha : a < 256) (hb : b < 256) : a ^^^ b < 256 :=
  @Nat.xor_lt_two_pow a b 8 ha hb

theorem map_getD_range (data : List Nat) :
    (List.range data.length).map (fun i => data.getD i 0) = data := by
  apply List.ext_getElem
  · simp
  · intro n h1 h2
    simp [List.getElem?_eq_getElem h2]

theorem foldl_xor_u8 (data : List Nat) (h : ∀ b ∈ data, b < 256) (c : Nat) (hc : c < 256) :
    data.foldl (fun checksum b => u8 (checksum ^^^ b)) c = data.foldl (fun x b => x ^^^ b) c := by
  induction data generalizing c with
  | nil => rfl
  | cons b data ih =>
    have hb : b < 256 := h b (List.mem_cons_self _ _)
    have hx : c ^^^ b < 256 := xor_byte_lt hc hb
    simp only [List.foldl_cons, u8_of_lt hx]
    exact ih (fun x hx => h x (List.mem_cons_of_mem _ hx)) _ hx

/-! ## The transport calls -/

@[simp] theorem transmit_status (u : Uart) (d : List Nat) (n t : Nat) :
    (BL_UART_Transmit u d n t).status = u.tx 0 := rfl

@[simp] theorem transmit_log (u : Uart) (d : List Nat) (n t : Nat) :
    (BL_UART_Transmit u d n t).uart.log = u.log ++ [Call.transmit (d.take n) t] := rfl

@[simp] theorem transmit_rx (u : Uart) (d : List Nat) (n t : Nat) :
    (BL_UART_Transmit u d n t).uart.rx = u.rx := rfl

@[simp] theorem transmit_tx (u : Uart) (d : List Nat) (n t k : Nat) :
    (BL_UART_Transmit u d n t).uart.tx k = u.tx (k + 1) := rfl

@[simp] theorem receive_status (u : Uart) (b : List Nat) (n t : Nat) :
    (BL_UART_Receive u b n t).status = (u.rx 0).status := rfl

@[simp] theorem receive_log (u : Uart) (b : List Nat) (n t : Nat) :
    (BL_UART_Receive u b n t).uart.log = u.log ++ [Call.receive n t] := rfl

@[simp] theorem receive_rx (u : Uart) (b : List Nat) (n t k : Nat) :
    (BL_UART_Receive u b n t).uart.rx k = u.rx (k + 1) := rfl

@[simp] theorem receive_tx (u : Uart) (b : List Nat) (n t : Nat) :
    (BL_UART_Receive u b n t).uart.tx = u.tx := rfl

/-- A receive call of one byte that succeeds leaves the byte that arrived in
`ack`, whatever `ack` held before. -/
theorem receive_ack (u : Uart) (b : List Nat) (t : Nat)
    (h : (u.rx 0).status = HAL_StatusTypeDef.HAL_OK) :
    (BL_UART_Receive u b 1 t).buf.getD 0 0 = u8 ((u.rx 0).byte 0) := by
  simp [BL_UART_Receive, HAL_UART_Receive, RxReply.stored, h, List.range_succ]

/-- An acknowledged stage passes the test
`status != HAL_OK || ack != BL_ACK`. -/
theorem receive_isAck (u : Uart) (b : List Nat) (t : Nat) (h : (u.rx 0).isAck) :
    ¬ ((BL_UART_Receive u b 1 t).status ≠ HAL_StatusTypeDef.HAL_OK ∨
      (BL_UART_Receive u b 1 t).buf.getD 0 0 ≠ BL_ACK) := by
  rw [receive_ack u b t h.1, receive_status, h.1, h.2]
  simp

/-- A frame is sent and the stage is acknowledged: the test
`status != HAL_OK || ack != BL_ACK` that follows is passed. -/
theorem stage_isAck (u : Uart) (d : List Nat) (n t : Nat) (b : List Nat) (t2 : Nat)
    (h : (u.rx 0).isAck) :
    ¬ ((BL_UART_Receive (BL_UART_Transmit u d n t).uart b 1 t2).status ≠
        HAL_StatusTypeDef.HAL_OK ∨
      (BL_UART_Receive (BL_UART_Transmit u d n t).uart b 1 t2).buf.getD 0 0 ≠ BL_ACK) :=
  receive_isAck (BL_UART_Transmit u d n t).uart b t2 h


/-! ## Write Memory: the payload frame -/

theorem minus_one_length {L : Nat} (h1 : 1 ≤ L) (h2 : L ≤ 256) : u8 (minus_one L) = L - 1 := by
  unfold u8 minus_one u32
  omega

theorem full_cmd_eq (data : List Nat) (L : Nat) (h1 : 1 ≤ L) (h2 : L ≤ 256)
    (hlen : data.length = L) (hb : ∀ b ∈ data, b < 256) :
    BL_WriteMemory.full_cmd data L =
      (L - 1) :: (data ++ [data.foldl (fun x b => x ^^^ b) (L - 1)]) := by
  subst hlen
  have hfold : (List.range data.length).foldl (fun checksum i => u8 (checksum ^^^ data.getD i 0))
      (data.length - 1) = data.foldl (fun x b => x ^^^ b) (data.length - 1) := by
    rw [← foldl_xor_u8 data hb (data.length - 1) (by omega)]
    have h := List.foldl_map (fun i => data.getD i 0) (fun c b => u8 (c ^^^ b))
      (List.range data.length) (data.length - 1)
    rw [map_getD_range] at h
    exact h.symm
  simp only [BL_WriteMemory.full_cmd, List.getD_cons_zero, minus_one_length h1 h2,
    map_getD_range, hfold]
  simp

/-- What `BL_WriteMemory` leaves in the log when the command is supported and
its first two stages are acknowledged. -/
theorem writeMemory_log (st : State) (u : Uart) (address : Nat) (data : List Nat) (length : Nat)
    (hsup : BL_IsCommandSupported st BL_CMD_WRITE_MEMORY = true)
    (h1 : (u.rx 0).isAck) (h2 : (u.rx 1).isAck) :
    (BL_WriteMemory st u address data length).uart.log = u.log ++
      [Call.transmit [0x31, 0xCE] 100, Call.receive 1 1000,
       Call.transmit (BL_WriteMemory.address_cmd address) 100, Call.receive 1 1000,
       Call.transmit ((BL_WriteMemory.full_cmd data length).take (u16 (length + 2))) 100,
       Call.receive 1 1000] ∧
    (BL_WriteMemory st u address data length).ok =
      (decide ((u.rx 2).status = HAL_StatusTypeDef.HAL_OK) &&
        decide (u8 ((u.rx 2).byte 0) = BL_ACK)) := by
  unfold BL_WriteMemory
  simp only [hsup, reduceCtorEq, ↓reduceIte]
  rw [if_neg (stage_isAck u _ _ _ _ _ h1),
    if_neg (stage_isAck (BL_UART_Receive (BL_UART_Transmit u _ _ _).uart _ _ _).uart _ _ _ _ _ h2)]
  refine ⟨?_, ?_⟩
  · simp only [receive_log, transmit_log, List.append_assoc, List.singleton_append]
    rfl
  · by_cases h3 : (u.rx 2).status = HAL_StatusTypeDef.HAL_OK
    · rw [receive_ack _ _ _ h3]
      rfl
    · have h3n : decide ((u.rx 2).status = HAL_StatusTypeDef.HAL_OK) = false := by simp [h3]
      simp only [receive_status, receive_rx, transmit_rx, h3n, Bool.false_and]


/-- The log of `BL_WriteMemory` with the payload frame written out. -/
theorem writeMemory_log_frame (st : State) (u : Uart) (address : Nat) (data : List Nat)
    (L : Nat) (hL1 : 1 ≤ L) (hL2 : L ≤ 256) (hlen : data.length = L)
    (hb : ∀ b ∈ data, b < 256)
    (hsup : BL_IsCommandSupported st BL_CMD_WRITE_MEMORY = true)
    (h1 : (u.rx 0).isAck) (h2 : (u.rx 1).isAck) :
    (BL_WriteMemory st u address data L).uart.log = u.log ++
      [Call.transmit [0x31, 0xCE] 100, Call.receive 1 1000,
       Call.transmit (BL_WriteMemory.address_cmd address) 100, Call.receive 1 1000,
       Call.transmit ((L - 1) :: (data ++ [data.foldl (fun x b => x ^^^ b) (L - 1)])) 100,
       Call.receive 1 1000] := by
  have hlog := (writeMemory_log st u address data L hsup h1 h2).1
  have h16 : u16 (L + 2) = L + 2 := by unfold u16; omega
  have hlen2 : ((L - 1) :: (data ++ [data.foldl (fun x b => x ^^^ b) (L - 1)])).length = L + 2 := by
    simp [hlen]
  rw [full_cmd_eq data L hL1 hL2 hlen hb, h16, List.take_of_length_le (by omega)] at hlog
  exact hlog

/-- C1. For every length `L` with `1 ≤ L ≤ 256` and every `L` data bytes, when
Write Memory is supported and the opcode stage and the address stage are both
acknowledged, `BL_WriteMemory` makes exactly six calls on the transport, and
the frame of its third transmit call is the byte `L - 1`, the data bytes in
order and the XOR of that first byte and all data bytes: `L + 2` bytes. -/
theorem writeMemory_payload_frame (st : State) (u : Uart) (address : Nat) (data : List Nat)
    (L : Nat) (hL1 : 1 ≤ L) (hL2 : L ≤ 256) (hlen : data.length = L)
    (hb : ∀ b ∈ data, b < 256)
    (hsup : BL_IsCommandSupported st BL_CMD_WRITE_MEMORY = true)
    (h1 : (u.rx 0).isAck) (h2 : (u.rx 1).isAck) :
    (BL_WriteMemory st u address data L).uart.log = u.log ++
      [Call.transmit [0x31, 0xCE] 100, Call.receive 1 1000,
       Call.transmit (BL_WriteMemory.address_cmd address) 100, Call.receive 1 1000,
       Call.transmit ((L - 1) :: (data ++ [data.foldl (fun x b => x ^^^ b) (L - 1)])) 100,
       Call.receive 1 1000] ∧
    ((L - 1) :: (data ++ [data.foldl (fun x b => x ^^^ b) (L - 1)])).length = L + 2 := by
  refine ⟨writeMemory_log_frame st u address data L hL1 hL2 hlen hb hsup h1 h2, ?_⟩
  simp [hlen]

/-- C1 at the two bytes DE AD written to 0x08000000 over an acknowledging
target. -/
theorem writeMemory_payload_frame_witness :
    (BL_WriteMemory State.flashing Uart.acking 0x08000000 [0xDE, 0xAD] 2).uart.log =
      [Call.transmit [0x31, 0xCE] 100, Call.receive 1 1000,
       Call.transmit [0x08, 0x00, 0x00, 0x00, 0x08] 100, Call.receive 1 1000,
       Call.transmit [0x01, 0xDE, 0xAD, 0x72] 100, Call.receive 1 1000] :=
  (writeMemory_payload_frame State.flashing Uart.acking 0x08000000 [0xDE, 0xAD] 2
    (by decide) (by decide) rfl (by decide) (by decide) ⟨rfl, rfl⟩ ⟨rfl, rfl⟩).1


/-! ## The address frame -/

theorem address_packet_eq (A : Nat) :
    BL_Go.address_packet A =
      [A / 2 ^ 24 % 256, A / 2 ^ 16 % 256, A / 2 ^ 8 % 256, A % 256,
       (A / 2 ^ 24 % 256) ^^^ (A / 2 ^ 16 % 256) ^^^ (A / 2 ^ 8 % 256) ^^^ (A % 256)] := by
  have h0 : A / 2 ^ 24 % 256 < 256 := Nat.mod_lt _ (by decide)
  have h1 : A / 2 ^ 16 % 256 < 256 := Nat.mod_lt _ (by decide)
  have h2 : A / 2 ^ 8 % 256 < 256 := Nat.mod_lt _ (by decide)
  have h3 : A % 256 < 256 := Nat.mod_lt _ (by decide)
  have hx := xor_byte_lt (xor_byte_lt (xor_byte_lt h0 h1) h2) h3
  have e : BL_Go.address_packet A =
      [u8 ((A >>> 24) &&& 0xFF), u8 ((A >>> 16) &&& 0xFF), u8 ((A >>> 8) &&& 0xFF),
       u8 (A &&& 0xFF),
       u8 (u8 ((A >>> 24) &&& 0xFF) ^^^ u8 ((A >>> 16) &&& 0xFF) ^^^ u8 ((A >>> 8) &&& 0xFF) ^^^
         u8 (A &&& 0xFF))] := rfl
  rw [e]
  simp only [Nat.shiftRight_eq_div_pow, and_0xFF, u8, Nat.mod_mod]
  rw [Nat.mod_eq_of_lt hx]

theorem readMemory_address_cmd_eq (A : Nat) :
    BL_ReadMemory.address_cmd A = BL_Go.address_packet A := rfl

theorem writeMemory_address_cmd_eq (A : Nat) :
    BL_WriteMemory.address_cmd A = BL_Go.address_packet A := rfl

theorem go_sends_address (st : State) (u : Uart) (A : Nat)
    (hsup : BL_IsCommandSupported st BL_CMD_GO = true)
    (ht : u.tx 0 = HAL_StatusTypeDef.HAL_OK) (h1 : (u.rx 0).isAck) :
    ∃ rest, (BL_Go st u A).uart.log = u.log ++ Call.transmit [0x21, 0xDE] 100 ::
      Call.receive 1 1000 :: Call.transmit (BL_Go.address_packet A) 100 :: rest := by
  have hp : (BL_Go.address_packet A).take 5 = BL_Go.address_packet A := rfl
  unfold BL_Go
  simp only [hsup, reduceCtorEq, ↓reduceIte, transmit_status, ht, ne_eq, not_true_eq_false]
  rw [if_neg (stage_isAck u _ _ _ _ _ h1)]
  split
  · refine ⟨[], ?_⟩
    simp only [receive_log, transmit_log, List.append_assoc, List.singleton_append, hp]
    rfl
  · split <;>
    · refine ⟨[Call.receive 1 1000], ?_⟩
      simp only [receive_log, transmit_log, List.append_assoc, List.singleton_append, hp]
      rfl

theorem readMemory_sends_address (st : State) (u : Uart) (A : Nat) (data : List Nat)
    (length : Nat) (hsup : BL_IsCommandSupported st BL_CMD_READ_MEMORY = true)
    (h1 : (u.rx 0).isAck) :
    ∃ rest, (BL_ReadMemory st u A data length).uart.log =
      u.log ++ Call.transmit [0x11, 0xEE] 100 ::
      Call.receive 1 1000 :: Call.transmit (BL_ReadMemory.address_cmd A) 100 :: rest := by
  have hp : (BL_ReadMemory.address_cmd A).take 5 = BL_ReadMemory.address_cmd A := rfl
  unfold BL_ReadMemory
  simp only [hsup, reduceCtorEq, ↓reduceIte]
  rw [if_neg (stage_isAck u _ _ _ _ _ h1)]
  split
  · refine ⟨[Call.receive 1 1000], ?_⟩
    simp only [receive_log, transmit_log, List.append_assoc, List.singleton_append, hp]
    rfl
  · split
    · simp only [receive_log, transmit_log, List.append_assoc, List.singleton_append, hp,
        List.cons_append, List.nil_append]
      exact ⟨_, rfl⟩
    · simp only [receive_log, transmit_log, List.append_assoc, List.singleton_append, hp,
        List.cons_append, List.nil_append]
      exact ⟨_, rfl⟩

theorem writeMemory_sends_address (st : State) (u : Uart) (A : Nat) (data : List Nat)
    (length : Nat) (hsup : BL_IsCommandSupported st BL_CMD_WRITE_MEMORY = true)
    (h1 : (u.rx 0).isAck) :
    ∃ rest, (BL_WriteMemory st u A data length).uart.log =
      u.log ++ Call.transmit [0x31, 0xCE] 100 ::
      Call.receive 1 1000 :: Call.transmit (BL_WriteMemory.address_cmd A) 100 :: rest := by
  have hp : (BL_WriteMemory.address_cmd A).take 5 = BL_WriteMemory.address_cmd A := rfl
  unfold BL_WriteMemory
  simp only [hsup, reduceCtorEq, ↓reduceIte]
  rw [if_neg (stage_isAck u _ _ _ _ _ h1)]
  split
  · refine ⟨[Call.receive 1 1000], ?_⟩
    simp only [receive_log, transmit_log, List.append_assoc, List.singleton_append, hp]
    rfl
  · simp only [receive_log, transmit_log, List.append_assoc, List.singleton_append, hp,
      List.cons_append, List.nil_append]
    exact ⟨_, rfl⟩


/-- C2. For every 32-bit address `A` the address frame of `BL_Go` is the four
bytes of `A`, most significant first, followed by their XOR; every byte of it
is below 256; the first four bytes read as a big-endian number give `A` back;
`BL_ReadMemory` and `BL_WriteMemory` build the same frame; and each of the
three commands, when supported and acknowledged at its opcode stage, transmits
that frame as its second frame. -/
theorem address_frame_roundtrip (A : Nat) (hA : A < 2 ^ 32) :
    BL_Go.address_packet A =
      [A / 2 ^ 24, A / 2 ^ 16 % 256, A / 2 ^ 8 % 256, A % 256,
       (A / 2 ^ 24) ^^^ (A / 2 ^ 16 % 256) ^^^ (A / 2 ^ 8 % 256) ^^^ (A % 256)] ∧
    (BL_Go.address_packet A).length = 5 ∧
    (∀ b ∈ BL_Go.address_packet A, b < 256) ∧
    be_value ((BL_Go.address_packet A).take 4) = A ∧
    BL_ReadMemory.address_cmd A = BL_Go.address_packet A ∧
    BL_WriteMemory.address_cmd A = BL_Go.address_packet A ∧
    (∀ (st : State) (u : Uart), BL_IsCommandSupported st BL_CMD_GO = true →
      u.tx 0 = HAL_StatusTypeDef.HAL_OK → (u.rx 0).isAck →
      ∃ rest, (BL_Go st u A).uart.log = u.log ++ Call.transmit [0x21, 0xDE] 100 ::
        Call.receive 1 1000 :: Call.transmit (BL_Go.address_packet A) 100 :: rest) ∧
    (∀ (st : State) (u : Uart) (data : List Nat) (length : Nat),
      BL_IsCommandSupported st BL_CMD_READ_MEMORY = true → (u.rx 0).isAck →
      ∃ rest, (BL_ReadMemory st u A data length).uart.log =
        u.log ++ Call.transmit [0x11, 0xEE] 100 ::
        Call.receive 1 1000 :: Call.transmit (BL_Go.address_packet A) 100 :: rest) ∧
    (∀ (st : State) (u : Uart) (data : List Nat) (length : Nat),
      BL_IsCommandSupported st BL_CMD_WRITE_MEMORY = true → (u.rx 0).isAck →
      ∃ rest, (BL_WriteMemory st u A data length).uart.log =
        u.log ++ Call.transmit [0x31, 0xCE] 100 ::
        Call.receive 1 1000 :: Call.transmit (BL_Go.address_packet A) 100 :: rest) := by
  have htop : A / 2 ^ 24 % 256 = A / 2 ^ 24 := by
    apply Nat.mod_eq_of_lt
    simp only [Nat.reducePow] at hA ⊢
    omega
  have hpk := address_packet_eq A
  rw [htop] at hpk
  have h0 : A / 2 ^ 24 < 256 := by rw [← htop]; exact Nat.mod_lt _ (by decide)
  have h1 : A / 2 ^ 16 % 256 < 256 := Nat.mod_lt _ (by decide)
  have h2 : A / 2 ^ 8 % 256 < 256 := Nat.mod_lt _ (by decide)
  have h3 : A % 256 < 256 := Nat.mod_lt _ (by decide)
  have hx := xor_byte_lt (xor_byte_lt (xor_byte_lt h0 h1) h2) h3
  refine ⟨hpk, by rw [hpk]; rfl, ?_, ?_, rfl, rfl, ?_, ?_, ?_⟩
  · intro b hb
    rw [hpk] at hb
    simp only [List.mem_cons, List.mem_singleton, List.not_mem_nil, or_false] at hb
    rcases hb with rfl | rfl | rfl | rfl | rfl <;> assumption
  · rw [hpk]
    simp only [be_value, List.take, List.foldl_cons, List.foldl_nil, Nat.reducePow] at hA ⊢
    omega
  · intro st u hsup ht hr
    exact go_sends_address st u A hsup ht hr
  · intro st u data length hsup hr
    exact readMemory_sends_address st u A data length hsup hr
  · intro st u data length hsup hr
    exact writeMemory_sends_address st u A data length hsup hr

/-- C2 at the address 0x08001234. -/
theorem address_frame_roundtrip_witness :
    BL_Go.address_packet 0x08001234 = [0x08, 0x00, 0x12, 0x34, 0x2E] ∧
    be_value ((BL_Go.address_packet 0x08001234).take 4) = 0x08001234 :=
  ⟨(address_frame_roundtrip 0x08001234 (by decide)).1,
    (address_frame_roundtrip 0x08001234 (by decide)).2.2.2.1⟩

/-! ## The command gate -/

theorem scan_eq_true_iff (st : State) (cmd : Nat) (n i : Nat) :
    BL_IsCommandSupported.scan st cmd n i = true ↔
      ∃ j, i ≤ j ∧ j < i + n ∧ st.supported_cmd.getD j 0 = cmd := by
  induction n generalizing i with
  | zero =>
    simp only [BL_IsCommandSupported.scan, Bool.false_eq_true, false_iff]
    rintro ⟨j, h1, h2, _⟩
    omega
  | succ n ih =>
    unfold BL_IsCommandSupported.scan
    by_cases h : st.supported_cmd.getD i 0 = cmd
    · simp only [h, ↓reduceIte, true_iff]
      exact ⟨i, Nat.le_refl _, by omega, h⟩
    · simp only [h, ↓reduceIte, ih]
      constructor
      · rintro ⟨j, h1, h2, h3⟩
        exact ⟨j, by omega, by omega, h3⟩
      · rintro ⟨j, h1, h2, h3⟩
        have hne : j ≠ i := fun e => h (e ▸ h3)
        exact ⟨j, by omega, by omega, h3⟩

/-- The gate is membership in the Supported-Command Set. -/
theorem isCommandSupported_iff (st : State) (cmd : Nat)
    (hlen : st.supported_cmd_len ≤ st.supported_cmd.length) :
    BL_IsCommandSupported st cmd = true ↔ cmd ∈ st.supported := by
  unfold BL_IsCommandSupported State.supported
  rw [scan_eq_true_iff, List.mem_iff_getElem]
  constructor
  · rintro ⟨j, _, h2, h3⟩
    have hj : j < st.supported_cmd.length := by omega
    refine ⟨j, by simp only [List.length_take]; omega, ?_⟩
    rw [List.getElem_take]
    rw [List.getD_eq_getElem _ _ hj] at h3
    exact h3
  · rintro ⟨j, hj, h3⟩
    simp only [List.length_take] at hj
    have hj2 : j < st.supported_cmd.length := by omega
    refine ⟨j, Nat.zero_le _, by omega, ?_⟩
    rw [List.getD_eq_getElem _ _ hj2]
    rw [List.getElem_take] at h3
    exact h3

theorem isCommandSupported_eq_false (st : State) (cmd : Nat) (hwf : st.WF)
    (h : cmd ∉ st.supported) : BL_IsCommandSupported st cmd = false := by
  have hlen : st.supported_cmd_len ≤ st.supported_cmd.length := by
    rw [hwf.1]; exact hwf.2.1
  cases hs : BL_IsCommandSupported st cmd with
  | false => rfl
  | true => exact absurd ((isCommandSupported_iff st cmd hlen).1 hs) h

/-- C3. For every well-formed Supported-Command Set and every transport: when
0x11 is not among the supported opcodes `BL_ReadMemory` returns false, when
0x31 is not `BL_WriteMemory` does, when 0x43 is not `BL_EraseMemory` does, and
when 0x21 is not `BL_Go` does, for all arguments; each leaves the transport as
it found it, so the log holds no further transmit or receive call. -/
theorem gated_commands_refuse_unsupported (st : State) (u : Uart) (hwf : st.WF) :
    (0x11 ∉ st.supported → ∀ (address : Nat) (data : List Nat) (length : Nat),
      BL_ReadMemory st u address data length = ⟨false, data, u⟩ ∧
      (BL_ReadMemory st u address data length).uart.log = u.log) ∧
    (0x31 ∉ st.supported → ∀ (address : Nat) (data : List Nat) (length : Nat),
      BL_WriteMemory st u address data length = ⟨false, u⟩ ∧
      (BL_WriteMemory st u address data length).uart.log = u.log) ∧
    (0x43 ∉ st.supported → ∀ (page_numbers : List Nat) (num_pages : Nat),
      BL_EraseMemory st u page_numbers num_pages = ⟨false, u⟩ ∧
      (BL_EraseMemory st u page_numbers num_pages).uart.log = u.log) ∧
    (0x21 ∉ st.supported → ∀ (address : Nat),
      BL_Go st u address = ⟨false, u⟩ ∧ (BL_Go st u address).uart.log = u.log) := by
  refine ⟨?_, ?_, ?_, ?_⟩
  · intro h address data length
    have hs : BL_IsCommandSupported st BL_CMD_READ_MEMORY = false :=
      isCommandSupported_eq_false st _ hwf h
    simp only [BL_ReadMemory, hs, ↓reduceIte, and_self]
  · intro h address data length
    have hs : BL_IsCommandSupported st BL_CMD_WRITE_MEMORY = false :=
      isCommandSupported_eq_false st _ hwf h
    simp only [BL_WriteMemory, hs, ↓reduceIte, and_self]
  · intro h page_numbers num_pages
    have hs : BL_IsCommandSupported st BL_CMD_ERASE = false :=
      isCommandSupported_eq_false st _ hwf h
    simp only [BL_EraseMemory, hs, ↓reduceIte, and_self]
  · intro h address
    have hs : BL_IsCommandSupported st BL_CMD_GO = false :=
      isCommandSupported_eq_false st _ hwf h
    simp only [BL_Go, hs, ↓reduceIte, and_self]

/-- C3 at the initial session, whose Supported-Command Set is `[0x00]`. -/
theorem gated_commands_refuse_unsupported_witness :
    State.initial.WF ∧ State.initial.supported = [0x00] ∧
    BL_WriteMemory State.initial Uart.acking 0x08000000 [0xDE, 0xAD] 2 = ⟨false, Uart.acking⟩ ∧
    BL_Go State.initial Uart.acking 0x08000000 = ⟨false, Uart.acking⟩ :=
  ⟨by unfold State.WF; decide, rfl,
    ((gated_commands_refuse_unsupported State.initial Uart.acking
      (by unfold State.WF; decide)).2.1 (by decide) 0x08000000 [0xDE, 0xAD] 2).1,
    ((gated_commands_refuse_unsupported State.initial Uart.acking
      (by unfold State.WF; decide)).2.2.2 (by decide) 0x08000000).1⟩


/-! ## Decoding hexadecimal text -/

theorem nibble_digit (upper : Bool) (v : Nat) (hv : v < 16) :
    hex_char_to_nibble (IntelHex.digit upper v) = v := by
  interval_cases v <;> cases upper <;> rfl

theorem shl4_or (h l : Nat) (hl : l < 16) : (h <<< 4) ||| l = h * 16 + l := by
  rw [Nat.shiftLeft_eq, Nat.mul_comm, ← Nat.mul_add_lt_is_or (i := 4) (by simpa using hl)]

theorem shl8_or (h l : Nat) (hl : l < 256) : (h <<< 8) ||| l = h * 256 + l := by
  rw [Nat.shiftLeft_eq, Nat.mul_comm, ← Nat.mul_add_lt_is_or (i := 8) (by simpa using hl)]

theorem hexPair_cons (c : Nat) (line : List Nat) (i : Nat) :
    BL_HexPairToByte (c :: line) (i + 1) = BL_HexPairToByte line i := rfl

theorem hexPair_digits (u1 u2 : Bool) (b : Nat) (hb : b < 256) (rest : List Nat) :
    BL_HexPairToByte (IntelHex.digit u1 (b / 16) :: IntelHex.digit u2 (b % 16) :: rest) 0 = b := by
  have h1 : b / 16 < 16 := by omega
  have h2 : b % 16 < 16 := by omega
  have e : BL_HexPairToByte (IntelHex.digit u1 (b / 16) :: IntelHex.digit u2 (b % 16) :: rest) 0 =
      (if hex_char_to_nibble (IntelHex.digit u1 (b / 16)) = 0xFF ∨
          hex_char_to_nibble (IntelHex.digit u2 (b % 16)) = 0xFF then 0
        else u8 ((hex_char_to_nibble (IntelHex.digit u1 (b / 16)) <<< 4) |||
          hex_char_to_nibble (IntelHex.digit u2 (b % 16)))) := rfl
  rw [e, nibble_digit u1 _ h1, nibble_digit u2 _ h2, shl4_or _ _ h2]
  rw [if_neg (by omega)]
  unfold u8
  omega

/-- The pair of digits at offset `2 * k` of hexadecimal text is byte `k`. -/
theorem hexPair_text (casing : Nat → Bool) (rest : List Nat) :
    ∀ (bytes : List Nat) (p k : Nat), (∀ b ∈ bytes, b < 256) → k < bytes.length →
      BL_HexPairToByte (IntelHex.text casing p bytes ++ rest) (2 * k) = bytes.getD k 0 := by
  intro bytes
  induction bytes with
  | nil => intro p k _ hk; simp at hk
  | cons b bytes ih =>
    intro p k hb hk
    cases k with
    | zero =>
      exact hexPair_digits _ _ b (hb b (List.mem_cons_self _ _)) _
    | succ k =>
      have e : 2 * (k + 1) = (2 * k + 1) + 1 := by ring
      rw [e]
      simp only [IntelHex.text, List.cons_append, hexPair_cons, List.getD_cons_succ]
      exact ih (p + 2) k (fun x hx => hb x (List.mem_cons_of_mem _ hx))
        (by simpa using hk)

/-- The pair of digits at offset `1 + 2 * k` of a line is byte `k` of the
record. -/
theorem hexPair_line (casing : Nat → Bool) (bytes rest : List Nat) (k : Nat)
    (hb : ∀ b ∈ bytes, b < 256) (hk : k < bytes.length) :
    BL_HexPairToByte (':'.toNat :: IntelHex.text casing 1 bytes ++ rest) (1 + 2 * k) =
      bytes.getD k 0 := by
  rw [Nat.add_comm 1, List.cons_append, hexPair_cons]
  exact hexPair_text casing rest bytes 1 k hb hk

/-- The checksum loop over `m` pairs that decode to `bytes`: it runs to its
end within its fuel and leaves the sum of the bytes mod 256. -/
theorem sum_loop (line : List Nat) (bound : Nat) :
    ∀ (bytes : List Nat) (fuel i checksum : Nat),
      (∀ k, k < bytes.length → BL_HexPairToByte line (i + 2 * k) = bytes.getD k 0) →
      bound = i + 2 * bytes.length → bytes.length ≤ fuel → checksum < 256 →
      BL_ProcessHexLine.sum line bound fuel i checksum = u8 (checksum + bytes.sum) := by
  intro bytes
  induction bytes with
  | nil =>
    intro fuel i checksum _ hbound _ hc
    cases fuel with
    | zero => simp [BL_ProcessHexLine.sum, u8_of_lt hc]
    | succ fuel =>
      simp only [List.length_nil, Nat.mul_zero, Nat.add_zero] at hbound
      simp [BL_ProcessHexLine.sum, hbound, u8_of_lt hc]
  | cons b bytes ih =>
    intro fuel i checksum hpair hbound hfuel hc
    cases fuel with
    | zero => simp at hfuel
    | succ fuel =>
      simp only [List.length_cons] at hbound hfuel
      have hlt : i < bound := by omega
      have h0 := hpair 0 (by simp)
      simp only [Nat.mul_zero, Nat.add_zero, List.getD_cons_zero] at h0
      unfold BL_ProcessHexLine.sum
      rw [if_pos hlt, h0]
      rw [ih fuel (i + 2) _ ?_ (by omega) (by omega) (u8_lt _)]
      · simp only [u8, List.sum_cons]
        omega
      · intro k hk
        have h := hpair (k + 1) (by simpa using hk)
        simp only [List.getD_cons_succ] at h
        rw [← h]
        congr 1
        ring


/-- The fuel `BL_ProcessHexLine` gives its checksum loop is enough on every
line: any two amounts of fuel that cover the distance to the bound give the
same result. -/
theorem sum_fuel (line : List Nat) (bound : Nat) :
    ∀ (f1 f2 i checksum : Nat), bound ≤ i + 2 * f1 → bound ≤ i + 2 * f2 →
      BL_ProcessHexLine.sum line bound f1 i checksum =
        BL_ProcessHexLine.sum line bound f2 i checksum := by
  intro f1
  induction f1 with
  | zero =>
    intro f2 i checksum h1 _
    cases f2 with
    | zero => rfl
    | succ f2 =>
      have hlt : ¬ i < bound := by omega
      simp only [BL_ProcessHexLine.sum, if_neg hlt]
  | succ f1 ih =>
    intro f2 i checksum h1 h2
    by_cases hlt : i < bound
    · cases f2 with
      | zero => omega
      | succ f2 =>
        simp only [BL_ProcessHexLine.sum, if_pos hlt]
        exact ih f2 (i + 2) _ (by omega) (by omega)
    · cases f2 with
      | zero => simp only [BL_ProcessHexLine.sum, if_neg hlt]
      | succ f2 => simp only [BL_ProcessHexLine.sum, if_neg hlt]

/-! ## Parsing an encoded record -/

theorem fields_length (address record_type : Nat) (data : List Nat) :
    (IntelHex.fields address record_type data).length = 4 + data.length := by
  simp only [IntelHex.fields, List.cons_append, List.nil_append, List.length_cons]
  omega

theorem fields_lt (address record_type : Nat) (data : List Nat)
    (hn : data.length ≤ 255) (ha : address < 65536) (ht : record_type < 256)
    (hd : ∀ b ∈ data, b < 256) : ∀ b ∈ IntelHex.fields address record_type data, b < 256 := by
  intro b hb
  simp only [IntelHex.fields, List.cons_append, List.nil_append, List.mem_cons] at hb
  rcases hb with rfl | rfl | rfl | rfl | hb
  · omega
  · omega
  · omega
  · exact ht
  · exact hd b hb

/-- The parser on the line of a record, followed by anything: it decodes the
fields the line was written from, and computes the checksum of the format. -/
theorem parse_line (casing : Nat → Bool) (address record_type : Nat) (data : List Nat)
    (cs : Nat) (rest : List Nat)
    (hn : data.length ≤ 255) (ha : address < 65536) (ht : record_type < 256)
    (hd : ∀ b ∈ data, b < 256) (hc : cs < 256) :
    BL_ProcessHexLine.parse (IntelHex.line casing address record_type data cs ++ rest) =
      { byte_count := data.length
        address := address
        record_type := record_type
        data := data
        checksum := IntelHex.checksum address record_type data
        provided_checksum := cs } := by
  have hf := fields_lt address record_type data hn ha ht hd
  have hfl := fields_length address record_type data
  have hb : ∀ b ∈ IntelHex.fields address record_type data ++ [cs], b < 256 := by
    intro b hmem
    rcases List.mem_append.1 hmem with h | h
    · exact hf b h
    · rw [List.mem_singleton.1 h]; exact hc
  have hp : ∀ k, k < 5 + data.length →
      BL_HexPairToByte (IntelHex.line casing address record_type data cs ++ rest) (1 + 2 * k) =
        (IntelHex.fields address record_type data ++ [cs]).getD k 0 := by
    intro k hk
    exact hexPair_line casing _ rest k hb (by simp [hfl]; omega)
  have hpf : ∀ k, k < 4 + data.length →
      BL_HexPairToByte (IntelHex.line casing address record_type data cs ++ rest) (1 + 2 * k) =
        (IntelHex.fields address record_type data).getD k 0 := by
    intro k hk
    rw [hp k (by omega), List.getD_append _ _ _ _ (by omega)]
  have e1 : BL_HexPairToByte (IntelHex.line casing address record_type data cs ++ rest) 1 =
      data.length := hpf 0 (by omega)
  have e3 : BL_HexPairToByte (IntelHex.line casing address record_type data cs ++ rest) 3 =
      address / 256 := hpf 1 (by omega)
  have e5 : BL_HexPairToByte (IntelHex.line casing address record_type data cs ++ rest) 5 =
      address % 256 := hpf 2 (by omega)
  have e7 : BL_HexPairToByte (IntelHex.line casing address record_type data cs ++ rest) 7 =
      record_type := hpf 3 (by omega)
  have ed : ∀ i, i < data.length →
      BL_HexPairToByte (IntelHex.line casing address record_type data cs ++ rest) (9 + i * 2) =
        data.getD i 0 := by
    intro i hi
    have h := hpf (4 + i) (by omega)
    have e : 1 + 2 * (4 + i) = 9 + i * 2 := by ring
    rw [e] at h
    rw [h]
    show ([data.length, address / 256, address % 256, record_type] ++ data).getD (4 + i) 0 = _
    rw [List.getD_append_right _ _ _ _ (by simp)]
    simp
  have ec : BL_HexPairToByte (IntelHex.line casing address record_type data cs ++ rest)
      (9 + data.length * 2) = cs := by
    have h := hp (4 + data.length) (by omega)
    have e : 1 + 2 * (4 + data.length) = 9 + data.length * 2 := by ring
    rw [e] at h
    rw [h, List.getD_append_right _ _ _ _ (by omega), hfl]
    simp
  have es : BL_ProcessHexLine.sum (IntelHex.line casing address record_type data cs ++ rest)
      (9 + data.length * 2) (9 + data.length * 2) 1 0 =
      u8 (0 + (IntelHex.fields address record_type data).sum) :=
    sum_loop _ _ (IntelHex.fields address record_type data) _ 1 0
      (fun k hk => hpf k (by omega)) (by omega) (by omega) (by decide)
  have emap : (List.range data.length).map (fun i =>
      BL_HexPairToByte (IntelHex.line casing address record_type data cs ++ rest) (9 + i * 2)) =
      data := by
    conv => rhs; rw [← map_getD_range data]
    apply List.map_congr_left
    intro i hi
    exact ed i (List.mem_range.1 hi)
  have eaddr : u16 ((address / 256) <<< 8 ||| address % 256) = address := by
    rw [shl8_or _ _ (Nat.mod_lt _ (by decide))]
    unfold u16
    omega
  have esum : u8 (bitnot (u8 (0 + (IntelHex.fields address record_type data).sum)) + 1) =
      IntelHex.checksum address record_type data := by
    unfold IntelHex.checksum bitnot u8 u32
    omega
  simp only [BL_ProcessHexLine.parse, e1, e3, e5, e7, ec, es, emap, eaddr, esum]


/-! ## One line of the image -/

theorem line_starts_with_marker (casing : Nat → Bool) (address record_type : Nat)
    (data : List Nat) (cs : Nat) (rest : List Nat) :
    charAt (IntelHex.line casing address record_type data cs ++ rest) 0 = ':'.toNat := rfl

/-- C4. For every record (byte_count up to 255, 16-bit address, any record
type byte, any data bytes) written as a line with a checksum byte `cs` that
differs from the two's complement of the sum of the bytes from byte_count
through the last data byte, whatever the case of the digits and whatever
follows the line in memory: `BL_ProcessHexLine` returns false, leaves the
file-scope variables (so `base_address` and `start_address`) as they were and
makes no call on the transport. -/
theorem processHexLine_checksum_mismatch (st : State) (u : Uart) (casing : Nat → Bool)
    (address record_type : Nat) (data : List Nat) (cs : Nat) (rest : List Nat)
    (hn : data.length ≤ 255) (ha : address < 65536) (ht : record_type < 256)
    (hd : ∀ b ∈ data, b < 256) (hc : cs < 256)
    (hbad : cs ≠ IntelHex.checksum address record_type data) :
    BL_ProcessHexLine st u (IntelHex.line casing address record_type data cs ++ rest) =
      ⟨false, st, u⟩ ∧
    (BL_ProcessHexLine st u
      (IntelHex.line casing address record_type data cs ++ rest)).uart.log = u.log := by
  have hp := parse_line casing address record_type data cs rest hn ha ht hd hc
  have hne : ¬ IntelHex.checksum address record_type data = cs := fun e => hbad e.symm
  unfold BL_ProcessHexLine
  simp only [line_starts_with_marker, hp, ne_eq, not_true_eq_false, ↓reduceIte, hne,
    not_false_eq_true, and_self]

/-- C4 at the data record `:0300300002337A1E` with its checksum byte changed
to `1F`. -/
theorem processHexLine_checksum_mismatch_witness :
    IntelHex.line IntelHex.upper 0x0030 0x00 [0x02, 0x33, 0x7A] 0x1F = chars (":0300300002337A1F") ∧
    IntelHex.checksum 0x0030 0x00 [0x02, 0x33, 0x7A] = 0x1E ∧
    BL_ProcessHexLine State.flashing Uart.acking
      (IntelHex.line IntelHex.upper 0x0030 0x00 [0x02, 0x33, 0x7A] 0x1F ++ [0]) =
      ⟨false, State.flashing, Uart.acking⟩ :=
  ⟨by decide, by decide,
    (processHexLine_checksum_mismatch State.flashing Uart.acking IntelHex.upper 0x0030 0x00
      [0x02, 0x33, 0x7A] 0x1F [0] (by decide) (by decide) (by decide) (by decide) (by decide)
      (by decide)).1⟩

/-- C5. HEX round trip: for every record with byte_count `n ≤ 255`, every
16-bit address, every record type byte (so for 0x00, 0x01, 0x04 and 0x05) and
every `n` data bytes, the standard encoding of the record, with each digit in
upper or in lower case and followed by anything, passes the checksum test of
`BL_ProcessHexLine`, and the parser decodes the original byte_count, address,
record type and data bytes from it. -/
theorem hex_roundtrip (casing : Nat → Bool) (address record_type : Nat) (data : List Nat)
    (rest : List Nat) (hn : data.length ≤ 255) (ha : address < 65536)
    (ht : record_type < 256) (hd : ∀ b ∈ data, b < 256) :
    (BL_ProcessHexLine.parse (IntelHex.encode casing address record_type data ++ rest)).checksum =
      (BL_ProcessHexLine.parse
        (IntelHex.encode casing address record_type data ++ rest)).provided_checksum ∧
    (BL_ProcessHexLine.parse
      (IntelHex.encode casing address record_type data ++ rest)).byte_count = data.length ∧
    (BL_ProcessHexLine.parse
      (IntelHex.encode casing address record_type data ++ rest)).address = address ∧
    (BL_ProcessHexLine.parse
      (IntelHex.encode casing address record_type data ++ rest)).record_type = record_type ∧
    (BL_ProcessHexLine.parse
      (IntelHex.encode casing address record_type data ++ rest)).data = data := by
  have hc : IntelHex.checksum address record_type data < 256 := Nat.mod_lt _ (by decide)
  unfold IntelHex.encode
  rw [parse_line casing address record_type data _ rest hn ha ht hd hc]
  exact ⟨rfl, rfl, rfl, rfl, rfl⟩

/-- C5 at the record `:0300300002337A1E`, in upper and in lower case. -/
theorem hex_roundtrip_witness :
    IntelHex.encode IntelHex.upper 0x0030 0x00 [0x02, 0x33, 0x7A] = chars (":0300300002337A1E") ∧
    IntelHex.encode IntelHex.lower 0x0030 0x00 [0x02, 0x33, 0x7A] = chars (":0300300002337a1e") ∧
    (BL_ProcessHexLine.parse
      (IntelHex.encode IntelHex.upper 0x0030 0x00 [0x02, 0x33, 0x7A] ++ [0])).data =
      [0x02, 0x33, 0x7A] ∧
    (BL_ProcessHexLine.parse
      (IntelHex.encode IntelHex.lower 0x0030 0x00 [0x02, 0x33, 0x7A] ++ [0])).address = 0x0030 :=
  ⟨by decide, by decide,
    (hex_roundtrip IntelHex.upper 0x0030 0x00 [0x02, 0x33, 0x7A] [0] (by decide) (by decide)
      (by decide) (by decide)).2.2.2.2,
    (hex_roundtrip IntelHex.lower 0x0030 0x00 [0x02, 0x33, 0x7A] [0] (by decide) (by decide)
      (by decide) (by decide)).2.2.1⟩


/-- On a correctly encoded record `BL_ProcessHexLine` gets past the start
marker test and the checksum test and reaches the dispatch on the record type. -/
theorem processHexLine_encoded (st : State) (u : Uart) (casing : Nat → Bool)
    (address record_type : Nat) (data : List Nat) (rest : List Nat)
    (hn : data.length ≤ 255) (ha : address < 65536) (ht : record_type < 256)
    (hd : ∀ b ∈ data, b < 256) :
    BL_ProcessHexLine st u (IntelHex.encode casing address record_type data ++ rest) =
      if record_type = 0x00 then
        ⟨(BL_WriteMemory st u (u32 (st.base_address + address)) data data.length).ok, st,
          (BL_WriteMemory st u (u32 (st.base_address + address)) data data.length).uart⟩
      else if record_type = 0x01 then ⟨true, st, u⟩
      else if record_type = 0x04 then
        ⟨true, { st with base_address := u32 ((data.getD 0 0 <<< 8 ||| data.getD 1 0) <<< 16) }, u⟩
      else if record_type = 0x05 then
        ⟨true, { st with start_address := u32 ((data.getD 0 0 <<< 24) |||
          (data.getD 1 0 <<< 16) ||| (data.getD 2 0 <<< 8) ||| data.getD 3 0) }, u⟩
      else ⟨false, st, u⟩ := by
  have hc : IntelHex.checksum address record_type data < 256 := Nat.mod_lt _ (by decide)
  have hp := parse_line casing address record_type data _ rest hn ha ht hd hc
  unfold BL_ProcessHexLine IntelHex.encode
  simp only [line_starts_with_marker, hp, ne_eq, not_true_eq_false, ↓reduceIte]

/-- A Data record is handed to `BL_WriteMemory`. -/
theorem processHexLine_data (st : State) (u : Uart) (casing : Nat → Bool)
    (a : Nat) (d : List Nat) (rest : List Nat)
    (hn : d.length ≤ 255) (ha : a < 65536) (hd : ∀ b ∈ d, b < 256) :
    BL_ProcessHexLine st u (IntelHex.encode casing a 0x00 d ++ rest) =
      ⟨(BL_WriteMemory st u ((st.base_address + a) % 2 ^ 32) d d.length).ok, st,
        (BL_WriteMemory st u ((st.base_address + a) % 2 ^ 32) d d.length).uart⟩ := by
  rw [processHexLine_encoded st u casing a 0x00 d rest hn ha (by decide) hd]
  rfl

/-- C7. For every session state, every transport and every Data record (type
0x00) with `n ≤ 255` data bytes `d` and 16-bit address `a`, encoded with its
right checksum: the outcome of `BL_ProcessHexLine` is that of the one call
`BL_WriteMemory((base_address + a) mod 2^32, d, n)` made in the state and on
the transport it was entered with: it returns what that call returns, the
transport is left as that call leaves it, and the file-scope variables (so
`base_address` and `start_address`) are unchanged. -/
theorem processHexLine_data_record (st : State) (u : Uart) (casing : Nat → Bool)
    (a : Nat) (d : List Nat) (rest : List Nat)
    (hn : d.length ≤ 255) (ha : a < 65536) (hd : ∀ b ∈ d, b < 256) :
    BL_ProcessHexLine st u (IntelHex.encode casing a 0x00 d ++ rest) =
      ⟨(BL_WriteMemory st u ((st.base_address + a) % 2 ^ 32) d d.length).ok, st,
        (BL_WriteMemory st u ((st.base_address + a) % 2 ^ 32) d d.length).uart⟩ :=
  processHexLine_data st u casing a d rest hn ha hd

/-- C7 at the record `:0300300002337A1E` with `base_address = 0x08000000`. -/
theorem processHexLine_data_record_witness :
    (BL_ProcessHexLine { State.flashing with base_address := 0x08000000 } Uart.acking
      (IntelHex.encode IntelHex.upper 0x0030 0x00 [0x02, 0x33, 0x7A] ++ [0])).uart.log =
      [Call.transmit [0x31, 0xCE] 100, Call.receive 1 1000,
       Call.transmit [0x08, 0x00, 0x00, 0x30, 0x38] 100, Call.receive 1 1000,
       Call.transmit [0x02, 0x02, 0x33, 0x7A, 0x49] 100, Call.receive 1 1000] :=
  congrArg (fun r => r.uart.log)
    (processHexLine_data_record { State.flashing with base_address := 0x08000000 } Uart.acking
      IntelHex.upper 0x0030 [0x02, 0x33, 0x7A] [0] (by decide) (by decide) (by decide))

theorem shl8_or_shl16 (d0 d1 : Nat) (h0 : d0 < 256) (h1 : d1 < 256) :
    u32 ((d0 <<< 8 ||| d1) <<< 16) = (d0 * 256 + d1) * 65536 := by
  rw [shl8_or _ _ h1, Nat.shiftLeft_eq]
  unfold u32
  omega

/-- An Extended Linear Address record sets `base_address`. -/
theorem processHexLine_base (st : State) (u : Uart) (casing : Nat → Bool)
    (address d0 d1 : Nat) (rest : List Nat)
    (ha : address < 65536) (h0 : d0 < 256) (h1 : d1 < 256) :
    BL_ProcessHexLine st u (IntelHex.encode casing address 0x04 [d0, d1] ++ rest) =
      ⟨true, { st with base_address := (d0 * 256 + d1) * 65536 }, u⟩ := by
  rw [processHexLine_encoded st u casing address 0x04 [d0, d1] rest
    (by simp only [List.length_cons, List.length_nil]; omega) ha
    (by decide) (by
      intro b hb
      simp only [List.mem_cons, List.mem_singleton, List.not_mem_nil, or_false] at hb
      rcases hb with rfl | rfl <;> assumption)]
  simp only [Nat.reduceEqDiff, ↓reduceIte, List.getD_cons_zero, List.getD_cons_succ,
    shl8_or_shl16 d0 d1 h0 h1, OfNat.ofNat_ne_zero, OfNat.ofNat_ne_one]

/-- C8. For every Extended Linear Address record (type 0x04) with the two data
bytes `d0`, `d1`, encoded with its right checksum: `BL_ProcessHexLine` returns
true, sets `base_address` to `(d0 * 256 + d1) * 65536`, a 32-bit value whose
low 16 bits are zero and whose high 16 bits are `d0:d1`, changes no other
file-scope variable and makes no call on the transport; and a Data record
processed in the resulting state is written at that base plus its own 16-bit
address. -/
theorem processHexLine_extended_linear_address (st : State) (u : Uart) (casing : Nat → Bool)
    (address d0 d1 : Nat) (rest : List Nat)
    (ha : address < 65536) (h0 : d0 < 256) (h1 : d1 < 256) :
    BL_ProcessHexLine st u (IntelHex.encode casing address 0x04 [d0, d1] ++ rest) =
      ⟨true, { st with base_address := (d0 * 256 + d1) * 65536 }, u⟩ ∧
    (d0 * 256 + d1) * 65536 < 2 ^ 32 ∧
    (d0 * 256 + d1) * 65536 % 2 ^ 16 = 0 ∧
    (d0 * 256 + d1) * 65536 / 2 ^ 16 = d0 * 256 + d1 ∧
    ∀ (u2 : Uart) (casing2 : Nat → Bool) (a : Nat) (d rest2 : List Nat),
      d.length ≤ 255 → a < 65536 → (∀ b ∈ d, b < 256) →
      BL_ProcessHexLine { st with base_address := (d0 * 256 + d1) * 65536 } u2
          (IntelHex.encode casing2 a 0x00 d ++ rest2) =
        ⟨(BL_WriteMemory { st with base_address := (d0 * 256 + d1) * 65536 } u2
            ((d0 * 256 + d1) * 65536 + a) d d.length).ok,
          { st with base_address := (d0 * 256 + d1) * 65536 },
          (BL_WriteMemory { st with base_address := (d0 * 256 + d1) * 65536 } u2
            ((d0 * 256 + d1) * 65536 + a) d d.length).uart⟩ := by
  refine ⟨?_, by simp only [Nat.reducePow]; omega, by simp only [Nat.reducePow]; omega,
    by simp only [Nat.reducePow]; omega, ?_⟩
  · exact processHexLine_base st u casing address d0 d1 rest ha h0 h1
  · intro u2 casing2 a d rest2 hn ha2 hd
    rw [processHexLine_data _ u2 casing2 a d rest2 hn ha2 hd]
    have e : ((d0 * 256 + d1) * 65536 + a) % 2 ^ 32 = (d0 * 256 + d1) * 65536 + a := by
      apply Nat.mod_eq_of_lt
      simp only [Nat.reducePow]
      omega
    simp only [e]


/-- C8 at the record `:020000040800F2`, which moves the base to 0x08000000. -/
theorem processHexLine_extended_linear_address_witness :
    IntelHex.encode IntelHex.upper 0 0x04 [0x08, 0x00] = chars (":020000040800F2") ∧
    (BL_ProcessHexLine State.flashing Uart.acking
      (IntelHex.encode IntelHex.upper 0 0x04 [0x08, 0x00] ++ [0])).st.base_address =
      0x08000000 :=
  ⟨by decide, congrArg (fun r => r.st.base_address)
    (processHexLine_extended_linear_address State.flashing Uart.acking IntelHex.upper 0
      0x08 0x00 [0] (by decide) (by decide) (by decide)).1⟩

theorem be32_or (d0 d1 d2 d3 : Nat) (h1 : d1 < 256) (h2 : d2 < 256)
    (h3 : d3 < 256) :
    (d0 <<< 24) ||| (d1 <<< 16) ||| (d2 <<< 8) ||| d3 =
      d0 * 16777216 + d1 * 65536 + d2 * 256 + d3 := by
  simp only [Nat.shiftLeft_eq, Nat.reducePow]
  have a1 : 2 ^ 24 * d0 + d1 * 65536 = 2 ^ 24 * d0 ||| d1 * 65536 :=
    Nat.mul_add_lt_is_or (by simp only [Nat.reducePow]; omega) d0
  have a2 : 2 ^ 16 * (d0 * 256 + d1) + d2 * 256 = 2 ^ 16 * (d0 * 256 + d1) ||| d2 * 256 :=
    Nat.mul_add_lt_is_or (by simp only [Nat.reducePow]; omega) _
  have a3 : 2 ^ 8 * (d0 * 65536 + d1 * 256 + d2) + d3 =
      2 ^ 8 * (d0 * 65536 + d1 * 256 + d2) ||| d3 :=
    Nat.mul_add_lt_is_or (by simp only [Nat.reducePow]; omega) _
  simp only [Nat.reducePow] at a1 a2 a3
  have e1 : d0 * 16777216 = 16777216 * d0 := Nat.mul_comm _ _
  have e2 : 16777216 * d0 + d1 * 65536 = 65536 * (d0 * 256 + d1) := by omega
  have e3 : 65536 * (d0 * 256 + d1) + d2 * 256 = 256 * (d0 * 65536 + d1 * 256 + d2) := by omega
  rw [e1, ← a1, e2, ← a2, e3, ← a3]

/-- C9. For every Start Linear Address record (type 0x05) with the four data
bytes `d0 .. d3`, encoded with its right checksum: `BL_ProcessHexLine` returns
true, sets `start_address` to the big-endian value
`d0 * 2^24 + d1 * 2^16 + d2 * 2^8 + d3`, changes no other file-scope variable
(so not `base_address`) and makes no call on the transport; and
`BL_GoToUserApp` in the resulting state is `BL_Go` called with that address,
on every transport. -/
theorem processHexLine_start_linear_address (st : State) (u : Uart) (casing : Nat → Bool)
    (address d0 d1 d2 d3 : Nat) (rest : List Nat) (ha : address < 65536)
    (h0 : d0 < 256) (h1 : d1 < 256) (h2 : d2 < 256) (h3 : d3 < 256) :
    BL_ProcessHexLine st u (IntelHex.encode casing address 0x05 [d0, d1, d2, d3] ++ rest) =
      ⟨true, { st with start_address := d0 * 2 ^ 24 + d1 * 2 ^ 16 + d2 * 2 ^ 8 + d3 }, u⟩ ∧
    d0 * 2 ^ 24 + d1 * 2 ^ 16 + d2 * 2 ^ 8 + d3 < 2 ^ 32 ∧
    ∀ (u2 : Uart),
      BL_GoToUserApp { st with start_address := d0 * 2 ^ 24 + d1 * 2 ^ 16 + d2 * 2 ^ 8 + d3 } u2 =
        BL_Go { st with start_address := d0 * 2 ^ 24 + d1 * 2 ^ 16 + d2 * 2 ^ 8 + d3 } u2
          (d0 * 2 ^ 24 + d1 * 2 ^ 16 + d2 * 2 ^ 8 + d3) := by
  refine ⟨?_, by simp only [Nat.reducePow]; omega, fun u2 => rfl⟩
  rw [processHexLine_encoded st u casing address 0x05 [d0, d1, d2, d3] rest
    (by simp only [List.length_cons, List.length_nil]; omega) ha (by decide) (by
      intro b hb
      simp only [List.mem_cons, List.mem_singleton, List.not_mem_nil, or_false] at hb
      rcases hb with rfl | rfl | rfl | rfl <;> assumption)]
  have e : u32 ((d0 <<< 24) ||| (d1 <<< 16) ||| (d2 <<< 8) ||| d3) =
      d0 * 2 ^ 24 + d1 * 2 ^ 16 + d2 * 2 ^ 8 + d3 := by
    rw [be32_or d0 d1 d2 d3 h1 h2 h3]
    unfold u32
    simp only [Nat.reducePow]
    omega
  simp only [Nat.reduceEqDiff, ↓reduceIte, List.getD_cons_zero, List.getD_cons_succ, e,
    OfNat.ofNat_ne_zero, OfNat.ofNat_ne_one]

/-- C9 at the record `:04000005080000ED02`, whose entry point is 0x080000ED. -/
theorem processHexLine_start_linear_address_witness :
    IntelHex.encode IntelHex.upper 0 0x05 [0x08, 0x00, 0x00, 0xED] =
      chars (":04000005080000ED02") ∧
    (BL_ProcessHexLine State.flashing Uart.acking
      (IntelHex.encode IntelHex.upper 0 0x05 [0x08, 0x00, 0x00, 0xED] ++ [0])).st.start_address =
      0x080000ED :=
  ⟨by decide, congrArg (fun r => r.st.start_address)
    (processHexLine_start_linear_address State.flashing Uart.acking IntelHex.upper 0
      0x08 0x00 0x00 0xED [0] (by decide) (by decide) (by decide) (by decide) (by decide)).1⟩


/-! ## The upload loop -/

/-- C6, as stated, fails: the second line printed in the scenario has no
checksum byte.  The parser reads the terminating NUL where the checksum digits
should be, takes the checksum as 0 where 0x40 is due, and rejects the line: the
upload returns false and no Write Memory call is made. -/
theorem upload_scenario_as_printed_fails :
    (BL_ProcessHexLine.parse
      (chars (":10010000214601360121470136007EFE09D21901") ++ [0])).checksum = 0x40 ∧
    (BL_ProcessHexLine.parse
      (chars (":10010000214601360121470136007EFE09D21901") ++ [0])).provided_checksum = 0 ∧
    (BL_UploadHexFile true true scenario_lines (List.replicate 512 0)
      State.flashing Uart.acking).ok = false ∧
    (BL_UploadHexFile true true scenario_lines (List.replicate 512 0)
      State.flashing Uart.acking).uart.log = [] := by
  decide


theorem strcspn_plain (s rest : List Nat) (h : ∀ c ∈ s, c ≠ 0 ∧ c ≠ '\n'.toNat) :
    strcspn_newline (s ++ 0 :: rest) = s.length := by
  induction s with
  | nil => simp [strcspn_newline]
  | cons c s ih =>
    have hc := h c (List.mem_cons_self _ _)
    have hn : ¬ (c = 0 ∨ c = '\n'.toNat) := fun e => e.elim hc.1 hc.2
    show (if c = 0 ∨ c = '\n'.toNat then 0 else strcspn_newline (s ++ 0 :: rest) + 1) = _
    rw [if_neg hn, ih (fun x hx => h x (List.mem_cons_of_mem _ hx))]
    rfl

theorem set_terminator (s rest : List Nat) : (s ++ 0 :: rest).set s.length 0 = s ++ 0 :: rest := by
  induction s with
  | nil => rfl
  | cons c s ih => simp only [List.cons_append, List.length_cons, List.set_cons_succ, ih]

/-- A line without line feed read by `f_gets` and stripped: the characters,
the NUL, and behind it what the buffer held before. -/
theorem strip_plain (line s : List Nat) (h : ∀ c ∈ s, c ≠ 0 ∧ c ≠ '\n'.toNat) :
    (f_gets line s).set (strcspn_newline (f_gets line s)) 0 =
      s ++ 0 :: line.drop (s.length + 1) := by
  unfold f_gets
  rw [strcspn_plain s _ h, set_terminator]

/-- One turn of the upload loop on a line without line feed. -/
theorem loop_step (s : List Nat) (file : List (List Nat)) (line : List Nat) (st : State)
    (u : Uart) (h : ∀ c ∈ s, c ≠ 0 ∧ c ≠ '\n'.toNat) :
    BL_UploadHexFile.loop (s :: file) line st u =
      if (BL_ProcessHexLine st u (s ++ 0 :: line.drop (s.length + 1))).ok = false then
        ⟨false, (BL_ProcessHexLine st u (s ++ 0 :: line.drop (s.length + 1))).st,
          (BL_ProcessHexLine st u (s ++ 0 :: line.drop (s.length + 1))).uart⟩
      else
        BL_UploadHexFile.loop file (s ++ 0 :: line.drop (s.length + 1))
          (BL_ProcessHexLine st u (s ++ 0 :: line.drop (s.length + 1))).st
          (BL_ProcessHexLine st u (s ++ 0 :: line.drop (s.length + 1))).uart := by
  simp only [BL_UploadHexFile.loop, strip_plain line s h]

/-- C6, amended. With the second line carrying its checksum byte,
`:10010000214601360121470136007EFE09D2190140`: from every state with
`base_address = 0` in which Write Memory is supported, on every transport
whose receive calls all deliver ACK and whatever the line buffer holds on
entry, the upload of the three lines returns true, leaves the file-scope
variables as they were, and makes exactly the six calls of one Write Memory
command: the opcode frame, the address frame of 0x00000100 and the payload
frame with the 16 data bytes, each followed by the receive of one byte. -/
theorem upload_scenario (st : State) (u : Uart) (line0 : List Nat)
    (hbase : st.base_address = 0)
    (hsup : BL_IsCommandSupported st BL_CMD_WRITE_MEMORY = true)
    (hack : ∀ k, (u.rx k).isAck) :
    (BL_UploadHexFile true true scenario_lines_complete line0 st u).ok = true ∧
    (BL_UploadHexFile true true scenario_lines_complete line0 st u).st = st ∧
    (BL_UploadHexFile true true scenario_lines_complete line0 st u).uart.log = u.log ++
      [Call.transmit [0x31, 0xCE] 100, Call.receive 1 1000,
       Call.transmit [0x00, 0x00, 0x01, 0x00, 0x01] 100, Call.receive 1 1000,
       Call.transmit (0x0F :: (scenario_data ++ [0x4C])) 100, Call.receive 1 1000] := by
  have e1 : chars (":020000040000FA") = IntelHex.encode IntelHex.upper 0 0x04 [0, 0] := by
    decide
  have e2 : chars (":10010000214601360121470136007EFE09D2190140") =
      IntelHex.encode IntelHex.upper 0x0100 0x00 scenario_data := by decide
  have e3 : chars (":00000001FF") = IntelHex.encode IntelHex.upper 0 0x01 [] := by decide
  have p1 : ∀ c ∈ chars (":020000040000FA"), c ≠ 0 ∧ c ≠ '\n'.toNat := by decide
  have p2 : ∀ c ∈ chars (":10010000214601360121470136007EFE09D2190140"),
      c ≠ 0 ∧ c ≠ '\n'.toNat := by decide
  have p3 : ∀ c ∈ chars (":00000001FF"), c ≠ 0 ∧ c ≠ '\n'.toNat := by decide
  have hst : ({ st with base_address := (0 * 256 + 0) * 65536 } : State) = st := by
    cases st
    simp only [Nat.zero_mul, Nat.add_zero] at hbase ⊢
    rw [hbase]
  have hw := writeMemory_log_frame st u ((st.base_address + 0x0100) % 2 ^ 32) scenario_data
    16 (by decide) (by decide) rfl (by decide) hsup (hack 0) (hack 1)
  have hok := (writeMemory_log st u ((st.base_address + 0x0100) % 2 ^ 32) scenario_data 16
    hsup (hack 0) (hack 1)).2
  rw [(hack 2).1, (hack 2).2] at hok
  have hlen : scenario_data.length = 16 := rfl
  have r1 := processHexLine_base st u IntelHex.upper 0 0 0
    (0 :: line0.drop ((chars (":020000040000FA")).length + 1))
    (by decide) (by decide) (by decide)
  rw [hst, ← e1] at r1
  unfold BL_UploadHexFile scenario_lines_complete
  simp only [Bool.true_eq_false, ↓reduceIte]
  rw [loop_step _ _ _ _ _ p1, r1]
  simp only [Bool.true_eq_false, ↓reduceIte]
  have r2 := processHexLine_data st u IntelHex.upper 0x0100 scenario_data
    (0 :: (chars (":020000040000FA") ++ 0 :: line0.drop
      ((chars (":020000040000FA")).length + 1)).drop
      ((chars (":10010000214601360121470136007EFE09D2190140")).length + 1))
    (by decide) (by decide) (by decide)
  rw [← e2, hlen] at r2
  rw [loop_step _ _ _ _ _ p2, r2]
  simp only [hok]
  have r3 := processHexLine_encoded st
    (BL_WriteMemory st u ((st.base_address + 0x0100) % 2 ^ 32) scenario_data 16).uart
    IntelHex.upper 0 0x01 []
    (0 :: (chars (":10010000214601360121470136007EFE09D2190140") ++ 0 ::
      (chars (":020000040000FA") ++ 0 :: line0.drop
        ((chars (":020000040000FA")).length + 1)).drop
      ((chars (":10010000214601360121470136007EFE09D2190140")).length + 1)).drop
      ((chars (":00000001FF")).length + 1))
    (by decide) (by decide) (by decide) (by decide)
  rw [← e3] at r3
  rw [if_neg (by decide), if_pos rfl] at r3
  rw [loop_step _ _ _ _ _ p3, r3]
  simp only [Bool.true_eq_false, ↓reduceIte, BL_UploadHexFile.loop, decide_True, Bool.and_self,
    true_and]
  rw [hw, hbase]
  rfl

/-- C6, amended, on an acknowledging target with the line buffer zeroed. -/
theorem upload_scenario_witness :
    (BL_UploadHexFile true true scenario_lines_complete (List.replicate 512 0)
      State.flashing Uart.acking).ok = true ∧
    (BL_UploadHexFile true true scenario_lines_complete (List.replicate 512 0)
      State.flashing Uart.acking).uart.log =
      [Call.transmit [0x31, 0xCE] 100, Call.receive 1 1000,
       Call.transmit [0x00, 0x00, 0x01, 0x00, 0x01] 100, Call.receive 1 1000,
       Call.transmit [0x0F, 0x21, 0x46, 0x01, 0x36, 0x01, 0x21, 0x47, 0x01, 0x36, 0x00, 0x7E,
         0xFE, 0x09, 0xD2, 0x19, 0x01, 0x4C] 100,
       Call.receive 1 1000] :=
  ⟨(upload_scenario State.flashing Uart.acking (List.replicate 512 0) rfl (by decide)
      (fun _ => ⟨rfl, rfl⟩)).1,
    (upload_scenario State.flashing Uart.acking (List.replicate 512 0) rfl (by decide)
      (fun _ => ⟨rfl, rfl⟩)).2.2⟩

/-- C10 fails on the code.  `hex_char_to_nibble` flags the character `G` as
invalid, but `BL_HexPairToByte` turns the flag into the byte 0 and
`BL_ProcessHexLine` never tests for it: the line `:04000005GG000000F7` is
accepted and overwrites `start_address`, and the line `:01000000ZZFF` is
accepted and written to the target as the data byte 00. -/
theorem processHexLine_accepts_invalid_digits :
    hex_char_to_nibble 'G'.toNat = 0xFF ∧
    BL_HexPairToByte (chars ("GG")) 0 = 0 ∧
    (BL_ProcessHexLine State.initial Uart.acking (chars (":04000005GG000000F7"))).ok = true ∧
    State.initial.start_address = 0xFFFFFFFF ∧
    (BL_ProcessHexLine State.initial Uart.acking
      (chars (":04000005GG000000F7"))).st.start_address = 0 ∧
    (BL_ProcessHexLine State.flashing Uart.acking (chars (":01000000ZZFF"))).ok = true ∧
    (BL_ProcessHexLine State.flashing Uart.acking (chars (":01000000ZZFF"))).uart.log =
      [Call.transmit [0x31, 0xCE] 100, Call.receive 1 1000,
       Call.transmit [0x00, 0x00, 0x00, 0x00, 0x00] 100, Call.receive 1 1000,
       Call.transmit [0x00, 0x00, 0x00] 100, Call.receive 1 1000] := by
  decide

/-! ## Stages that are not acknowledged -/

/-- A stage whose reply is not an acknowledge fails the test
`status != HAL_OK || ack != BL_ACK`. -/
theorem stage_not_isAck (u : Uart) (d : List Nat) (n t : Nat) (b : List Nat) (t2 : Nat)
    (h : ¬ (u.rx 0).isAck) :
    (BL_UART_Receive (BL_UART_Transmit u d n t).uart b 1 t2).status ≠
        HAL_StatusTypeDef.HAL_OK ∨
      (BL_UART_Receive (BL_UART_Transmit u d n t).uart b 1 t2).buf.getD 0 0 ≠ BL_ACK := by
  by_cases hs : (u.rx 0).status = HAL_StatusTypeDef.HAL_OK
  · right
    rw [receive_ack (BL_UART_Transmit u d n t).uart b t2 hs]
    exact fun e => h ⟨hs, e⟩
  · left
    exact hs

/-- The value of the final test `status == HAL_OK && ack == BL_ACK` of a
stage. -/
theorem stage_final (u : Uart) (d : List Nat) (n t : Nat) (b : List Nat) (t2 : Nat) :
    (decide ((BL_UART_Receive (BL_UART_Transmit u d n t).uart b 1 t2).status =
        HAL_StatusTypeDef.HAL_OK) &&
      decide ((BL_UART_Receive (BL_UART_Transmit u d n t).uart b 1 t2).buf.getD 0 0 = BL_ACK)) =
    (decide ((u.rx 0).status = HAL_StatusTypeDef.HAL_OK) &&
      decide (u8 ((u.rx 0).byte 0) = BL_ACK)) := by
  by_cases hs : (u.rx 0).status = HAL_StatusTypeDef.HAL_OK
  · rw [receive_ack (BL_UART_Transmit u d n t).uart b t2 hs]
    rfl
  · have e : (BL_UART_Receive (BL_UART_Transmit u d n t).uart b 1 t2).status =
        (u.rx 0).status := rfl
    rw [e]
    simp only [hs, decide_False, Bool.false_and]

theorem final_false_of_not_isAck (r : RxReply) (h : ¬ r.isAck) :
    (decide (r.status = HAL_StatusTypeDef.HAL_OK) && decide (u8 (r.byte 0) = BL_ACK)) = false := by
  by_cases hs : r.status = HAL_StatusTypeDef.HAL_OK
  · have hb : ¬ u8 (r.byte 0) = BL_ACK := fun e => h ⟨hs, e⟩
    simp only [hb, decide_False, Bool.and_false]
  · simp only [hs, decide_False, Bool.false_and]

theorem final_true_iff_isAck (r : RxReply) :
    (decide (r.status = HAL_StatusTypeDef.HAL_OK) && decide (u8 (r.byte 0) = BL_ACK)) = true ↔
      r.isAck := by
  simp only [Bool.and_eq_true, decide_eq_true_eq, RxReply.isAck]

/-! ## The commands, stage by stage -/

/-- The three ways `BL_WriteMemory` can run when the command is supported. -/
theorem writeMemory_cases (st : State) (u : Uart) (address : Nat) (data : List Nat)
    (length : Nat) (hsup : BL_IsCommandSupported st BL_CMD_WRITE_MEMORY = true) :
    (¬ (u.rx 0).isAck ∧ (BL_WriteMemory st u address data length).ok = false ∧
      (BL_WriteMemory st u address data length).uart.log = u.log ++
        [Call.transmit [0x31, 0xCE] 100, Call.receive 1 1000]) ∨
    ((u.rx 0).isAck ∧ ¬ (u.rx 1).isAck ∧ (BL_WriteMemory st u address data length).ok = false ∧
      (BL_WriteMemory st u address data length).uart.log = u.log ++
        [Call.transmit [0x31, 0xCE] 100, Call.receive 1 1000,
         Call.transmit (BL_WriteMemory.address_cmd address) 100, Call.receive 1 1000]) ∨
    ((u.rx 0).isAck ∧ (u.rx 1).isAck ∧
      (BL_WriteMemory st u address data length).ok =
        (decide ((u.rx 2).status = HAL_StatusTypeDef.HAL_OK) &&
          decide (u8 ((u.rx 2).byte 0) = BL_ACK)) ∧
      (BL_WriteMemory st u address data length).uart.log = u.log ++
        [Call.transmit [0x31, 0xCE] 100, Call.receive 1 1000,
         Call.transmit (BL_WriteMemory.address_cmd address) 100, Call.receive 1 1000,
         Call.transmit ((BL_WriteMemory.full_cmd data length).take (u16 (length + 2))) 100,
         Call.receive 1 1000]) := by
  have hp : (BL_WriteMemory.address_cmd address).take 5 = BL_WriteMemory.address_cmd address := rfl
  by_cases h0 : (u.rx 0).isAck
  · by_cases h1 : (u.rx 1).isAck
    · right; right
      have h := writeMemory_log st u address data length hsup h0 h1
      exact ⟨h0, h1, h.2, h.1⟩
    · right; left
      refine ⟨h0, h1, ?_, ?_⟩
      · unfold BL_WriteMemory
        simp only [hsup, reduceCtorEq, ↓reduceIte]
        rw [if_neg (stage_isAck u _ _ _ _ _ h0),
          if_pos (stage_not_isAck (BL_UART_Receive (BL_UART_Transmit u _ _ _).uart _ _ _).uart
            _ _ _ _ _ h1)]
      · unfold BL_WriteMemory
        simp only [hsup, reduceCtorEq, ↓reduceIte]
        rw [if_neg (stage_isAck u _ _ _ _ _ h0),
          if_pos (stage_not_isAck (BL_UART_Receive (BL_UART_Transmit u _ _ _).uart _ _ _).uart
            _ _ _ _ _ h1)]
        simp only [receive_log, transmit_log, List.append_assoc, List.singleton_append, hp]
        rfl
  · left
    refine ⟨h0, ?_, ?_⟩
    · unfold BL_WriteMemory
      simp only [hsup, reduceCtorEq, ↓reduceIte]
      rw [if_pos (stage_not_isAck u _ _ _ _ _ h0)]
    · unfold BL_WriteMemory
      simp only [hsup, reduceCtorEq, ↓reduceIte]
      rw [if_pos (stage_not_isAck u _ _ _ _ _ h0)]
      simp only [receive_log, transmit_log, List.append_assoc, List.singleton_append]
      rfl

/-- The two ways `BL_EraseMemory` can run when the command is supported. -/
theorem eraseMemory_cases (st : State) (u : Uart) (page_numbers : List Nat) (num_pages : Nat)
    (hsup : BL_IsCommandSupported st BL_CMD_ERASE = true) :
    (¬ (u.rx 0).isAck ∧ (BL_EraseMemory st u page_numbers num_pages).ok = false ∧
      (BL_EraseMemory st u page_numbers num_pages).uart.log = u.log ++
        [Call.transmit [0x43, 0xBC] 100, Call.receive 1 1000]) ∨
    ((u.rx 0).isAck ∧
      (BL_EraseMemory st u page_numbers num_pages).ok =
        (decide ((u.rx 1).status = HAL_StatusTypeDef.HAL_OK) &&
          decide (u8 ((u.rx 1).byte 0) = BL_ACK)) ∧
      (BL_EraseMemory st u page_numbers num_pages).uart.log = u.log ++
        [Call.transmit [0x43, 0xBC] 100, Call.receive 1 1000,
         Call.transmit ((BL_EraseMemory.payload page_numbers num_pages).take
           (u16 (2 + 2 * num_pages))) 100,
         Call.receive 1 1000]) := by
  by_cases h0 : (u.rx 0).isAck
  · right
    refine ⟨h0, ?_, ?_⟩
    · unfold BL_EraseMemory
      simp only [hsup, reduceCtorEq, ↓reduceIte]
      rw [if_neg (stage_isAck u _ _ _ _ _ h0)]
      exact stage_final (BL_UART_Receive (BL_UART_Transmit u _ _ _).uart _ _ _).uart _ _ _ _ _
    · unfold BL_EraseMemory
      simp only [hsup, reduceCtorEq, ↓reduceIte]
      rw [if_neg (stage_isAck u _ _ _ _ _ h0)]
      simp only [receive_log, transmit_log, List.append_assoc, List.singleton_append]
      rfl
  · left
    refine ⟨h0, ?_, ?_⟩
    · unfold BL_EraseMemory
      simp only [hsup, reduceCtorEq, ↓reduceIte]
      rw [if_pos (stage_not_isAck u _ _ _ _ _ h0)]
    · unfold BL_EraseMemory
      simp only [hsup, reduceCtorEq, ↓reduceIte]
      rw [if_pos (stage_not_isAck u _ _ _ _ _ h0)]
      simp only [receive_log, transmit_log, List.append_assoc, List.singleton_append]
      rfl

/-- The four ways `BL_Go` can run when the command is supported. -/
theorem go_cases (st : State) (u : Uart) (address : Nat)
    (hsup : BL_IsCommandSupported st BL_CMD_GO = true) :
    (u.tx 0 ≠ HAL_StatusTypeDef.HAL_OK ∧ (BL_Go st u address).ok = false ∧
      (BL_Go st u address).uart.log = u.log ++ [Call.transmit [0x21, 0xDE] 100]) ∨
    (u.tx 0 = HAL_StatusTypeDef.HAL_OK ∧ ¬ (u.rx 0).isAck ∧ (BL_Go st u address).ok = false ∧
      (BL_Go st u address).uart.log = u.log ++
        [Call.transmit [0x21, 0xDE] 100, Call.receive 1 1000]) ∨
    (u.tx 0 = HAL_StatusTypeDef.HAL_OK ∧ (u.rx 0).isAck ∧ u.tx 1 ≠ HAL_StatusTypeDef.HAL_OK ∧
      (BL_Go st u address).ok = false ∧
      (BL_Go st u address).uart.log = u.log ++
        [Call.transmit [0x21, 0xDE] 100, Call.receive 1 1000,
         Call.transmit (BL_Go.address_packet address) 100]) ∨
    (u.tx 0 = HAL_StatusTypeDef.HAL_OK ∧ (u.rx 0).isAck ∧ u.tx 1 = HAL_StatusTypeDef.HAL_OK ∧
      (BL_Go st u address).ok =
        (decide ((u.rx 1).status = HAL_StatusTypeDef.HAL_OK) &&
          decide (u8 ((u.rx 1).byte 0) = BL_ACK)) ∧
      (BL_Go st u address).uart.log = u.log ++
        [Call.transmit [0x21, 0xDE] 100, Call.receive 1 1000,
         Call.transmit (BL_Go.address_packet address) 100, Call.receive 1 1000]) := by
  have hp : (BL_Go.address_packet address).take 5 = BL_Go.address_packet address := rfl
  by_cases t0 : u.tx 0 = HAL_StatusTypeDef.HAL_OK
  · by_cases h0 : (u.rx 0).isAck
    · by_cases t1 : u.tx 1 = HAL_StatusTypeDef.HAL_OK
      · right; right; right
        have e : BL_Go st u address =
            (if (BL_UART_Receive (BL_UART_Transmit (BL_UART_Receive (BL_UART_Transmit u
                  [BL_CMD_GO, u8 (BL_COMPLEMENT BL_CMD_GO)] 2 100).uart ack_uninitialised 1
                  1000).uart (BL_Go.address_packet address) 5 100).uart
                (BL_UART_Receive (BL_UART_Transmit u
                  [BL_CMD_GO, u8 (BL_COMPLEMENT BL_CMD_GO)] 2 100).uart ack_uninitialised 1
                  1000).buf 1 1000).status ≠ HAL_StatusTypeDef.HAL_OK ∨
              (BL_UART_Receive (BL_UART_Transmit (BL_UART_Receive (BL_UART_Transmit u
                  [BL_CMD_GO, u8 (BL_COMPLEMENT BL_CMD_GO)] 2 100).uart ack_uninitialised 1
                  1000).uart (BL_Go.address_packet address) 5 100).uart
                (BL_UART_Receive (BL_UART_Transmit u
                  [BL_CMD_GO, u8 (BL_COMPLEMENT BL_CMD_GO)] 2 100).uart ack_uninitialised 1
                  1000).buf 1 1000).buf.getD 0 0 ≠ BL_ACK then
              ⟨false, (BL_UART_Receive (BL_UART_Transmit (BL_UART_Receive (BL_UART_Transmit u
                  [BL_CMD_GO, u8 (BL_COMPLEMENT BL_CMD_GO)] 2 100).uart ack_uninitialised 1
                  1000).uart (BL_Go.address_packet address) 5 100).uart
                (BL_UART_Receive (BL_UART_Transmit u
                  [BL_CMD_GO, u8 (BL_COMPLEMENT BL_CMD_GO)] 2 100).uart ack_uninitialised 1
                  1000).buf 1 1000).uart⟩
            else
              ⟨true, (BL_UART_Receive (BL_UART_Transmit (BL_UART_Receive (BL_UART_Transmit u
                  [BL_CMD_GO, u8 (BL_COMPLEMENT BL_CMD_GO)] 2 100).uart ack_uninitialised 1
                  1000).uart (BL_Go.address_packet address) 5 100).uart
                (BL_UART_Receive (BL_UART_Transmit u
                  [BL_CMD_GO, u8 (BL_COMPLEMENT BL_CMD_GO)] 2 100).uart ack_uninitialised 1
                  1000).buf 1 1000).uart⟩) := by
          unfold BL_Go
          simp only [hsup, reduceCtorEq, ↓reduceIte, transmit_status, t0, ne_eq,
            not_true_eq_false]
          rw [if_neg (stage_isAck u _ _ _ _ _ h0)]
          have t1x : (BL_UART_Receive (BL_UART_Transmit u
              [BL_CMD_GO, u8 (BL_COMPLEMENT BL_CMD_GO)] 2 100).uart ack_uninitialised 1
              1000).uart.tx 0 = HAL_StatusTypeDef.HAL_OK := t1
          simp only [t1x, not_true_eq_false, ↓reduceIte]
        refine ⟨t0, h0, t1, ?_, ?_⟩
        · rw [e]
          by_cases h1 : (u.rx 1).isAck
          · rw [if_neg (stage_isAck (BL_UART_Receive (BL_UART_Transmit u _ _ _).uart _ _
              _).uart _ _ _ _ _ h1)]
            exact ((final_true_iff_isAck _).2 h1).symm
          · rw [if_pos (stage_not_isAck (BL_UART_Receive (BL_UART_Transmit u _ _ _).uart _ _
              _).uart _ _ _ _ _ h1)]
            exact (final_false_of_not_isAck _ h1).symm
        · rw [e]
          split <;>
          · simp only [receive_log, transmit_log, List.append_assoc, List.singleton_append, hp]
            rfl
      · right; right; left
        have t1x : (BL_UART_Receive (BL_UART_Transmit u
            [BL_CMD_GO, u8 (BL_COMPLEMENT BL_CMD_GO)] 2 100).uart ack_uninitialised 1
            1000).uart.tx 0 ≠ HAL_StatusTypeDef.HAL_OK := t1
        refine ⟨t0, h0, t1, ?_, ?_⟩
        · unfold BL_Go
          simp only [hsup, reduceCtorEq, ↓reduceIte, transmit_status, t0, ne_eq,
            not_true_eq_false]
          rw [if_neg (stage_isAck u _ _ _ _ _ h0)]
          simp only [t1x, not_false_eq_true, ↓reduceIte]
        · unfold BL_Go
          simp only [hsup, reduceCtorEq, ↓reduceIte, transmit_status, t0, ne_eq,
            not_true_eq_false]
          rw [if_neg (stage_isAck u _ _ _ _ _ h0)]
          simp only [t1x, not_false_eq_true, ↓reduceIte, receive_log, transmit_log,
            List.append_assoc, List.singleton_append, hp]
          rfl
    · right; left
      refine ⟨t0, h0, ?_, ?_⟩
      · unfold BL_Go
        simp only [hsup, reduceCtorEq, ↓reduceIte, transmit_status, t0, ne_eq,
          not_true_eq_false]
        rw [if_pos (stage_not_isAck u _ _ _ _ _ h0)]
      · unfold BL_Go
        simp only [hsup, reduceCtorEq, ↓reduceIte, transmit_status, t0, ne_eq,
          not_true_eq_false]
        rw [if_pos (stage_not_isAck u _ _ _ _ _ h0)]
        simp only [receive_log, transmit_log, List.append_assoc, List.singleton_append]
        rfl
  · left
    refine ⟨t0, ?_, ?_⟩
    · unfold BL_Go
      simp only [hsup, reduceCtorEq, ↓reduceIte, transmit_status, t0, ne_eq,
        not_false_eq_true]
    · unfold BL_Go
      simp only [hsup, reduceCtorEq, ↓reduceIte, transmit_status, t0, ne_eq,
        not_false_eq_true, transmit_log]
      rfl

/-- The four ways `BL_ReadMemory` can run when the command is supported. -/
theorem readMemory_cases (st : State) (u : Uart) (address : Nat) (data : List Nat)
    (length : Nat) (hsup : BL_IsCommandSupported st BL_CMD_READ_MEMORY = true) :
    (¬ (u.rx 0).isAck ∧ (BL_ReadMemory st u address data length).ok = false ∧
      (BL_ReadMemory st u address data length).data = data ∧
      (BL_ReadMemory st u address data length).uart.log = u.log ++
        [Call.transmit [0x11, 0xEE] 100, Call.receive 1 1000]) ∨
    ((u.rx 0).isAck ∧ ¬ (u.rx 1).isAck ∧ (BL_ReadMemory st u address data length).ok = false ∧
      (BL_ReadMemory st u address data length).data = data ∧
      (BL_ReadMemory st u address data length).uart.log = u.log ++
        [Call.transmit [0x11, 0xEE] 100, Call.receive 1 1000,
         Call.transmit (BL_ReadMemory.address_cmd address) 100, Call.receive 1 1000]) ∨
    ((u.rx 0).isAck ∧ (u.rx 1).isAck ∧ ¬ (u.rx 2).isAck ∧
      (BL_ReadMemory st u address data length).ok = false ∧
      (BL_ReadMemory st u address data length).data = data ∧
      (BL_ReadMemory st u address data length).uart.log = u.log ++
        [Call.transmit [0x11, 0xEE] 100, Call.receive 1 1000,
         Call.transmit (BL_ReadMemory.address_cmd address) 100, Call.receive 1 1000,
         Call.transmit [u8 (minus_one length), u8 (bitnot (minus_one length))] 100,
         Call.receive 1 1000]) ∨
    ((u.rx 0).isAck ∧ (u.rx 1).isAck ∧ (u.rx 2).isAck ∧
      (BL_ReadMemory st u address data length).ok =
        decide ((u.rx 3).status = HAL_StatusTypeDef.HAL_OK) ∧
      (BL_ReadMemory st u address data length).uart.log = u.log ++
        [Call.transmit [0x11, 0xEE] 100, Call.receive 1 1000,
         Call.transmit (BL_ReadMemory.address_cmd address) 100, Call.receive 1 1000,
         Call.transmit [u8 (minus_one length), u8 (bitnot (minus_one length))] 100,
         Call.receive 1 1000, Call.receive length 1000]) := by
  have hp : (BL_ReadMemory.address_cmd address).take 5 = BL_ReadMemory.address_cmd address := rfl
  by_cases h0 : (u.rx 0).isAck
  · by_cases h1 : (u.rx 1).isAck
    · by_cases h2 : (u.rx 2).isAck
      · right; right; right
        refine ⟨h0, h1, h2, ?_, ?_⟩
        · unfold BL_ReadMemory
          simp only [hsup, reduceCtorEq, ↓reduceIte]
          rw [if_neg (stage_isAck u _ _ _ _ _ h0),
            if_neg (stage_isAck (BL_UART_Receive (BL_UART_Transmit u _ _ _).uart _ _ _).uart
              _ _ _ _ _ h1),
            if_neg (stage_isAck (BL_UART_Receive (BL_UART_Transmit (BL_UART_Receive
              (BL_UART_Transmit u _ _ _).uart _ _ _).uart _ _ _).uart _ _ _).uart
              _ _ _ _ _ h2)]
          rfl
        · unfold BL_ReadMemory
          simp only [hsup, reduceCtorEq, ↓reduceIte]
          rw [if_neg (stage_isAck u _ _ _ _ _ h0),
            if_neg (stage_isAck (BL_UART_Receive (BL_UART_Transmit u _ _ _).uart _ _ _).uart
              _ _ _ _ _ h1),
            if_neg (stage_isAck (BL_UART_Receive (BL_UART_Transmit (BL_UART_Receive
              (BL_UART_Transmit u _ _ _).uart _ _ _).uart _ _ _).uart _ _ _).uart
              _ _ _ _ _ h2)]
          simp only [receive_log, transmit_log, List.append_assoc, List.singleton_append, hp]
          rfl
      · right; right; left
        refine ⟨h0, h1, h2, ?_, ?_, ?_⟩ <;>
        · unfold BL_ReadMemory
          simp only [hsup, reduceCtorEq, ↓reduceIte]
          rw [if_neg (stage_isAck u _ _ _ _ _ h0),
            if_neg (stage_isAck (BL_UART_Receive (BL_UART_Transmit u _ _ _).uart _ _ _).uart
              _ _ _ _ _ h1),
            if_pos (stage_not_isAck (BL_UART_Receive (BL_UART_Transmit (BL_UART_Receive
              (BL_UART_Transmit u _ _ _).uart _ _ _).uart _ _ _).uart _ _ _).uart
              _ _ _ _ _ h2)]
          try simp only [receive_log, transmit_log, List.append_assoc, List.singleton_append, hp]
          try rfl
    · right; left
      refine ⟨h0, h1, ?_, ?_, ?_⟩ <;>
      · unfold BL_ReadMemory
        simp only [hsup, reduceCtorEq, ↓reduceIte]
        rw [if_neg (stage_isAck u _ _ _ _ _ h0),
          if_pos (stage_not_isAck (BL_UART_Receive (BL_UART_Transmit u _ _ _).uart _ _ _).uart
            _ _ _ _ _ h1)]
        try simp only [receive_log, transmit_log, List.append_assoc, List.singleton_append, hp]
        try rfl
  · left
    refine ⟨h0, ?_, ?_, ?_⟩ <;>
    · unfold BL_ReadMemory
      simp only [hsup, reduceCtorEq, ↓reduceIte]
      rw [if_pos (stage_not_isAck u _ _ _ _ _ h0)]
      try simp only [receive_log, transmit_log, List.append_assoc, List.singleton_append]
      try rfl

/-- A receive call that succeeds stores the bytes that arrived over the start
of the buffer. -/
theorem receive_buf (u : Uart) (b : List Nat) (n t : Nat)
    (h : (u.rx 0).status = HAL_StatusTypeDef.HAL_OK) :
    (BL_UART_Receive u b n t).buf =
      (List.range n).map (fun i => u8 ((u.rx 0).byte i)) ++ b.drop n := by
  simp [BL_UART_Receive, HAL_UART_Receive, RxReply.stored, h]

theorem map_range_succ_drop (f : Nat → Nat) (n : Nat) :
    ((List.range (n + 1)).map f).drop 1 = (List.range n).map (fun i => f (i + 1)) := by
  rw [List.range_succ_eq_map]
  simp [Function.comp_def]

theorem map_range_succ_head (f : Nat → Nat) (n d : Nat) (rest : List Nat) :
    ((List.range (n + 1)).map f ++ rest).headD d = f 0 := by
  rw [List.range_succ_eq_map]
  rfl

/-- The four ways `BL_Get` can run when opcode 0x00 is supported. -/
theorem get_cases (st : State) (u : Uart) (below : Nat) (buffer : List Nat)
    (max_len out_len : Nat) (hsup : BL_IsCommandSupported st BL_CMD_GET = true) :
    (¬ (u.rx 0).isAck ∧ (BL_Get st u below buffer max_len out_len).ok = false ∧
      (BL_Get st u below buffer max_len out_len).below = below ∧
      (BL_Get st u below buffer max_len out_len).buffer = buffer ∧
      (BL_Get st u below buffer max_len out_len).out_len = out_len ∧
      (BL_Get st u below buffer max_len out_len).uart.log = u.log ++
        [Call.transmit [0x00, 0xFF] 100, Call.receive 1 1000]) ∨
    ((u.rx 0).isAck ∧ (u.rx 1).status ≠ HAL_StatusTypeDef.HAL_OK ∧
      (BL_Get st u below buffer max_len out_len).ok = false ∧
      (BL_Get st u below buffer max_len out_len).below = below ∧
      (BL_Get st u below buffer max_len out_len).out_len = out_len ∧
      (BL_Get st u below buffer max_len out_len).uart.log = u.log ++
        [Call.transmit [0x00, 0xFF] 100, Call.receive 1 1000, Call.receive 1 1000]) ∨
    ((u.rx 0).isAck ∧ (u.rx 1).status = HAL_StatusTypeDef.HAL_OK ∧
      max_len < u8 ((u.rx 1).byte 0) ∧
      (BL_Get st u below buffer max_len out_len).ok = false ∧
      (BL_Get st u below buffer max_len out_len).below = below ∧
      (BL_Get st u below buffer max_len out_len).buffer =
        u8 ((u.rx 1).byte 0) :: buffer.drop 1 ∧
      (BL_Get st u below buffer max_len out_len).out_len = out_len ∧
      (BL_Get st u below buffer max_len out_len).uart.log = u.log ++
        [Call.transmit [0x00, 0xFF] 100, Call.receive 1 1000, Call.receive 1 1000]) ∨
    ((u.rx 0).isAck ∧ (u.rx 1).status = HAL_StatusTypeDef.HAL_OK ∧
      u8 ((u.rx 1).byte 0) ≤ max_len ∧
      (BL_Get st u below buffer max_len out_len).ok =
        decide ((u.rx 2).status = HAL_StatusTypeDef.HAL_OK) ∧
      (BL_Get st u below buffer max_len out_len).uart.log = u.log ++
        [Call.transmit [0x00, 0xFF] 100, Call.receive 1 1000, Call.receive 1 1000,
         Call.receive (u8 ((u.rx 1).byte 0) + 1) 1000] ∧
      ((u.rx 2).status = HAL_StatusTypeDef.HAL_OK →
        (BL_Get st u below buffer max_len out_len).out_len = u8 ((u.rx 1).byte 0) ∧
        (BL_Get st u below buffer max_len out_len).below = u8 ((u.rx 2).byte 0) ∧
        (BL_Get st u below buffer max_len out_len).buffer =
          (List.range (u8 ((u.rx 1).byte 0))).map (fun i => u8 ((u.rx 2).byte (i + 1))) ++
            (u8 ((u.rx 1).byte 0) :: buffer.drop 1).drop (u8 ((u.rx 1).byte 0))) ∧
      ((u.rx 2).status ≠ HAL_StatusTypeDef.HAL_OK →
        (BL_Get st u below buffer max_len out_len).out_len = out_len)) := by
  by_cases h0 : (u.rx 0).isAck
  · by_cases h1 : (u.rx 1).status = HAL_StatusTypeDef.HAL_OK
    · have hb := receive_buf (BL_UART_Receive (BL_UART_Transmit u
        [BL_CMD_GET, u8 (BL_COMPLEMENT BL_CMD_GET)] 2 100).uart ack_uninitialised 1 1000).uart
        buffer 1 1000 h1
      have hb2 : (BL_UART_Receive (BL_UART_Receive (BL_UART_Transmit u
          [BL_CMD_GET, u8 (BL_COMPLEMENT BL_CMD_GET)] 2 100).uart ack_uninitialised 1
          1000).uart buffer 1 1000).buf = u8 ((u.rx 1).byte 0) :: buffer.drop 1 := by
        rw [hb]; rfl
      have hn := u8_lt ((u.rx 1).byte 0)
      have h16 : u16 (u8 ((u.rx 1).byte 0) + 1) = u8 ((u.rx 1).byte 0) + 1 := by
        unfold u16 u8 at *
        omega
      by_cases hm : u8 ((u.rx 1).byte 0) ≤ max_len
      · right; right; right
        have e : BL_Get st u below buffer max_len out_len =
            (if (u.rx 2).status ≠ HAL_StatusTypeDef.HAL_OK then
              ⟨false,
                (BL_UART_Receive (BL_UART_Receive (BL_UART_Receive (BL_UART_Transmit u
                  [BL_CMD_GET, u8 (BL_COMPLEMENT BL_CMD_GET)] 2 100).uart ack_uninitialised 1
                  1000).uart buffer 1 1000).uart
                  (below :: u8 ((u.rx 1).byte 0) :: buffer.drop 1)
                  (u8 ((u.rx 1).byte 0) + 1) 1000).buf.headD below,
                (BL_UART_Receive (BL_UART_Receive (BL_UART_Receive (BL_UART_Transmit u
                  [BL_CMD_GET, u8 (BL_COMPLEMENT BL_CMD_GET)] 2 100).uart ack_uninitialised 1
                  1000).uart buffer 1 1000).uart
                  (below :: u8 ((u.rx 1).byte 0) :: buffer.drop 1)
                  (u8 ((u.rx 1).byte 0) + 1) 1000).buf.drop 1, out_len,
                (BL_UART_Receive (BL_UART_Receive (BL_UART_Receive (BL_UART_Transmit u
                  [BL_CMD_GET, u8 (BL_COMPLEMENT BL_CMD_GET)] 2 100).uart ack_uninitialised 1
                  1000).uart buffer 1 1000).uart
                  (below :: u8 ((u.rx 1).byte 0) :: buffer.drop 1)
                  (u8 ((u.rx 1).byte 0) + 1) 1000).uart⟩
            else
              ⟨true,
                (BL_UART_Receive (BL_UART_Receive (BL_UART_Receive (BL_UART_Transmit u
                  [BL_CMD_GET, u8 (BL_COMPLEMENT BL_CMD_GET)] 2 100).uart ack_uninitialised 1
                  1000).uart buffer 1 1000).uart
                  (below :: u8 ((u.rx 1).byte 0) :: buffer.drop 1)
                  (u8 ((u.rx 1).byte 0) + 1) 1000).buf.headD below,
                (BL_UART_Receive (BL_UART_Receive (BL_UART_Receive (BL_UART_Transmit u
                  [BL_CMD_GET, u8 (BL_COMPLEMENT BL_CMD_GET)] 2 100).uart ack_uninitialised 1
                  1000).uart buffer 1 1000).uart
                  (below :: u8 ((u.rx 1).byte 0) :: buffer.drop 1)
                  (u8 ((u.rx 1).byte 0) + 1) 1000).buf.drop 1, u8 ((u.rx 1).byte 0),
                (BL_UART_Receive (BL_UART_Receive (BL_UART_Receive (BL_UART_Transmit u
                  [BL_CMD_GET, u8 (BL_COMPLEMENT BL_CMD_GET)] 2 100).uart ack_uninitialised 1
                  1000).uart buffer 1 1000).uart
                  (below :: u8 ((u.rx 1).byte 0) :: buffer.drop 1)
                  (u8 ((u.rx 1).byte 0) + 1) 1000).uart⟩) := by
          unfold BL_Get
          simp only [hsup, reduceCtorEq, ↓reduceIte]
          rw [if_neg (stage_isAck u _ _ _ _ _ h0)]
          simp only [hb2, List.getD_cons_zero, u8_of_lt hn, h16]
          have hs : (BL_UART_Receive (BL_UART_Receive (BL_UART_Transmit u
              [BL_CMD_GET, u8 (BL_COMPLEMENT BL_CMD_GET)] 2 100).uart ack_uninitialised 1
              1000).uart buffer 1 1000).status = HAL_StatusTypeDef.HAL_OK := h1
          rw [if_neg (by rw [hs]; exact fun h => h rfl), if_neg (by omega)]
          rfl
        refine ⟨h0, h1, hm, ?_, ?_, ?_, ?_⟩
        · rw [e]
          by_cases h2 : (u.rx 2).status = HAL_StatusTypeDef.HAL_OK
          · simp only [h2, ne_eq, not_true_eq_false, ↓reduceIte, decide_True]
          · simp only [h2, ne_eq, not_false_eq_true, ↓reduceIte, decide_False]
        · rw [e]
          split <;>
          · simp only [receive_log, transmit_log, List.append_assoc, List.singleton_append]
            rfl
        · intro h2
          have hb3 := receive_buf (BL_UART_Receive (BL_UART_Receive (BL_UART_Transmit u
            [BL_CMD_GET, u8 (BL_COMPLEMENT BL_CMD_GET)] 2 100).uart ack_uninitialised 1
            1000).uart buffer 1 1000).uart (below :: u8 ((u.rx 1).byte 0) :: buffer.drop 1)
            (u8 ((u.rx 1).byte 0) + 1) 1000 h2
          rw [e, if_neg (by rw [h2]; exact fun h => h rfl)]
          simp only [hb3]
          refine ⟨trivial, ?_, ?_⟩
          · exact map_range_succ_head _ _ _ _
          · rw [List.drop_append_of_le_length (by simp), map_range_succ_drop]
            rfl
        · intro h2
          rw [e, if_pos h2]
      · right; right; left
        have hs : (BL_UART_Receive (BL_UART_Receive (BL_UART_Transmit u
            [BL_CMD_GET, u8 (BL_COMPLEMENT BL_CMD_GET)] 2 100).uart ack_uninitialised 1
            1000).uart buffer 1 1000).status = HAL_StatusTypeDef.HAL_OK := h1
        have e : BL_Get st u below buffer max_len out_len =
            ⟨false, below, u8 ((u.rx 1).byte 0) :: buffer.drop 1, out_len,
              (BL_UART_Receive (BL_UART_Receive (BL_UART_Transmit u
                [BL_CMD_GET, u8 (BL_COMPLEMENT BL_CMD_GET)] 2 100).uart ack_uninitialised 1
                1000).uart buffer 1 1000).uart⟩ := by
          unfold BL_Get
          simp only [hsup, reduceCtorEq, ↓reduceIte]
          rw [if_neg (stage_isAck u _ _ _ _ _ h0)]
          simp only [hb2, List.getD_cons_zero, u8_of_lt hn]
          rw [if_neg (by rw [hs]; exact fun h => h rfl), if_pos (by omega)]
        refine ⟨h0, h1, by omega, ?_, ?_, ?_, ?_, ?_⟩ <;> rw [e]
        simp only [receive_log, transmit_log, List.append_assoc, List.singleton_append]
        rfl
    · right; left
      have hs : (BL_UART_Receive (BL_UART_Receive (BL_UART_Transmit u
          [BL_CMD_GET, u8 (BL_COMPLEMENT BL_CMD_GET)] 2 100).uart ack_uninitialised 1
          1000).uart buffer 1 1000).status ≠ HAL_StatusTypeDef.HAL_OK := h1
      have e : BL_Get st u below buffer max_len out_len =
          ⟨false, below, (BL_UART_Receive (BL_UART_Receive (BL_UART_Transmit u
              [BL_CMD_GET, u8 (BL_COMPLEMENT BL_CMD_GET)] 2 100).uart ack_uninitialised 1
              1000).uart buffer 1 1000).buf, out_len,
            (BL_UART_Receive (BL_UART_Receive (BL_UART_Transmit u
              [BL_CMD_GET, u8 (BL_COMPLEMENT BL_CMD_GET)] 2 100).uart ack_uninitialised 1
              1000).uart buffer 1 1000).uart⟩ := by
        unfold BL_Get
        simp only [hsup, reduceCtorEq, ↓reduceIte]
        rw [if_neg (stage_isAck u _ _ _ _ _ h0), if_pos hs]
      refine ⟨h0, h1, ?_, ?_, ?_, ?_⟩ <;> rw [e]
      simp only [receive_log, transmit_log, List.append_assoc, List.singleton_append]
      rfl
  · left
    have e : BL_Get st u below buffer max_len out_len =
        ⟨false, below, buffer, out_len, (BL_UART_Receive (BL_UART_Transmit u
          [BL_CMD_GET, u8 (BL_COMPLEMENT BL_CMD_GET)] 2 100).uart ack_uninitialised 1
          1000).uart⟩ := by
      unfold BL_Get
      simp only [hsup, reduceCtorEq, ↓reduceIte]
      rw [if_pos (stage_not_isAck u _ _ _ _ _ h0)]
    refine ⟨h0, ?_, ?_, ?_, ?_, ?_⟩ <;> rw [e]
    simp only [receive_log, transmit_log, List.append_assoc, List.singleton_append]
    rfl

/-! ## The handshake -/

@[simp] theorem sync_stage_rx (u : Uart) (k : Nat) : (sync_stage u).rx k = u.rx (k + 2) := rfl

@[simp] theorem sync_stage_tx (u : Uart) (k : Nat) : (sync_stage u).tx k = u.tx (k + 1) := rfl

@[simp] theorem sync_stage_log (u : Uart) :
    (sync_stage u).log = u.log ++
      [Call.receive 8 10, Call.transmit [0x7F] 100, Call.receive 1 1000] := by
  have e : (HAL_UART_Receive u empty_buf_uninitialised 8 10).uart.log =
      u.log ++ [Call.receive 8 10] := rfl
  simp only [sync_stage, receive_log, transmit_log, e, List.append_assoc, List.singleton_append]
  rfl

/-- The handshake stops when the synchronization byte is not acknowledged. -/
theorem init_not_acked (st : State) (u : Uart) (below : Nat) (h : ¬ (u.rx 1).isAck) :
    BL_InitBootloader st u below = ⟨false, st, below, sync_stage u⟩ := by
  unfold BL_InitBootloader
  simp only []
  rw [if_pos (stage_not_isAck (HAL_UART_Receive u empty_buf_uninitialised 8 10).uart
    _ _ _ _ _ h)]
  rfl

/-- The handshake goes on with `BL_Get` when the synchronization byte is
acknowledged. -/
theorem init_acked (st : State) (u : Uart) (below : Nat) (h : (u.rx 1).isAck) :
    BL_InitBootloader st u below =
      ⟨(BL_Get st (sync_stage u) below st.supported_cmd 15 st.supported_cmd_len).ok,
        { st with
          supported_cmd :=
            (BL_Get st (sync_stage u) below st.supported_cmd 15 st.supported_cmd_len).buffer
          supported_cmd_len :=
            (BL_Get st (sync_stage u) below st.supported_cmd 15 st.supported_cmd_len).out_len },
        (BL_Get st (sync_stage u) below st.supported_cmd 15 st.supported_cmd_len).below,
        (BL_Get st (sync_stage u) below st.supported_cmd 15 st.supported_cmd_len).uart⟩ := by
  unfold BL_InitBootloader
  simp only []
  rw [if_neg (stage_isAck (HAL_UART_Receive u empty_buf_uninitialised 8 10).uart
    _ _ _ _ _ h)]
  rfl

/-- An unsupported Get is refused before any call on the transport. -/
theorem get_unsupported (st : State) (u : Uart) (below : Nat) (buffer : List Nat)
    (max_len out_len : Nat) (h : BL_IsCommandSupported st BL_CMD_GET = false) :
    BL_Get st u below buffer max_len out_len = ⟨false, below, buffer, out_len, u⟩ := by
  unfold BL_Get
  simp only [h, ↓reduceIte]

/-! ## Jump to the application -/

/-- C11 fails on the code.  `start_address` starts as 0xFFFFFFFF, which the
code comments as an invalid default address, but `BL_GoToUserApp` passes it to
`BL_Go` without a test: in a session in which Go is supported and no Start
Linear Address record has been processed, on an acknowledging target, it
transmits the Go frame and the address frame FF FF FF FF 00 and returns
true. -/
theorem goToUserApp_sends_sentinel :
    State.flashing.start_address = 0xFFFFFFFF ∧
    BL_IsCommandSupported State.flashing BL_CMD_GO = true ∧
    (BL_GoToUserApp State.flashing Uart.acking).ok = true ∧
    (BL_GoToUserApp State.flashing Uart.acking).uart.log =
      [Call.transmit [0x21, 0xDE] 100, Call.receive 1 1000,
       Call.transmit [0xFF, 0xFF, 0xFF, 0xFF, 0x00] 100, Call.receive 1 1000] := by
  decide

/-! ## Lines that are rejected -/

/-- C14. For every state and transport: a line with the start marker and a
right checksum whose record type byte is none of 0x00, 0x01, 0x04, 0x05 makes
`BL_ProcessHexLine` return false with the file-scope variables (so
`base_address` and `start_address`) and the transport untouched; and so does
every line whose first character is not the start marker, the empty line
included, whatever the rest of it. -/
theorem processHexLine_rejects (st : State) (u : Uart) :
    (∀ (casing : Nat → Bool) (address record_type : Nat) (data rest : List Nat),
      data.length ≤ 255 → address < 65536 → record_type < 256 → (∀ b ∈ data, b < 256) →
      record_type ≠ 0x00 → record_type ≠ 0x01 → record_type ≠ 0x04 → record_type ≠ 0x05 →
      BL_ProcessHexLine st u (IntelHex.encode casing address record_type data ++ rest) =
        ⟨false, st, u⟩) ∧
    (∀ (line : List Nat), line.head? ≠ some ':'.toNat →
      BL_ProcessHexLine st u line = ⟨false, st, u⟩) := by
  constructor
  · intro casing address record_type data rest hn ha ht hd h0 h1 h4 h5
    rw [processHexLine_encoded st u casing address record_type data rest hn ha ht hd]
    simp only [h0, h1, h4, h5, ↓reduceIte]
  · intro line h
    have hc : charAt line 0 ≠ ':'.toNat := by
      cases line with
      | nil => decide
      | cons c line =>
        intro e
        apply h
        simp only [List.head?_cons]
        exact congrArg some e
    unfold BL_ProcessHexLine
    rw [if_pos hc]

/-- C14 at the Extended Segment Address record `:020000021200EA` (type 0x02)
and at a line without start marker. -/
theorem processHexLine_rejects_witness :
    IntelHex.encode IntelHex.upper 0 0x02 [0x12, 0x00] = chars (":020000021200EA") ∧
    BL_ProcessHexLine State.flashing Uart.acking
      (IntelHex.encode IntelHex.upper 0 0x02 [0x12, 0x00] ++ [0]) =
      ⟨false, State.flashing, Uart.acking⟩ ∧
    BL_ProcessHexLine State.flashing Uart.acking (chars ("0300300002337A1E")) =
      ⟨false, State.flashing, Uart.acking⟩ :=
  ⟨by decide,
    (processHexLine_rejects State.flashing Uart.acking).1 IntelHex.upper 0 0x02 [0x12, 0x00] [0]
      (by decide) (by decide) (by decide) (by decide) (by decide) (by decide) (by decide)
      (by decide),
    (processHexLine_rejects State.flashing Uart.acking).2 (chars ("0300300002337A1E"))
      (by decide)⟩

/-! ## Capability discovery -/

theorem not_isAck_of_status (r : RxReply) (h : r.status ≠ HAL_StatusTypeDef.HAL_OK) :
    ¬ r.isAck := fun a => h a.1

/-- The first frame of `BL_Go` when the command is supported. -/
theorem go_first_frame (st : State) (u : Uart) (address : Nat)
    (hsup : BL_IsCommandSupported st BL_CMD_GO = true) :
    ∃ rest, (BL_Go st u address).uart.log = u.log ++ Call.transmit [0x21, 0xDE] 100 :: rest := by
  rcases go_cases st u address hsup with h | h | h | h
  · exact ⟨_, h.2.2⟩
  · exact ⟨_, h.2.2.2⟩
  · exact ⟨_, h.2.2.2.2⟩
  · exact ⟨_, h.2.2.2.2⟩

/-- The first frame of `BL_Get` when opcode 0x00 is supported. -/
theorem get_first_frame (st : State) (u : Uart) (below : Nat) (buffer : List Nat)
    (max_len out_len : Nat) (hsup : BL_IsCommandSupported st BL_CMD_GET = true) :
    ∃ rest, (BL_Get st u below buffer max_len out_len).uart.log =
      u.log ++ Call.transmit [0x00, 0xFF] 100 :: rest := by
  rcases get_cases st u below buffer max_len out_len hsup with h | h | h | h
  · exact ⟨_, h.2.2.2.2.2⟩
  · exact ⟨_, h.2.2.2.2.2⟩
  · exact ⟨_, h.2.2.2.2.2.2.2⟩
  · exact ⟨_, h.2.2.2.2.1⟩

/-- The handshake with the reply of the scenario: what it returns and what it
leaves in `supported_cmd`. -/
theorem init_go_only (st : State) (u : Uart) (below version : Nat)
    (hget : BL_IsCommandSupported st BL_CMD_GET = true)
    (hsync : (u.rx 1).isAck) (hack : (u.rx 2).isAck)
    (hcount : (u.rx 3).status = HAL_StatusTypeDef.HAL_OK ∧ u8 ((u.rx 3).byte 0) = 1)
    (hresp : (u.rx 4).status = HAL_StatusTypeDef.HAL_OK ∧ u8 ((u.rx 4).byte 0) = version ∧
      u8 ((u.rx 4).byte 1) = 0x21) :
    (BL_InitBootloader st u below).ok = true ∧
    (BL_InitBootloader st u below).below = version ∧
    (BL_InitBootloader st u below).st =
      { st with supported_cmd := 0x21 :: st.supported_cmd.drop 1, supported_cmd_len := 1 } := by
  rw [init_acked st u below hsync]
  have h0 : ((sync_stage u).rx 0).isAck := hack
  have h1 : ((sync_stage u).rx 1).status = HAL_StatusTypeDef.HAL_OK := hcount.1
  have hn : u8 (((sync_stage u).rx 1).byte 0) = 1 := hcount.2
  have h2 : ((sync_stage u).rx 2).status = HAL_StatusTypeDef.HAL_OK := hresp.1
  rcases get_cases st (sync_stage u) below st.supported_cmd 15 st.supported_cmd_len hget with
    h | h | h | h
  · exact absurd h0 h.1
  · exact absurd h1 h.2.1
  · have := h.2.2.1
    rw [hn] at this
    omega
  · obtain ⟨_, _, _, hok, _, hsucc, _⟩ := h
    obtain ⟨hlen, hbelow, hbuf⟩ := hsucc h2
    rw [hn] at hlen hbuf
    refine ⟨?_, ?_, ?_⟩
    · simp only [hok, h2, decide_True]
    · simp only [hbelow]
      exact hresp.2.1
    · simp only [hlen, hbuf]
      simp [List.range_succ, hresp.2.2]

/-- C16. Handshake scenario.  From every state in which opcode 0x00 is
supported (so from the initial state), when the transport answers the
synchronization byte with ACK, the Get frame with ACK, then delivers the count
byte 1 and then the version byte followed by the single opcode 0x21:
`BL_InitBootloader` returns true and the Supported-Command Set it leaves is
exactly `[0x21]`; in that state `BL_Go` is not refused and its first call on
any transport is the transmit of the opcode frame `[0x21, 0xDE]`, and
`BL_WriteMemory` returns false and leaves any transport untouched. -/
theorem handshake_scenario (st : State) (u : Uart) (below version : Nat)
    (hget : BL_IsCommandSupported st BL_CMD_GET = true)
    (hsync : (u.rx 1).isAck) (hack : (u.rx 2).isAck)
    (hcount : (u.rx 3).status = HAL_StatusTypeDef.HAL_OK ∧ u8 ((u.rx 3).byte 0) = 1)
    (hresp : (u.rx 4).status = HAL_StatusTypeDef.HAL_OK ∧ u8 ((u.rx 4).byte 0) = version ∧
      u8 ((u.rx 4).byte 1) = 0x21) :
    (BL_InitBootloader st u below).ok = true ∧
    (BL_InitBootloader st u below).st.supported = [0x21] ∧
    (BL_InitBootloader st u below).st.supported_cmd_len = 1 ∧
    (∀ (u2 : Uart) (address : Nat), ∃ rest,
      (BL_Go (BL_InitBootloader st u below).st u2 address).uart.log =
        u2.log ++ Call.transmit [0x21, 0xDE] 100 :: rest) ∧
    (∀ (u2 : Uart) (address : Nat) (data : List Nat) (length : Nat),
      BL_WriteMemory (BL_InitBootloader st u below).st u2 address data length = ⟨false, u2⟩ ∧
      (BL_WriteMemory (BL_InitBootloader st u below).st u2 address data length).uart.log =
        u2.log) := by
  obtain ⟨hok, _, hst⟩ := init_go_only st u below version hget hsync hack hcount hresp
  have hgo : BL_IsCommandSupported (BL_InitBootloader st u below).st BL_CMD_GO = true := by
    rw [hst]
    rfl
  have hwr : BL_IsCommandSupported (BL_InitBootloader st u below).st BL_CMD_WRITE_MEMORY =
      false := by
    rw [hst]
    rfl
  refine ⟨hok, by rw [hst]; rfl, by rw [hst], ?_, ?_⟩
  · intro u2 address
    exact go_first_frame _ u2 address hgo
  · intro u2 address data length
    simp only [BL_WriteMemory, hwr, ↓reduceIte, and_self]

/-- C16 from the initial state, with a target of bootloader version 0x31. -/
theorem handshake_scenario_witness :
    (BL_InitBootloader State.initial (Uart.handshake 0x31) 0).ok = true ∧
    (BL_InitBootloader State.initial (Uart.handshake 0x31) 0).st.supported = [0x21] ∧
    (BL_InitBootloader State.initial (Uart.handshake 0x31) 0).uart.log =
      [Call.receive 8 10, Call.transmit [0x7F] 100, Call.receive 1 1000,
       Call.transmit [0x00, 0xFF] 100, Call.receive 1 1000, Call.receive 1 1000,
       Call.receive 2 1000] :=
  ⟨(handshake_scenario State.initial (Uart.handshake 0x31) 0 0x31 (by decide) ⟨rfl, rfl⟩
      ⟨rfl, rfl⟩ ⟨rfl, rfl⟩ ⟨rfl, rfl, rfl⟩).1,
    (handshake_scenario State.initial (Uart.handshake 0x31) 0 0x31 (by decide) ⟨rfl, rfl⟩
      ⟨rfl, rfl⟩ ⟨rfl, rfl⟩ ⟨rfl, rfl, rfl⟩).2.1,
    by decide⟩

/-- C19, as stated, fails: `BL_Get` begins with the same gate as the other
commands.  In the session `[0x21]` that the handshake of the scenario leaves,
`BL_Get` returns false without any call on the transport, and a fresh
`BL_InitBootloader` on a target that acknowledges the synchronization byte
sends that byte only, no Get frame, and returns false. -/
theorem get_refused_after_handshake :
    State.go_only.supported = [0x21] ∧
    (BL_Get State.go_only Uart.acking 0 (List.replicate 15 0) 15 0).ok = false ∧
    (BL_Get State.go_only Uart.acking 0 (List.replicate 15 0) 15 0).uart.log = [] ∧
    (BL_InitBootloader State.go_only (Uart.handshake 0x31) 0).ok = false ∧
    frames (BL_InitBootloader State.go_only (Uart.handshake 0x31) 0).uart.log = [[0x7F]] := by
  decide

/-- C19, amended.  Get is gated like the other commands.  For every
well-formed Supported-Command Set: when it contains opcode 0x00, as the
initial set `[0x00]` does, `BL_Get` is not refused and its first call on the
transport is the transmit of the Get frame `[0x00, 0xFF]`, and
`BL_InitBootloader`, once the synchronization byte is acknowledged, transmits
the Get frame next; when it does not contain 0x00, `BL_Get` returns false and
leaves its buffer, `*out_len` and the transport untouched, and
`BL_InitBootloader` makes its three calls for the synchronization byte and
returns false with the file-scope variables unchanged. -/
theorem get_gate (st : State) (u : Uart) (below : Nat) (hwf : st.WF) :
    (0x00 ∈ st.supported →
      (∀ (buffer : List Nat) (max_len out_len : Nat), ∃ rest,
        (BL_Get st u below buffer max_len out_len).uart.log =
          u.log ++ Call.transmit [0x00, 0xFF] 100 :: rest) ∧
      ((u.rx 1).isAck → ∃ rest, (BL_InitBootloader st u below).uart.log =
        u.log ++ Call.receive 8 10 :: Call.transmit [0x7F] 100 :: Call.receive 1 1000 ::
          Call.transmit [0x00, 0xFF] 100 :: rest)) ∧
    (0x00 ∉ st.supported →
      (∀ (buffer : List Nat) (max_len out_len : Nat),
        BL_Get st u below buffer max_len out_len = ⟨false, below, buffer, out_len, u⟩) ∧
      (BL_InitBootloader st u below).ok = false ∧
      (BL_InitBootloader st u below).st = st ∧
      (BL_InitBootloader st u below).uart.log =
        u.log ++ [Call.receive 8 10, Call.transmit [0x7F] 100, Call.receive 1 1000]) ∧
    0x00 ∈ State.initial.supported := by
  have hlen : st.supported_cmd_len ≤ st.supported_cmd.length := by
    rw [hwf.1]; exact hwf.2.1
  refine ⟨?_, ?_, by decide⟩
  · intro hmem
    have hsup : BL_IsCommandSupported st BL_CMD_GET = true :=
      (isCommandSupported_iff st _ hlen).2 hmem
    refine ⟨fun buffer max_len out_len => get_first_frame st u below buffer max_len out_len hsup,
      ?_⟩
    intro hsync
    rw [init_acked st u below hsync]
    obtain ⟨rest, hrest⟩ := get_first_frame st (sync_stage u) below st.supported_cmd 15
      st.supported_cmd_len hsup
    refine ⟨rest, ?_⟩
    simp only [hrest, sync_stage_log, List.append_assoc, List.cons_append, List.nil_append]
  · intro hmem
    have hsup : BL_IsCommandSupported st BL_CMD_GET = false :=
      isCommandSupported_eq_false st _ hwf hmem
    refine ⟨fun buffer max_len out_len => get_unsupported st u below buffer max_len out_len hsup,
      ?_⟩
    by_cases hsync : (u.rx 1).isAck
    · rw [init_acked st u below hsync, get_unsupported st _ below _ _ _ hsup]
      exact ⟨rfl, rfl, sync_stage_log u⟩
    · rw [init_not_acked st u below hsync]
      exact ⟨rfl, rfl, sync_stage_log u⟩

/-- C19, amended, at the initial session and at the session `[0x21]`. -/
theorem get_gate_witness :
    (∃ rest, (BL_Get State.initial Uart.acking 0 (List.replicate 15 0) 15 1).uart.log =
      Uart.acking.log ++ Call.transmit [0x00, 0xFF] 100 :: rest) ∧
    BL_Get State.go_only Uart.acking 0 (List.replicate 15 0) 15 1 =
      ⟨false, 0, List.replicate 15 0, 1, Uart.acking⟩ :=
  ⟨((get_gate State.initial Uart.acking 0 (by unfold State.WF; decide)).1 (by decide)).1
      (List.replicate 15 0) 15 1,
    ((get_gate State.go_only Uart.acking 0 (by unfold State.WF; decide)).2.1 (by decide)).1
      (List.replicate 15 0) 15 1⟩

/-! ## A target that does not answer -/

/-- C17. Timeout scenario.  For every state and every transport on which
every receive call returns a status other than `HAL_OK`, and for all
arguments: `BL_InitBootloader`, `BL_Get`, `BL_ReadMemory`, `BL_WriteMemory`,
`BL_EraseMemory`, `BL_Go` and `BL_GoToUserApp` return false.
`BL_InitBootloader` leaves the file-scope variables (the Supported-Command Set
with its length, `base_address`, `start_address`) and the byte below the array
as they were; `BL_Get` leaves the caller's buffer and `*out_len` as they were;
`BL_ReadMemory` leaves the caller's buffer as it was; the other commands have
no store to a file-scope variable at all. -/
theorem commands_fail_without_answer (st : State) (u : Uart)
    (h : ∀ k, (u.rx k).status ≠ HAL_StatusTypeDef.HAL_OK) :
    (∀ (below : Nat), (BL_InitBootloader st u below).ok = false ∧
      (BL_InitBootloader st u below).st = st ∧ (BL_InitBootloader st u below).below = below) ∧
    (∀ (below : Nat) (buffer : List Nat) (max_len out_len : Nat),
      (BL_Get st u below buffer max_len out_len).ok = false ∧
      (BL_Get st u below buffer max_len out_len).below = below ∧
      (BL_Get st u below buffer max_len out_len).buffer = buffer ∧
      (BL_Get st u below buffer max_len out_len).out_len = out_len) ∧
    (∀ (address : Nat) (data : List Nat) (length : Nat),
      (BL_ReadMemory st u address data length).ok = false ∧
      (BL_ReadMemory st u address data length).data = data) ∧
    (∀ (address : Nat) (data : List Nat) (length : Nat),
      (BL_WriteMemory st u address data length).ok = false) ∧
    (∀ (page_numbers : List Nat) (num_pages : Nat),
      (BL_EraseMemory st u page_numbers num_pages).ok = false) ∧
    (∀ (address : Nat), (BL_Go st u address).ok = false) ∧
    (BL_GoToUserApp st u).ok = false := by
  have n0 : ¬ (u.rx 0).isAck := not_isAck_of_status _ (h 0)
  have n1 : ¬ (u.rx 1).isAck := not_isAck_of_status _ (h 1)
  have hgo : ∀ (address : Nat), (BL_Go st u address).ok = false := by
    intro address
    cases hs : BL_IsCommandSupported st BL_CMD_GO with
    | false => simp only [BL_Go, hs, ↓reduceIte]
    | true =>
      rcases go_cases st u address hs with c | c | c | c
      · exact c.2.1
      · exact c.2.2.1
      · exact absurd c.2.1 n0
      · exact absurd c.2.1 n0
  refine ⟨?_, ?_, ?_, ?_, ?_, hgo, hgo _⟩
  · intro below
    rw [init_not_acked st u below n1]
    exact ⟨rfl, rfl, rfl⟩
  · intro below buffer max_len out_len
    cases hs : BL_IsCommandSupported st BL_CMD_GET with
    | false =>
      rw [get_unsupported st u below buffer max_len out_len hs]
      exact ⟨rfl, rfl, rfl, rfl⟩
    | true =>
      rcases get_cases st u below buffer max_len out_len hs with c | c | c | c
      · exact ⟨c.2.1, c.2.2.1, c.2.2.2.1, c.2.2.2.2.1⟩
      · exact absurd c.1 n0
      · exact absurd c.1 n0
      · exact absurd c.1 n0
  · intro address data length
    cases hs : BL_IsCommandSupported st BL_CMD_READ_MEMORY with
    | false => simp only [BL_ReadMemory, hs, ↓reduceIte, and_self]
    | true =>
      rcases readMemory_cases st u address data length hs with c | c | c | c
      · exact ⟨c.2.1, c.2.2.1⟩
      · exact absurd c.1 n0
      · exact absurd c.1 n0
      · exact absurd c.1 n0
  · intro address data length
    cases hs : BL_IsCommandSupported st BL_CMD_WRITE_MEMORY with
    | false => simp only [BL_WriteMemory, hs, ↓reduceIte]
    | true =>
      rcases writeMemory_cases st u address data length hs with c | c | c
      · exact c.2.1
      · exact absurd c.1 n0
      · exact absurd c.1 n0
  · intro page_numbers num_pages
    cases hs : BL_IsCommandSupported st BL_CMD_ERASE with
    | false => simp only [BL_EraseMemory, hs, ↓reduceIte]
    | true =>
      rcases eraseMemory_cases st u page_numbers num_pages hs with c | c
      · exact c.2.1
      · exact absurd c.1 n0

/-- C17 on a target that never answers, from a session in which Go and Write
Memory are supported. -/
theorem commands_fail_without_answer_witness :
    (BL_InitBootloader State.flashing Uart.silent 0).ok = false ∧
    (BL_InitBootloader State.flashing Uart.silent 0).st = State.flashing ∧
    (BL_WriteMemory State.flashing Uart.silent 0x08000000 [0xDE, 0xAD] 2).ok = false ∧
    (BL_GoToUserApp State.flashing Uart.silent).ok = false :=
  ⟨((commands_fail_without_answer State.flashing Uart.silent (fun _ => by simp [Uart.silent, RxReply.timeout])).1 0).1,
    ((commands_fail_without_answer State.flashing Uart.silent (fun _ => by simp [Uart.silent, RxReply.timeout])).1 0).2.1,
    (commands_fail_without_answer State.flashing Uart.silent (fun _ => by simp [Uart.silent, RxReply.timeout])).2.2.2.1
      0x08000000 [0xDE, 0xAD] 2,
    (commands_fail_without_answer State.flashing Uart.silent
      (fun _ => by simp [Uart.silent, RxReply.timeout])).2.2.2.2.2.2⟩

/-- C20, as stated, fails in its last part: the version byte is not in the
output buffer.  On a Get exchange with the count byte 1, the version byte 0x31
and the opcode 0x21, `BL_Get` succeeds and reports 1, and the 15-byte buffer
then holds the opcode 0x21 in its first byte and no byte 0x31 anywhere. -/
theorem get_buffer_has_no_version :
    (BL_Get State.initial
      (Uart.script [RxReply.bytes [BL_ACK], RxReply.bytes [1], RxReply.bytes [0x31, 0x21]])
      0 (List.replicate 15 0) 15 0).ok = true ∧
    (BL_Get State.initial
      (Uart.script [RxReply.bytes [BL_ACK], RxReply.bytes [1], RxReply.bytes [0x31, 0x21]])
      0 (List.replicate 15 0) 15 0).out_len = 1 ∧
    (BL_Get State.initial
      (Uart.script [RxReply.bytes [BL_ACK], RxReply.bytes [1], RxReply.bytes [0x31, 0x21]])
      0 (List.replicate 15 0) 15 0).buffer = 0x21 :: List.replicate 14 0 ∧
    (BL_Get State.initial
      (Uart.script [RxReply.bytes [BL_ACK], RxReply.bytes [1], RxReply.bytes [0x31, 0x21]])
      0 (List.replicate 15 0) 15 0).buffer.take 2 ≠ [0x31, 0x21] := by
  decide

/-- C20, amended.  For every Get exchange in which opcode 0x00 is supported,
the Get frame is acknowledged and the target then sends a length byte `n`:
when `n` exceeds `max_len`, `BL_Get` returns false and makes no further call;
otherwise it makes exactly one more receive call, for `n + 1` bytes, and
returns true exactly when that call succeeds; on success it reports `n` in
`*out_len` and leaves the `n` supported opcodes, in the order received, in the
first `n` bytes of the buffer, the bytes behind them being what the buffer
held before (for `n = 0` the count byte in its first place).  The version
byte, received ahead of the opcodes, is not stored in the buffer. -/
theorem get_exchange (st : State) (u : Uart) (below : Nat) (buffer : List Nat)
    (max_len out_len : Nat) (hsup : BL_IsCommandSupported st BL_CMD_GET = true)
    (hack : (u.rx 0).isAck) (hcount : (u.rx 1).status = HAL_StatusTypeDef.HAL_OK) :
    (max_len < u8 ((u.rx 1).byte 0) →
      (BL_Get st u below buffer max_len out_len).ok = false ∧
      (BL_Get st u below buffer max_len out_len).uart.log = u.log ++
        [Call.transmit [0x00, 0xFF] 100, Call.receive 1 1000, Call.receive 1 1000]) ∧
    (u8 ((u.rx 1).byte 0) ≤ max_len →
      (BL_Get st u below buffer max_len out_len).uart.log = u.log ++
        [Call.transmit [0x00, 0xFF] 100, Call.receive 1 1000, Call.receive 1 1000,
         Call.receive (u8 ((u.rx 1).byte 0) + 1) 1000] ∧
      (BL_Get st u below buffer max_len out_len).ok =
        decide ((u.rx 2).status = HAL_StatusTypeDef.HAL_OK) ∧
      ((u.rx 2).status = HAL_StatusTypeDef.HAL_OK →
        (BL_Get st u below buffer max_len out_len).out_len = u8 ((u.rx 1).byte 0) ∧
        (BL_Get st u below buffer max_len out_len).buffer =
          (List.range (u8 ((u.rx 1).byte 0))).map (fun i => u8 ((u.rx 2).byte (i + 1))) ++
            (u8 ((u.rx 1).byte 0) :: buffer.drop 1).drop (u8 ((u.rx 1).byte 0)) ∧
        (BL_Get st u below buffer max_len out_len).buffer.take (u8 ((u.rx 1).byte 0)) =
          (List.range (u8 ((u.rx 1).byte 0))).map (fun i => u8 ((u.rx 2).byte (i + 1))))) := by
  rcases get_cases st u below buffer max_len out_len hsup with c | c | c | c
  · exact absurd hack c.1
  · exact absurd hcount c.2.1
  · obtain ⟨_, _, hlt, hok, _, _, _, hlog⟩ := c
    exact ⟨fun _ => ⟨hok, hlog⟩, fun hle => by omega⟩
  · obtain ⟨_, _, hle, hok, hlog, hsucc, _⟩ := c
    refine ⟨fun hlt => by omega, fun _ => ⟨hlog, hok, ?_⟩⟩
    intro h2
    obtain ⟨hlen, _, hbuf⟩ := hsucc h2
    refine ⟨hlen, hbuf, ?_⟩
    rw [hbuf, List.take_left']
    simp

/-- C20, amended, on the exchange with count byte 1, version 0x31 and opcode
0x21. -/
theorem get_exchange_witness :
    (BL_Get State.initial
      (Uart.script [RxReply.bytes [BL_ACK], RxReply.bytes [1], RxReply.bytes [0x31, 0x21]])
      0 (List.replicate 15 0) 15 0).uart.log =
      [Call.transmit [0x00, 0xFF] 100, Call.receive 1 1000, Call.receive 1 1000,
       Call.receive 2 1000] :=
  ((get_exchange State.initial
    (Uart.script [RxReply.bytes [BL_ACK], RxReply.bytes [1], RxReply.bytes [0x31, 0x21]])
    0 (List.replicate 15 0) 15 0 (by decide) ⟨rfl, rfl⟩ rfl).2 (by decide)).1

/-! ## Erase Memory: the payload -/

theorem getD_set (l : List Nat) (i a j : Nat) :
    (l.set i a).getD j 0 = if i = j ∧ i < l.length then a else l.getD j 0 := by
  simp only [List.getD_eq_getElem?_getD, List.getElem?_set]
  by_cases h : i = j
  · subst h
    by_cases h2 : i < l.length
    · simp [h2]
    · simp [h2]
      rw [List.getElem?_eq_none (by omega)]
      rfl
  · simp [h]

theorem getD_take (l : List Nat) (k j : Nat) :
    (l.take k).getD j 0 = if j < k then l.getD j 0 else 0 := by
  simp only [List.getD_eq_getElem?_getD, List.getElem?_take]
  split <;> rfl

theorem getD_of_length_le (l : List Nat) (j : Nat) (h : l.length ≤ j) : l.getD j 0 = 0 := by
  rw [List.getD_eq_getElem?_getD, List.getElem?_eq_none h]
  rfl

/-- Two lists of the same length with the same bytes are equal. -/
theorem ext_getD (l1 l2 : List Nat) (hlen : l1.length = l2.length)
    (h : ∀ j, j < l1.length → l1.getD j 0 = l2.getD j 0) : l1 = l2 := by
  apply List.ext_getElem hlen
  intro n h1 h2
  have e := h n h1
  rw [List.getD_eq_getElem _ _ h1, List.getD_eq_getElem _ _ h2] at e
  exact e

theorem map_getD_range_take (l : List Nat) (k : Nat) (hk : k ≤ l.length) :
    (List.range k).map (fun i => l.getD i 0) = l.take k := by
  apply ext_getD
  · simp [hk]
  · intro j hj
    simp only [List.length_map, List.length_range] at hj
    rw [getD_take, if_pos hj, List.getD_eq_getElem?_getD, List.getElem?_map,
      List.getElem?_range hj]
    rfl

theorem page_bytes_length (pages : List Nat) : (page_bytes pages).length = 2 * pages.length := by
  induction pages with
  | nil => rfl
  | cons p pages ih =>
    simp only [page_bytes, List.length_cons, ih]
    omega

theorem page_bytes_getD (pages : List Nat) :
    ∀ i, i < pages.length →
      (page_bytes pages).getD (2 * i) 0 = pages.getD i 0 / 256 ∧
      (page_bytes pages).getD (2 * i + 1) 0 = pages.getD i 0 % 256 := by
  induction pages with
  | nil => intro i hi; simp at hi
  | cons p pages ih =>
    intro i hi
    cases i with
    | zero => exact ⟨rfl, rfl⟩
    | succ i =>
      have h := ih i (by simpa using hi)
      have e1 : 2 * (i + 1) = (2 * i + 1) + 1 := by ring
      rw [e1]
      simp only [page_bytes, List.getD_cons_succ]
      exact h

theorem page_bytes_lt (pages : List Nat) (h : ∀ p ∈ pages, p < 65536) :
    ∀ b ∈ page_bytes pages, b < 256 := by
  induction pages with
  | nil => intro b hb; simp [page_bytes] at hb
  | cons p pages ih =>
    intro b hb
    have hp := h p (List.mem_cons_self _ _)
    simp only [page_bytes, List.mem_cons] at hb
    rcases hb with rfl | rfl | hb
    · omega
    · omega
    · exact ih (fun x hx => h x (List.mem_cons_of_mem _ hx)) b hb

/-- The page loop of `BL_EraseMemory` after `m` turns. -/
theorem erase_fill (page_numbers : List Nat) (c0 : Nat) :
    ∀ m, m ≤ 127 →
      ((List.range m).foldl (fun payload i =>
        (payload.set (1 + 2 * i) (u8 (page_numbers.getD i 0 >>> 8))).set (2 + 2 * i)
          (u8 (page_numbers.getD i 0 &&& 0xFF))) ((List.replicate 256 0).set 0 c0)).length = 256 ∧
      ∀ j, ((List.range m).foldl (fun payload i =>
        (payload.set (1 + 2 * i) (u8 (page_numbers.getD i 0 >>> 8))).set (2 + 2 * i)
          (u8 (page_numbers.getD i 0 &&& 0xFF))) ((List.replicate 256 0).set 0 c0)).getD j 0 =
        if j = 0 then c0
        else if j < 1 + 2 * m then
          (if (j - 1) % 2 = 0 then u8 (page_numbers.getD ((j - 1) / 2) 0 >>> 8)
            else u8 (page_numbers.getD ((j - 1) / 2) 0 &&& 0xFF))
        else 0 := by
  intro m
  induction m with
  | zero =>
    intro _
    refine ⟨by rw [List.range_zero, List.foldl_nil, List.length_set, List.length_replicate], ?_⟩
    intro j
    rw [List.range_zero, List.foldl_nil, getD_set]
    by_cases hj : j = 0
    · subst hj
      rw [if_pos ⟨rfl, by rw [List.length_replicate]; omega⟩, if_pos rfl]
    · have h1 : ¬ (0 = j ∧ 0 < (List.replicate 256 0).length) := fun h => hj h.1.symm
      have h2 : ¬ j < 1 + 2 * 0 := by omega
      rw [if_neg h1, if_neg hj, if_neg h2]
      rw [List.getD_eq_getElem?_getD, List.getElem?_replicate]
      split <;> rfl
  | succ m ih =>
    intro hm
    obtain ⟨hlen, hget⟩ := ih (by omega)
    rw [List.range_succ, List.foldl_append]
    simp only [List.foldl_cons, List.foldl_nil]
    refine ⟨by simp only [List.length_set, hlen], ?_⟩
    intro j
    rw [getD_set, getD_set, hget j]
    simp only [List.length_set, hlen]
    by_cases hj0 : j = 0
    · subst hj0
      have a1 : ¬ (2 + 2 * m = 0 ∧ 2 + 2 * m < 256) := by omega
      have a2 : ¬ (1 + 2 * m = 0 ∧ 1 + 2 * m < 256) := by omega
      simp only [a1, a2, ↓reduceIte]
    · by_cases hj2 : 2 + 2 * m = j
      · subst hj2
        have a1 : (2 + 2 * m = 2 + 2 * m ∧ 2 + 2 * m < 256) := ⟨rfl, by omega⟩
        have a3 : 2 + 2 * m < 1 + 2 * (m + 1) := by omega
        have a4 : ¬ (2 + 2 * m - 1) % 2 = 0 := by omega
        have a5 : (2 + 2 * m - 1) / 2 = m := by omega
        simp only [a1, and_self, ↓reduceIte, hj0, a3, a4, a5]
      · by_cases hj1 : 1 + 2 * m = j
        · subst hj1
          have a1 : ¬ (2 + 2 * m = 1 + 2 * m ∧ 2 + 2 * m < 256) := by omega
          have a2 : (1 + 2 * m = 1 + 2 * m ∧ 1 + 2 * m < 256) := ⟨rfl, by omega⟩
          have a3 : 1 + 2 * m < 1 + 2 * (m + 1) := by omega
          have a4 : (1 + 2 * m - 1) % 2 = 0 := by omega
          have a5 : (1 + 2 * m - 1) / 2 = m := by omega
          simp only [a1, a2, and_self, ↓reduceIte, hj0, a3, a4, a5]
        · have a1 : ¬ (2 + 2 * m = j ∧ 2 + 2 * m < 256) := fun h => hj2 h.1
          have a2 : ¬ (1 + 2 * m = j ∧ 1 + 2 * m < 256) := fun h => hj1 h.1
          simp only [a1, a2, ↓reduceIte, hj0]
          by_cases hlt : j < 1 + 2 * m
          · have a3 : j < 1 + 2 * (m + 1) := by omega
            simp only [hlt, a3, ↓reduceIte]
          · have a3 : ¬ j < 1 + 2 * (m + 1) := by omega
            simp only [hlt, a3, ↓reduceIte]

/-- The payload of `BL_EraseMemory` for 1 to 127 pages: the count byte, the
page bytes and the XOR of all of them. -/
theorem erase_payload_eq (pages : List Nat) (n : Nat) (h1 : 1 ≤ n) (h2 : n ≤ 127)
    (hlen : pages.length = n) (hp : ∀ p ∈ pages, p < 65536) :
    (BL_EraseMemory.payload pages n).take (u16 (2 + 2 * n)) =
      (n - 1) :: (page_bytes pages ++ [(page_bytes pages).foldl (fun x b => x ^^^ b) (n - 1)]) := by
  have hc0 : u8 (minus_one n) = n - 1 := minus_one_length h1 (by omega)
  have h16 : u16 (2 + 2 * n) = 2 + 2 * n := by unfold u16; omega
  obtain ⟨hFlen, hFget⟩ := erase_fill pages (u8 (minus_one n)) n h2
  have hpl := page_bytes_length pages
  have hpb := page_bytes_lt pages hp
  simp only [BL_EraseMemory.payload, h16]
  generalize (List.range n).foldl (fun payload i =>
    (payload.set (1 + 2 * i) (u8 (pages.getD i 0 >>> 8))).set (2 + 2 * i)
      (u8 (pages.getD i 0 &&& 0xFF))) ((List.replicate 256 0).set 0 (u8 (minus_one n))) = F
    at hFlen hFget ⊢
  have hbody : F.take (1 + 2 * n) = (n - 1) :: page_bytes pages := by
    apply ext_getD
    · simp only [List.length_take, hFlen, List.length_cons, hpl, hlen]
      omega
    · intro j hj
      simp only [List.length_take, hFlen] at hj
      have hj' : j < 1 + 2 * n := by omega
      rw [getD_take, if_pos hj', hFget j]
      by_cases hj0 : j = 0
      · subst hj0
        rw [if_pos rfl, hc0]
        rfl
      · rw [if_neg hj0, if_pos hj']
        have hi : (j - 1) / 2 < pages.length := by omega
        have hpi : pages.getD ((j - 1) / 2) 0 < 65536 := by
          rw [List.getD_eq_getElem _ _ hi]
          exact hp _ (List.getElem_mem _)
        obtain ⟨g0, g1⟩ := page_bytes_getD pages ((j - 1) / 2) hi
        obtain ⟨k, rfl⟩ : ∃ k, j = k + 1 := ⟨j - 1, by omega⟩
        rw [List.getD_cons_succ]
        simp only [Nat.add_sub_cancel] at *
        by_cases hpar : k % 2 = 0
        · rw [if_pos hpar]
          have ek : 2 * (k / 2) = k := by omega
          rw [ek] at g0
          rw [g0, Nat.shiftRight_eq_div_pow]
          unfold u8
          simp only [Nat.reducePow]
          omega
        · rw [if_neg hpar]
          have ek : 2 * (k / 2) + 1 = k := by omega
          rw [ek] at g1
          rw [g1, and_0xFF]
          unfold u8
          omega
  have hS : ∀ b ∈ (n - 1) :: page_bytes pages, b < 256 := by
    intro b hb
    rcases List.mem_cons.1 hb with rfl | hb
    · omega
    · exact hpb b hb
  have hcs : (List.range (1 + 2 * n)).foldl (fun checksum i => u8 (checksum ^^^ F.getD i 0)) 0 =
      (page_bytes pages).foldl (fun x b => x ^^^ b) (n - 1) := by
    have h := List.foldl_map (fun i => F.getD i 0) (fun c b => u8 (c ^^^ b))
      (List.range (1 + 2 * n)) 0
    rw [map_getD_range_take F (1 + 2 * n) (by omega), hbody] at h
    rw [← h, foldl_xor_u8 _ hS 0 (by omega), List.foldl_cons, Nat.zero_xor]
  rw [hcs]
  apply ext_getD
  · simp only [List.length_take, List.length_set, hFlen, List.length_cons, List.length_append,
      hpl, hlen, List.length_nil]
    omega
  · intro j hj
    simp only [List.length_take, List.length_set, hFlen] at hj
    have hj' : j < 2 + 2 * n := by omega
    rw [getD_take, if_pos hj', getD_set]
    have e : (n - 1) :: (page_bytes pages ++
        [(page_bytes pages).foldl (fun x b => x ^^^ b) (n - 1)]) =
        ((n - 1) :: page_bytes pages) ++
          [(page_bytes pages).foldl (fun x b => x ^^^ b) (n - 1)] := rfl
    have hSlen : ((n - 1) :: page_bytes pages).length = 1 + 2 * n := by
      simp only [List.length_cons, hpl, hlen]
      omega
    rw [e]
    by_cases hlast : 1 + 2 * n = j
    · rw [if_pos ⟨hlast, by omega⟩, List.getD_append_right _ _ _ _ (by omega), hSlen, ← hlast,
        Nat.sub_self]
      rfl
    · rw [if_neg (fun h => hlast h.1), List.getD_append _ _ _ _ (by omega), ← hbody, getD_take,
        if_pos (by omega)]

/-- C18. For every number of pages `n` with `1 ≤ n ≤ 127` and every `n` 16-bit
page numbers, when Erase is supported and its opcode stage is acknowledged:
`BL_EraseMemory` makes exactly four calls on the transport; the payload of its
second transmit call has `2n + 2` bytes, namely the byte `n - 1`, then for each
page in order its high byte and its low byte, then the XOR of the count byte
and every page byte; and it returns true exactly when the final receive call
succeeds with the byte ACK (0x79). -/
theorem eraseMemory_payload_frame (st : State) (u : Uart) (pages : List Nat) (n : Nat)
    (h1 : 1 ≤ n) (h2 : n ≤ 127) (hlen : pages.length = n) (hp : ∀ p ∈ pages, p < 65536)
    (hsup : BL_IsCommandSupported st BL_CMD_ERASE = true) (hack : (u.rx 0).isAck) :
    (BL_EraseMemory st u pages n).uart.log = u.log ++
      [Call.transmit [0x43, 0xBC] 100, Call.receive 1 1000,
       Call.transmit ((n - 1) :: (page_bytes pages ++
         [(page_bytes pages).foldl (fun x b => x ^^^ b) (n - 1)])) 100,
       Call.receive 1 1000] ∧
    ((n - 1) :: (page_bytes pages ++
      [(page_bytes pages).foldl (fun x b => x ^^^ b) (n - 1)])).length = 2 * n + 2 ∧
    ((BL_EraseMemory st u pages n).ok = true ↔
      (u.rx 1).status = HAL_StatusTypeDef.HAL_OK ∧ u8 ((u.rx 1).byte 0) = 0x79) := by
  rcases eraseMemory_cases st u pages n hsup with c | c
  · exact absurd hack c.1
  · obtain ⟨_, hok, hlog⟩ := c
    rw [erase_payload_eq pages n h1 h2 hlen hp] at hlog
    refine ⟨hlog, ?_, ?_⟩
    · simp only [List.length_cons, List.length_append, page_bytes_length, hlen, List.length_nil]
    · rw [hok]
      exact final_true_iff_isAck (u.rx 1)

/-- C18 at the two pages 0x0102 and 0x0304. -/
theorem eraseMemory_payload_frame_witness :
    (BL_EraseMemory { State.flashing with supported_cmd := [0x43], supported_cmd_len := 1 }
      Uart.acking [0x0102, 0x0304] 2).uart.log =
      [Call.transmit [0x43, 0xBC] 100, Call.receive 1 1000,
       Call.transmit [0x01, 0x01, 0x02, 0x03, 0x04, 0x05] 100, Call.receive 1 1000] :=
  (eraseMemory_payload_frame
    { State.flashing with supported_cmd := [0x43], supported_cmd_len := 1 }
    Uart.acking [0x0102, 0x0304] 2 (by decide) (by decide) rfl (by decide) (by decide)
    ⟨rfl, rfl⟩).1

/-! ## The upload loop, line by line -/

theorem writeMemory_log_extends (st : State) (u : Uart) (address : Nat) (data : List Nat)
    (length : Nat) : ∃ calls, (BL_WriteMemory st u address data length).uart.log = u.log ++ calls := by
  cases hs : BL_IsCommandSupported st BL_CMD_WRITE_MEMORY with
  | false =>
    refine ⟨[], ?_⟩
    simp only [BL_WriteMemory, hs, ↓reduceIte, List.append_nil]
  | true =>
    rcases writeMemory_cases st u address data length hs with c | c | c
    · exact ⟨_, c.2.2⟩
    · exact ⟨_, c.2.2.2⟩
    · exact ⟨_, c.2.2.2⟩

/-- The log only grows: `BL_ProcessHexLine` adds calls to it. -/
theorem processHexLine_log_extends (st : State) (u : Uart) (line : List Nat) :
    ∃ calls, (BL_ProcessHexLine st u line).uart.log = u.log ++ calls := by
  unfold BL_ProcessHexLine
  simp only []
  split_ifs
  · exact ⟨[], (List.append_nil _).symm⟩
  · exact ⟨[], (List.append_nil _).symm⟩
  · exact writeMemory_log_extends _ _ _ _ _
  · exact ⟨[], (List.append_nil _).symm⟩
  · exact ⟨[], (List.append_nil _).symm⟩
  · exact ⟨[], (List.append_nil _).symm⟩
  · exact ⟨[], (List.append_nil _).symm⟩

theorem after_log_extends :
    ∀ (file : List (List Nat)) (line : List Nat) (st : State) (u : Uart),
      ∃ calls, (Upload.after file line st u).2.2.log = u.log ++ calls := by
  intro file
  induction file with
  | nil => intro line st u; exact ⟨[], (List.append_nil _).symm⟩
  | cons s file ih =>
    intro line st u
    obtain ⟨c1, h1⟩ := processHexLine_log_extends st u (Upload.read line s)
    obtain ⟨c2, h2⟩ := ih (Upload.read line s)
      (BL_ProcessHexLine st u (Upload.read line s)).st
      (BL_ProcessHexLine st u (Upload.read line s)).uart
    refine ⟨c1 ++ c2, ?_⟩
    simp only [Upload.after, h2, h1, List.append_assoc]

/-- One turn of the upload loop. -/
theorem loop_cons (s : List Nat) (file : List (List Nat)) (line : List Nat) (st : State)
    (u : Uart) :
    BL_UploadHexFile.loop (s :: file) line st u =
      if (BL_ProcessHexLine st u (Upload.read line s)).ok = false then
        ⟨false, (BL_ProcessHexLine st u (Upload.read line s)).st,
          (BL_ProcessHexLine st u (Upload.read line s)).uart⟩
      else
        BL_UploadHexFile.loop file (Upload.read line s)
          (BL_ProcessHexLine st u (Upload.read line s)).st
          (BL_ProcessHexLine st u (Upload.read line s)).uart := rfl

/-- Over lines that are all processed successfully the loop runs through and
stands where processing them in order leads. -/
theorem loop_append :
    ∀ (pre : List (List Nat)) (rest : List (List Nat)) (line : List Nat) (st : State) (u : Uart),
      Upload.all_ok pre line st u →
      BL_UploadHexFile.loop (pre ++ rest) line st u =
        BL_UploadHexFile.loop rest (Upload.after pre line st u).1
          (Upload.after pre line st u).2.1 (Upload.after pre line st u).2.2 := by
  intro pre
  induction pre with
  | nil => intro rest line st u _; rfl
  | cons s pre ih =>
    intro rest line st u h
    obtain ⟨hok, hrest⟩ := h
    rw [List.cons_append, loop_cons, if_neg (by rw [hok]; exact Bool.noConfusion)]
    exact ih rest _ _ _ hrest

theorem after_append :
    ∀ (pre : List (List Nat)) (s : List Nat) (line : List Nat) (st : State) (u : Uart),
      Upload.after (pre ++ [s]) line st u =
        (Upload.read (Upload.after pre line st u).1 s,
          (BL_ProcessHexLine (Upload.after pre line st u).2.1 (Upload.after pre line st u).2.2
            (Upload.read (Upload.after pre line st u).1 s)).st,
          (BL_ProcessHexLine (Upload.after pre line st u).2.1 (Upload.after pre line st u).2.2
            (Upload.read (Upload.after pre line st u).1 s)).uart) := by
  intro pre
  induction pre with
  | nil => intro s line st u; rfl
  | cons t pre ih =>
    intro s line st u
    simp only [List.cons_append, Upload.after]
    exact ih s _ _ _

/-- C13. Fail-fast upload.  For every sequence of lines `pre ++ s :: post` in
which the lines `pre` are all processed successfully and `BL_ProcessHexLine`
returns false on `s`, the first failing line: the upload returns false; the
file-scope variables and the UART it leaves are those reached by processing
the lines `pre` and `s` in file order, each in the state the one before left;
the result does not depend on the lines `post`, which are not processed; and
the log of calls only grew, first by the calls of `pre` and then by those of
`s`, so nothing sent before is undone. -/
theorem upload_fail_fast (pre : List (List Nat)) (s : List Nat) (post : List (List Nat))
    (line : List Nat) (st : State) (u : Uart)
    (hpre : Upload.all_ok pre line st u)
    (hfail : (BL_ProcessHexLine (Upload.after pre line st u).2.1 (Upload.after pre line st u).2.2
      (Upload.read (Upload.after pre line st u).1 s)).ok = false) :
    BL_UploadHexFile true true (pre ++ s :: post) line st u =
      ⟨false, (Upload.after (pre ++ [s]) line st u).2.1,
        (Upload.after (pre ++ [s]) line st u).2.2⟩ ∧
    (∀ (post2 : List (List Nat)),
      BL_UploadHexFile true true (pre ++ s :: post2) line st u =
        BL_UploadHexFile true true (pre ++ s :: post) line st u) ∧
    (∃ calls1 calls2,
      (Upload.after pre line st u).2.2.log = u.log ++ calls1 ∧
      (BL_UploadHexFile true true (pre ++ s :: post) line st u).uart.log =
        u.log ++ calls1 ++ calls2) := by
  have key : ∀ (post2 : List (List Nat)),
      BL_UploadHexFile true true (pre ++ s :: post2) line st u =
        ⟨false, (Upload.after (pre ++ [s]) line st u).2.1,
          (Upload.after (pre ++ [s]) line st u).2.2⟩ := by
    intro post2
    have e : BL_UploadHexFile true true (pre ++ s :: post2) line st u =
        BL_UploadHexFile.loop (pre ++ s :: post2) line st u := rfl
    rw [e, loop_append pre (s :: post2) line st u hpre, loop_cons, if_pos hfail, after_append]
  refine ⟨key post, fun post2 => (key post2).trans (key post).symm, ?_⟩
  obtain ⟨c1, h1⟩ := after_log_extends pre line st u
  obtain ⟨c2, h2⟩ := processHexLine_log_extends (Upload.after pre line st u).2.1
    (Upload.after pre line st u).2.2 (Upload.read (Upload.after pre line st u).1 s)
  refine ⟨c1, c2, h1, ?_⟩
  rw [key post, after_append]
  simp only [h2, h1]

/-- C13 on a file whose second line has a wrong checksum: the data record of
the first line is written, the third line is not looked at. -/
theorem upload_fail_fast_witness :
    (BL_UploadHexFile true true
      ([chars (":0100000055AA")] ++ chars (":00000001FE") :: [chars (":0100010066AA")])
      (List.replicate 512 0) State.flashing Uart.acking).ok = false ∧
    (BL_UploadHexFile true true
      ([chars (":0100000055AA")] ++ chars (":00000001FE") :: [chars (":0100010066AA")])
      (List.replicate 512 0) State.flashing Uart.acking).uart.log =
      [Call.transmit [0x31, 0xCE] 100, Call.receive 1 1000,
       Call.transmit [0x00, 0x00, 0x00, 0x00, 0x00] 100, Call.receive 1 1000,
       Call.transmit [0x00, 0x55, 0x55] 100, Call.receive 1 1000] :=
  ⟨congrArg (fun r => r.ok)
      (upload_fail_fast [chars (":0100000055AA")] (chars (":00000001FE"))
        [chars (":0100010066AA")] (List.replicate 512 0) State.flashing Uart.acking
        ⟨by decide, trivial⟩ (by decide)).1,
    congrArg (fun r => r.uart.log)
      (upload_fail_fast [chars (":0100000055AA")] (chars (":00000001FE"))
        [chars (":0100010066AA")] (List.replicate 512 0) State.flashing Uart.acking
        ⟨by decide, trivial⟩ (by decide)).1⟩

/-! ## EndOfFile records -/

theorem digit_plain (upper : Bool) (v : Nat) (hv : v < 16) :
    IntelHex.digit upper v ≠ 0 ∧ IntelHex.digit upper v ≠ '\n'.toNat := by
  interval_cases v <;> cases upper <;> decide

theorem text_plain (casing : Nat → Bool) :
    ∀ (bytes : List Nat) (p : Nat), (∀ b ∈ bytes, b < 256) →
      ∀ c ∈ IntelHex.text casing p bytes, c ≠ 0 ∧ c ≠ '\n'.toNat := by
  intro bytes
  induction bytes with
  | nil => intro p _ c hc; simp [IntelHex.text] at hc
  | cons b bytes ih =>
    intro p hb c hc
    have hb0 := hb b (List.mem_cons_self _ _)
    simp only [IntelHex.text, List.mem_cons] at hc
    rcases hc with rfl | rfl | hc
    · exact digit_plain _ _ (by omega)
    · exact digit_plain _ _ (by omega)
    · exact ih (p + 2) (fun x hx => hb x (List.mem_cons_of_mem _ hx)) c hc

/-- An encoded record holds neither a NUL nor a line feed. -/
theorem encode_plain (casing : Nat → Bool) (address record_type : Nat) (data : List Nat)
    (hn : data.length ≤ 255) (ha : address < 65536) (ht : record_type < 256)
    (hd : ∀ b ∈ data, b < 256) :
    ∀ c ∈ IntelHex.encode casing address record_type data, c ≠ 0 ∧ c ≠ '\n'.toNat := by
  intro c hc
  have hf := fields_lt address record_type data hn ha ht hd
  have hcs : IntelHex.checksum address record_type data < 256 := Nat.mod_lt _ (by decide)
  simp only [IntelHex.encode, IntelHex.line, List.mem_cons] at hc
  rcases hc with rfl | hc
  · decide
  · refine text_plain casing _ 1 ?_ c hc
    intro b hb
    rcases List.mem_append.1 hb with h | h
    · exact hf b h
    · rw [List.mem_singleton.1 h]; exact hcs

theorem strcspn_stop (s rest : List Nat) (c : Nat) (hc : c = 0 ∨ c = '\n'.toNat)
    (h : ∀ x ∈ s, x ≠ 0 ∧ x ≠ '\n'.toNat) :
    strcspn_newline (s ++ c :: rest) = s.length := by
  induction s with
  | nil =>
    show (if c = 0 ∨ c = '\n'.toNat then 0 else strcspn_newline rest + 1) = 0
    rw [if_pos hc]
  | cons x s ih =>
    have hx := h x (List.mem_cons_self _ _)
    have hn : ¬ (x = 0 ∨ x = '\n'.toNat) := fun e => e.elim hx.1 hx.2
    show (if x = 0 ∨ x = '\n'.toNat then 0 else strcspn_newline (s ++ c :: rest) + 1) = _
    rw [if_neg hn, ih (fun y hy => h y (List.mem_cons_of_mem _ hy))]
    rfl

theorem set_at_length (s rest : List Nat) (c : Nat) :
    (s ++ c :: rest).set s.length 0 = s ++ 0 :: rest := by
  induction s with
  | nil => rfl
  | cons x s ih => simp only [List.cons_append, List.length_cons, List.set_cons_succ, ih]

/-- A line without NUL and line feed, read with or without its line feed and
stripped: the buffer then holds the line, a NUL, and something behind it. -/
theorem read_plain (line s eol : List Nat) (h : ∀ x ∈ s, x ≠ 0 ∧ x ≠ '\n'.toNat)
    (heol : eol = [] ∨ eol = ['\n'.toNat]) :
    ∃ rest, Upload.read line (s ++ eol) = s ++ 0 :: rest := by
  rcases heol with rfl | rfl
  · refine ⟨line.drop (s.length + 1), ?_⟩
    rw [List.append_nil]
    exact strip_plain line s h
  · refine ⟨0 :: line.drop ((s ++ ['\n'.toNat]).length + 1), ?_⟩
    unfold Upload.read f_gets
    rw [List.append_assoc, List.singleton_append,
      strcspn_stop s _ _ (Or.inr rfl) h, set_at_length]

/-- An EndOfFile record is accepted and changes nothing. -/
theorem processHexLine_eof (st : State) (u : Uart) (casing : Nat → Bool) (address : Nat)
    (data rest : List Nat) (hn : data.length ≤ 255) (ha : address < 65536)
    (hd : ∀ b ∈ data, b < 256) :
    BL_ProcessHexLine st u (IntelHex.encode casing address 0x01 data ++ rest) =
      ⟨true, st, u⟩ := by
  rw [processHexLine_encoded st u casing address 0x01 data rest hn ha (by decide) hd]
  rw [if_neg (by decide), if_pos rfl]

/-- C12, as stated, fails: the upload loop has no exit at an EndOfFile record.
After the record `:00000001FF` the next line is processed like any other: a
Data record behind it is written to the target, and a malformed line behind
it makes the upload return false. -/
theorem upload_goes_on_after_eof :
    (BL_UploadHexFile true true [chars (":00000001FF"), chars (":0100000055AA")]
      (List.replicate 512 0) State.flashing Uart.acking).ok = true ∧
    (BL_UploadHexFile true true [chars (":00000001FF"), chars (":0100000055AA")]
      (List.replicate 512 0) State.flashing Uart.acking).uart.log =
      [Call.transmit [0x31, 0xCE] 100, Call.receive 1 1000,
       Call.transmit [0x00, 0x00, 0x00, 0x00, 0x00] 100, Call.receive 1 1000,
       Call.transmit [0x00, 0x55, 0x55] 100, Call.receive 1 1000] ∧
    (BL_UploadHexFile true true [chars (":00000001FF"), chars (":04000005080000ED02")]
      (List.replicate 512 0) State.flashing Uart.acking).st.start_address = 0x080000ED ∧
    (BL_UploadHexFile true true [chars (":00000001FF"), chars ("not a record")]
      (List.replicate 512 0) State.flashing Uart.acking).ok = false := by
  decide

/-- C12, amended.  For every sequence of lines `pre ++ eof :: post` in which
the lines `pre` are all processed successfully and `eof` is a correctly
encoded EndOfFile record (type 0x01), read with or without its line feed: the
record is processed successfully, without a call on the transport and without
a change of a file-scope variable; the upload loop then goes on with the lines
`post` from the state the lines `pre` left; and it returns true at the record
when the record is the last line. -/
theorem upload_end_of_file (pre : List (List Nat)) (casing : Nat → Bool) (address : Nat)
    (data eol : List Nat) (post : List (List Nat)) (line : List Nat) (st : State) (u : Uart)
    (hn : data.length ≤ 255) (ha : address < 65536) (hd : ∀ b ∈ data, b < 256)
    (heol : eol = [] ∨ eol = ['\n'.toNat])
    (hpre : Upload.all_ok pre line st u) :
    BL_ProcessHexLine (Upload.after pre line st u).2.1 (Upload.after pre line st u).2.2
      (Upload.read (Upload.after pre line st u).1
        (IntelHex.encode casing address 0x01 data ++ eol)) =
      ⟨true, (Upload.after pre line st u).2.1, (Upload.after pre line st u).2.2⟩ ∧
    BL_UploadHexFile true true
      (pre ++ (IntelHex.encode casing address 0x01 data ++ eol) :: post) line st u =
      BL_UploadHexFile.loop post
        (Upload.read (Upload.after pre line st u).1
          (IntelHex.encode casing address 0x01 data ++ eol))
        (Upload.after pre line st u).2.1 (Upload.after pre line st u).2.2 ∧
    BL_UploadHexFile true true
      (pre ++ [IntelHex.encode casing address 0x01 data ++ eol]) line st u =
      ⟨true, (Upload.after pre line st u).2.1, (Upload.after pre line st u).2.2⟩ := by
  obtain ⟨rest, hrest⟩ := read_plain (Upload.after pre line st u).1
    (IntelHex.encode casing address 0x01 data) eol
    (encode_plain casing address 0x01 data hn ha (by decide) hd) heol
  have hp : BL_ProcessHexLine (Upload.after pre line st u).2.1 (Upload.after pre line st u).2.2
      (Upload.read (Upload.after pre line st u).1
        (IntelHex.encode casing address 0x01 data ++ eol)) =
      ⟨true, (Upload.after pre line st u).2.1, (Upload.after pre line st u).2.2⟩ := by
    rw [hrest]
    exact processHexLine_eof _ _ casing address data (0 :: rest) hn ha hd
  have key : ∀ (post2 : List (List Nat)),
      BL_UploadHexFile true true
        (pre ++ (IntelHex.encode casing address 0x01 data ++ eol) :: post2) line st u =
      BL_UploadHexFile.loop post2
        (Upload.read (Upload.after pre line st u).1
          (IntelHex.encode casing address 0x01 data ++ eol))
        (Upload.after pre line st u).2.1 (Upload.after pre line st u).2.2 := by
    intro post2
    have e : BL_UploadHexFile true true
        (pre ++ (IntelHex.encode casing address 0x01 data ++ eol) :: post2) line st u =
        BL_UploadHexFile.loop
          (pre ++ (IntelHex.encode casing address 0x01 data ++ eol) :: post2) line st u := rfl
    rw [e, loop_append pre _ line st u hpre, loop_cons, hp]
    rfl
  exact ⟨hp, key post, key []⟩

/-- C12, amended, on the file `:0100000055AA`, `:00000001FF`: the upload ends
successfully at the EndOfFile record, its last line. -/
theorem upload_end_of_file_witness :
    IntelHex.encode IntelHex.upper 0 0x01 [] = chars (":00000001FF") ∧
    (BL_UploadHexFile true true
      ([chars (":0100000055AA")] ++ [IntelHex.encode IntelHex.upper 0 0x01 [] ++ ['\n'.toNat]])
      (List.replicate 512 0) State.flashing Uart.acking).ok = true :=
  ⟨by decide, congrArg (fun r => r.ok)
    (upload_end_of_file [chars (":0100000055AA")] IntelHex.upper 0 [] ['\n'.toNat] []
      (List.replicate 512 0) State.flashing Uart.acking (by decide) (by decide) (by decide)
      (Or.inr rfl) ⟨by decide, trivial⟩).2.2⟩

/-! ## Failures of the transport -/

theorem calls_made_eq (u v : Uart) (calls : List Call) (h : v.log = u.log ++ calls) :
    calls_made u v = calls := by
  unfold calls_made
  rw [h, List.drop_left]

theorem calls_made_self (u : Uart) : calls_made u u = [] := by
  unfold calls_made
  exact List.drop_length _

theorem writeMemory_hard (st : State) (u : Uart) (address : Nat) (data : List Nat)
    (length : Nat) :
    (∀ k, k < (receives (calls_made u (BL_WriteMemory st u address data length).uart)).length →
      ¬ (u.rx k).isAck → (BL_WriteMemory st u address data length).ok = false) ∧
    (∃ n, frames (calls_made u (BL_WriteMemory st u address data length).uart) =
      [[0x31, 0xCE], BL_WriteMemory.address_cmd address,
        (BL_WriteMemory.full_cmd data length).take (u16 (length + 2))].take n) := by
  cases hs : BL_IsCommandSupported st BL_CMD_WRITE_MEMORY with
  | false =>
    have e : BL_WriteMemory st u address data length = ⟨false, u⟩ := by
      simp only [BL_WriteMemory, hs, ↓reduceIte]
    rw [e]
    exact ⟨fun _ _ _ => rfl, 0, by rw [calls_made_self]; rfl⟩
  | true =>
    rcases writeMemory_cases st u address data length hs with c | c | c
    · obtain ⟨_, hok, hlog⟩ := c
      refine ⟨fun _ _ _ => hok, 1, ?_⟩
      rw [calls_made_eq _ _ _ hlog]
      rfl
    · obtain ⟨_, _, hok, hlog⟩ := c
      refine ⟨fun _ _ _ => hok, 2, ?_⟩
      rw [calls_made_eq _ _ _ hlog]
      rfl
    · obtain ⟨a0, a1, hok, hlog⟩ := c
      rw [calls_made_eq _ _ _ hlog]
      refine ⟨?_, 3, rfl⟩
      intro k hk hn
      have hk3 : k < 3 := hk
      have hcase : k = 0 ∨ k = 1 ∨ k = 2 := by omega
      rcases hcase with rfl | rfl | rfl
      · exact absurd a0 hn
      · exact absurd a1 hn
      · rw [hok]
        exact final_false_of_not_isAck _ hn

theorem eraseMemory_hard (st : State) (u : Uart) (page_numbers : List Nat) (num_pages : Nat)
    (_ : num_pages ≤ 127) :
    (∀ k, k < (receives (calls_made u (BL_EraseMemory st u page_numbers num_pages).uart)).length →
      ¬ (u.rx k).isAck → (BL_EraseMemory st u page_numbers num_pages).ok = false) ∧
    (∃ n, frames (calls_made u (BL_EraseMemory st u page_numbers num_pages).uart) =
      [[0x43, 0xBC],
        (BL_EraseMemory.payload page_numbers num_pages).take (u16 (2 + 2 * num_pages))].take n) := by
  cases hs : BL_IsCommandSupported st BL_CMD_ERASE with
  | false =>
    have e : BL_EraseMemory st u page_numbers num_pages = ⟨false, u⟩ := by
      simp only [BL_EraseMemory, hs, ↓reduceIte]
    rw [e]
    exact ⟨fun _ _ _ => rfl, 0, by rw [calls_made_self]; rfl⟩
  | true =>
    rcases eraseMemory_cases st u page_numbers num_pages hs with c | c
    · obtain ⟨_, hok, hlog⟩ := c
      refine ⟨fun _ _ _ => hok, 1, ?_⟩
      rw [calls_made_eq _ _ _ hlog]
      rfl
    · obtain ⟨a0, hok, hlog⟩ := c
      rw [calls_made_eq _ _ _ hlog]
      refine ⟨?_, 2, rfl⟩
      intro k hk hn
      have hk2 : k < 2 := hk
      have hcase : k = 0 ∨ k = 1 := by omega
      rcases hcase with rfl | rfl
      · exact absurd a0 hn
      · rw [hok]
        exact final_false_of_not_isAck _ hn

theorem go_hard (st : State) (u : Uart) (address : Nat) :
    (∀ k, k < (receives (calls_made u (BL_Go st u address).uart)).length →
      ¬ (u.rx k).isAck → (BL_Go st u address).ok = false) ∧
    (∀ k, k < (frames (calls_made u (BL_Go st u address).uart)).length →
      u.tx k ≠ HAL_StatusTypeDef.HAL_OK → (BL_Go st u address).ok = false) ∧
    (∃ n, frames (calls_made u (BL_Go st u address).uart) =
      [[0x21, 0xDE], BL_Go.address_packet address].take n) := by
  cases hs : BL_IsCommandSupported st BL_CMD_GO with
  | false =>
    have e : BL_Go st u address = ⟨false, u⟩ := by
      simp only [BL_Go, hs, ↓reduceIte]
    rw [e]
    exact ⟨fun _ _ _ => rfl, fun _ _ _ => rfl, 0, by rw [calls_made_self]; rfl⟩
  | true =>
    rcases go_cases st u address hs with c | c | c | c
    · obtain ⟨_, hok, hlog⟩ := c
      refine ⟨fun _ _ _ => hok, fun _ _ _ => hok, 1, ?_⟩
      rw [calls_made_eq _ _ _ hlog]
      rfl
    · obtain ⟨_, _, hok, hlog⟩ := c
      refine ⟨fun _ _ _ => hok, fun _ _ _ => hok, 1, ?_⟩
      rw [calls_made_eq _ _ _ hlog]
      rfl
    · obtain ⟨_, _, _, hok, hlog⟩ := c
      refine ⟨fun _ _ _ => hok, fun _ _ _ => hok, 2, ?_⟩
      rw [calls_made_eq _ _ _ hlog]
      rfl
    · obtain ⟨t0, a0, t1, hok, hlog⟩ := c
      rw [calls_made_eq _ _ _ hlog]
      refine ⟨?_, ?_, 2, rfl⟩
      · intro k hk hn
        have hk2 : k < 2 := hk
        have hcase : k = 0 ∨ k = 1 := by omega
        rcases hcase with rfl | rfl
        · exact absurd a0 hn
        · rw [hok]
          exact final_false_of_not_isAck _ hn
      · intro k hk hn
        have hk2 : k < 2 := hk
        have hcase : k = 0 ∨ k = 1 := by omega
        rcases hcase with rfl | rfl
        · exact absurd t0 hn
        · exact absurd t1 hn

theorem readMemory_hard (st : State) (u : Uart) (address : Nat) (data : List Nat)
    (length : Nat) :
    (∀ k, k < (receives (calls_made u (BL_ReadMemory st u address data length).uart)).length →
      (u.rx k).status ≠ HAL_StatusTypeDef.HAL_OK →
      (BL_ReadMemory st u address data length).ok = false) ∧
    (∀ k, k < 3 →
      k < (receives (calls_made u (BL_ReadMemory st u address data length).uart)).length →
      ¬ (u.rx k).isAck → (BL_ReadMemory st u address data length).ok = false) ∧
    (∃ n, frames (calls_made u (BL_ReadMemory st u address data length).uart) =
      [[0x11, 0xEE], BL_ReadMemory.address_cmd address,
        [u8 (minus_one length), u8 (bitnot (minus_one length))]].take n) := by
  cases hs : BL_IsCommandSupported st BL_CMD_READ_MEMORY with
  | false =>
    have e : BL_ReadMemory st u address data length = ⟨false, data, u⟩ := by
      simp only [BL_ReadMemory, hs, ↓reduceIte]
    rw [e]
    exact ⟨fun _ _ _ => rfl, fun _ _ _ _ => rfl, 0, by rw [calls_made_self]; rfl⟩
  | true =>
    rcases readMemory_cases st u address data length hs with c | c | c | c
    · obtain ⟨_, hok, _, hlog⟩ := c
      refine ⟨fun _ _ _ => hok, fun _ _ _ _ => hok, 1, ?_⟩
      rw [calls_made_eq _ _ _ hlog]
      rfl
    · obtain ⟨_, _, hok, _, hlog⟩ := c
      refine ⟨fun _ _ _ => hok, fun _ _ _ _ => hok, 2, ?_⟩
      rw [calls_made_eq _ _ _ hlog]
      rfl
    · obtain ⟨_, _, _, hok, _, hlog⟩ := c
      refine ⟨fun _ _ _ => hok, fun _ _ _ _ => hok, 3, ?_⟩
      rw [calls_made_eq _ _ _ hlog]
      rfl
    · obtain ⟨a0, a1, a2, hok, hlog⟩ := c
      rw [calls_made_eq _ _ _ hlog]
      refine ⟨?_, ?_, 3, rfl⟩
      · intro k hk hn
        have hk4 : k < 4 := hk
        have hcase : k = 0 ∨ k = 1 ∨ k = 2 ∨ k = 3 := by omega
        rcases hcase with rfl | rfl | rfl | rfl
        · exact absurd a0.1 hn
        · exact absurd a1.1 hn
        · exact absurd a2.1 hn
        · rw [hok]
          simp only [hn, decide_False]
      · intro k hk3 _ hn
        have hcase : k = 0 ∨ k = 1 ∨ k = 2 := by omega
        rcases hcase with rfl | rfl | rfl
        · exact absurd a0 hn
        · exact absurd a1 hn
        · exact absurd a2 hn

theorem get_hard (st : State) (u : Uart) (below : Nat) (buffer : List Nat)
    (max_len out_len : Nat) :
    (∀ k, k < (receives (calls_made u (BL_Get st u below buffer max_len out_len).uart)).length →
      (u.rx k).status ≠ HAL_StatusTypeDef.HAL_OK →
      (BL_Get st u below buffer max_len out_len).ok = false) ∧
    (0 < (receives (calls_made u (BL_Get st u below buffer max_len out_len).uart)).length →
      ¬ (u.rx 0).isAck → (BL_Get st u below buffer max_len out_len).ok = false) ∧
    (∃ n, frames (calls_made u (BL_Get st u below buffer max_len out_len).uart) =
      [[0x00, 0xFF]].take n) := by
  cases hs : BL_IsCommandSupported st BL_CMD_GET with
  | false =>
    rw [get_unsupported st u below buffer max_len out_len hs]
    exact ⟨fun _ _ _ => rfl, fun _ _ => rfl, 0, by rw [calls_made_self]; rfl⟩
  | true =>
    rcases get_cases st u below buffer max_len out_len hs with c | c | c | c
    · obtain ⟨_, hok, _, _, _, hlog⟩ := c
      refine ⟨fun _ _ _ => hok, fun _ _ => hok, 1, ?_⟩
      rw [calls_made_eq _ _ _ hlog]
      rfl
    · obtain ⟨_, _, hok, _, _, hlog⟩ := c
      refine ⟨fun _ _ _ => hok, fun _ _ => hok, 1, ?_⟩
      rw [calls_made_eq _ _ _ hlog]
      rfl
    · obtain ⟨_, _, _, hok, _, _, _, hlog⟩ := c
      refine ⟨fun _ _ _ => hok, fun _ _ => hok, 1, ?_⟩
      rw [calls_made_eq _ _ _ hlog]
      rfl
    · obtain ⟨a0, a1, _, hok, hlog, _, _⟩ := c
      rw [calls_made_eq _ _ _ hlog]
      refine ⟨?_, fun _ hn => absurd a0 hn, 1, rfl⟩
      intro k hk hn
      have hk3 : k < 3 := hk
      have hcase : k = 0 ∨ k = 1 ∨ k = 2 := by omega
      rcases hcase with rfl | rfl | rfl
      · exact absurd a0.1 hn
      · exact absurd a1 hn
      · rw [hok]
        simp only [hn, decide_False]

theorem init_hard (st : State) (u : Uart) (below : Nat) :
    (∀ k, 1 ≤ k → k < (receives (calls_made u (BL_InitBootloader st u below).uart)).length →
      (u.rx k).status ≠ HAL_StatusTypeDef.HAL_OK → (BL_InitBootloader st u below).ok = false) ∧
    (∀ k, k = 1 ∨ k = 2 →
      k < (receives (calls_made u (BL_InitBootloader st u below).uart)).length →
      ¬ (u.rx k).isAck → (BL_InitBootloader st u below).ok = false) ∧
    (∃ n, frames (calls_made u (BL_InitBootloader st u below).uart) =
      [[0x7F], [0x00, 0xFF]].take n) := by
  by_cases hsync : (u.rx 1).isAck
  · rw [init_acked st u below hsync]
    simp only []
    cases hs : BL_IsCommandSupported st BL_CMD_GET with
    | false =>
      rw [get_unsupported st _ below _ _ _ hs]
      refine ⟨fun _ _ _ _ => rfl, fun _ _ _ _ => rfl, 1, ?_⟩
      rw [calls_made_eq _ _ _ (sync_stage_log u)]
      rfl
    | true =>
      rcases get_cases st (sync_stage u) below st.supported_cmd 15 st.supported_cmd_len hs with
        c | c | c | c
      · obtain ⟨_, hok, _, _, _, hlog⟩ := c
        rw [sync_stage_log, List.append_assoc] at hlog
        refine ⟨fun _ _ _ _ => hok, fun _ _ _ _ => hok, 2, ?_⟩
        rw [calls_made_eq _ _ _ hlog]
        rfl
      · obtain ⟨_, _, hok, _, _, hlog⟩ := c
        rw [sync_stage_log, List.append_assoc] at hlog
        refine ⟨fun _ _ _ _ => hok, fun _ _ _ _ => hok, 2, ?_⟩
        rw [calls_made_eq _ _ _ hlog]
        rfl
      · obtain ⟨_, _, _, hok, _, _, _, hlog⟩ := c
        rw [sync_stage_log, List.append_assoc] at hlog
        refine ⟨fun _ _ _ _ => hok, fun _ _ _ _ => hok, 2, ?_⟩
        rw [calls_made_eq _ _ _ hlog]
        rfl
      · obtain ⟨a0, a1, _, hok, hlog, _, _⟩ := c
        rw [sync_stage_log, List.append_assoc] at hlog
        rw [calls_made_eq _ _ _ hlog]
        have b0 : (u.rx 2).isAck := a0
        have b1 : (u.rx 3).status = HAL_StatusTypeDef.HAL_OK := a1
        have hok2 : (BL_Get st (sync_stage u) below st.supported_cmd 15
            st.supported_cmd_len).ok = decide ((u.rx 4).status = HAL_StatusTypeDef.HAL_OK) := hok
        refine ⟨?_, ?_, 2, rfl⟩
        · intro k hk1 hk hn
          have hk5 : k < 5 := hk
          have hcase : k = 1 ∨ k = 2 ∨ k = 3 ∨ k = 4 := by omega
          rcases hcase with rfl | rfl | rfl | rfl
          · exact absurd hsync.1 hn
          · exact absurd b0.1 hn
          · exact absurd b1 hn
          · rw [hok2]
            simp only [hn, decide_False]
        · intro k hk _ hn
          rcases hk with rfl | rfl
          · exact absurd hsync hn
          · exact absurd b0 hn
  · rw [init_not_acked st u below hsync]
    refine ⟨fun _ _ _ _ => rfl, fun _ _ _ _ => rfl, 1, ?_⟩
    rw [calls_made_eq _ _ _ (sync_stage_log u)]
    rfl

/-- C15, as stated, fails in two places.  `BL_WriteMemory` does not look at
the status of its transmit calls: with every transmit call returning
`HAL_ERROR` and every stage acknowledged it returns true.  And the first
receive call of `BL_InitBootloader` only drains stale bytes: when it times out
and the rest of the handshake is answered, `BL_InitBootloader` returns true. -/
theorem non_success_not_always_failure :
    Uart.tx_failing.tx 0 = HAL_StatusTypeDef.HAL_ERROR ∧
    (BL_WriteMemory State.flashing Uart.tx_failing 0x08000000 [0xDE, 0xAD] 2).ok = true ∧
    ((Uart.handshake 0x31).rx 0).status = HAL_StatusTypeDef.HAL_TIMEOUT ∧
    (BL_InitBootloader State.initial (Uart.handshake 0x31) 0).ok = true := by
  decide

/-- C15, amended.  For each of `BL_InitBootloader`, `BL_Get`, `BL_ReadMemory`,
`BL_WriteMemory`, `BL_EraseMemory` with at most 127 pages (the calls whose
frame fits the array `payload[256]`) and `BL_Go`, in every state, on every
transport and for all other arguments: if a receive call made during the command,
other than the first receive call of `BL_InitBootloader` that drains stale
bytes, returns a status other than `HAL_OK`, or the byte received at an
acknowledge stage differs from ACK, the command returns false; `BL_Go` also
returns false if one of its transmit calls returns a status other than
`HAL_OK`; and the frames a command transmits are an initial part of its fixed
sequence of frames, each frame sent once.  Here `u.rx k` is the reply to the
`k`-th receive call and `u.tx k` the status of the `k`-th transmit call of the
command, counted from 0. -/
theorem hard_failures (st : State) (u : Uart) :
    (∀ (below : Nat),
      (∀ k, 1 ≤ k → k < (receives (calls_made u (BL_InitBootloader st u below).uart)).length →
        (u.rx k).status ≠ HAL_StatusTypeDef.HAL_OK →
        (BL_InitBootloader st u below).ok = false) ∧
      (∀ k, k = 1 ∨ k = 2 →
        k < (receives (calls_made u (BL_InitBootloader st u below).uart)).length →
        ¬ (u.rx k).isAck → (BL_InitBootloader st u below).ok = false) ∧
      (∃ n, frames (calls_made u (BL_InitBootloader st u below).uart) =
        [[0x7F], [0x00, 0xFF]].take n)) ∧
    (∀ (below : Nat) (buffer : List Nat) (max_len out_len : Nat),
      (∀ k, k < (receives (calls_made u
          (BL_Get st u below buffer max_len out_len).uart)).length →
        (u.rx k).status ≠ HAL_StatusTypeDef.HAL_OK →
        (BL_Get st u below buffer max_len out_len).ok = false) ∧
      (0 < (receives (calls_made u (BL_Get st u below buffer max_len out_len).uart)).length →
        ¬ (u.rx 0).isAck → (BL_Get st u below buffer max_len out_len).ok = false) ∧
      (∃ n, frames (calls_made u (BL_Get st u below buffer max_len out_len).uart) =
        [[0x00, 0xFF]].take n)) ∧
    (∀ (address : Nat) (data : List Nat) (length : Nat),
      (∀ k, k < (receives (calls_made u
          (BL_ReadMemory st u address data length).uart)).length →
        (u.rx k).status ≠ HAL_StatusTypeDef.HAL_OK →
        (BL_ReadMemory st u address data length).ok = false) ∧
      (∀ k, k < 3 →
        k < (receives (calls_made u (BL_ReadMemory st u address data length).uart)).length →
        ¬ (u.rx k).isAck → (BL_ReadMemory st u address data length).ok = false) ∧
      (∃ n, frames (calls_made u (BL_ReadMemory st u address data length).uart) =
        [[0x11, 0xEE], BL_ReadMemory.address_cmd address,
          [u8 (minus_one length), u8 (bitnot (minus_one length))]].take n)) ∧
    (∀ (address : Nat) (data : List Nat) (length : Nat),
      (∀ k, k < (receives (calls_made u
          (BL_WriteMemory st u address data length).uart)).length →
        ¬ (u.rx k).isAck → (BL_WriteMemory st u address data length).ok = false) ∧
      (∃ n, frames (calls_made u (BL_WriteMemory st u address data length).uart) =
        [[0x31, 0xCE], BL_WriteMemory.address_cmd address,
          (BL_WriteMemory.full_cmd data length).take (u16 (length + 2))].take n)) ∧
    (∀ (page_numbers : List Nat) (num_pages : Nat), num_pages ≤ 127 →
      (∀ k, k < (receives (calls_made u
          (BL_EraseMemory st u page_numbers num_pages).uart)).length →
        ¬ (u.rx k).isAck → (BL_EraseMemory st u page_numbers num_pages).ok = false) ∧
      (∃ n, frames (calls_made u (BL_EraseMemory st u page_numbers num_pages).uart) =
        [[0x43, 0xBC],
          (BL_EraseMemory.payload page_numbers num_pages).take
            (u16 (2 + 2 * num_pages))].take n)) ∧
    (∀ (address : Nat),
      (∀ k, k < (receives (calls_made u (BL_Go st u address).uart)).length →
        ¬ (u.rx k).isAck → (BL_Go st u address).ok = false) ∧
      (∀ k, k < (frames (calls_made u (BL_Go st u address).uart)).length →
        u.tx k ≠ HAL_StatusTypeDef.HAL_OK → (BL_Go st u address).ok = false) ∧
      (∃ n, frames (calls_made u (BL_Go st u address).uart) =
        [[0x21, 0xDE], BL_Go.address_packet address].take n)) :=
  ⟨fun below => init_hard st u below,
    fun below buffer max_len out_len => get_hard st u below buffer max_len out_len,
    fun address data length => readMemory_hard st u address data length,
    fun address data length => writeMemory_hard st u address data length,
    fun page_numbers num_pages hn => eraseMemory_hard st u page_numbers num_pages hn,
    fun address => go_hard st u address⟩

/-- C15, amended, on a target that answers the second stage of Write Memory
with NACK, and on one that answers the page frame of an Erase Memory of one
page with NACK. -/
theorem hard_failures_witness :
    (receives (calls_made
      (Uart.script [RxReply.bytes [BL_ACK], RxReply.bytes [BL_NACK]])
      (BL_WriteMemory State.flashing
        (Uart.script [RxReply.bytes [BL_ACK], RxReply.bytes [BL_NACK]])
        0x08000000 [0xDE, 0xAD] 2).uart)).length = 2 ∧
    (BL_WriteMemory State.flashing
      (Uart.script [RxReply.bytes [BL_ACK], RxReply.bytes [BL_NACK]])
      0x08000000 [0xDE, 0xAD] 2).ok = false ∧
    (receives (calls_made
      (Uart.script [RxReply.bytes [BL_ACK], RxReply.bytes [BL_NACK]])
      (BL_EraseMemory { State.initial with supported_cmd := 0x43 :: List.replicate 14 0 }
        (Uart.script [RxReply.bytes [BL_ACK], RxReply.bytes [BL_NACK]])
        [2] 1).uart)).length = 2 ∧
    (BL_EraseMemory { State.initial with supported_cmd := 0x43 :: List.replicate 14 0 }
      (Uart.script [RxReply.bytes [BL_ACK], RxReply.bytes [BL_NACK]])
      [2] 1).ok = false :=
  ⟨by decide,
    ((hard_failures State.flashing
      (Uart.script [RxReply.bytes [BL_ACK], RxReply.bytes [BL_NACK]])).2.2.2.1
      0x08000000 [0xDE, 0xAD] 2).1 1 (by decide) (by
        intro h
        exact absurd h.2 (by decide)),
    by decide,
    ((hard_failures { State.initial with supported_cmd := 0x43 :: List.replicate 14 0 }
      (Uart.script [RxReply.bytes [BL_ACK], RxReply.bytes [BL_NACK]])).2.2.2.2.1
      [2] 1 (by decide)).1 1 (by decide) (by
        intro h
        exact absurd h.2 (by decide))⟩

/-- The handshake needs the version byte ahead of the opcode list: when the
target sends the count byte 1 and then the opcode 0x21 alone, the receive of
two bytes times out after one and `BL_InitBootloader` returns false. -/
theorem handshake_without_version_byte :
    (BL_InitBootloader State.initial
      (Uart.script [RxReply.timeout [], RxReply.bytes [BL_ACK], RxReply.bytes [BL_ACK],
        RxReply.bytes [1], RxReply.timeout [0x21]]) 0).ok = false := by
  decide

/-! ## A handshake that fails -/

theorem receive_buf_nothing (u : Uart) (b : List Nat) (n t : Nat)
    (hs : (u.rx 0).status ≠ HAL_StatusTypeDef.HAL_OK) (hg : (u.rx 0).got = 0) :
    (BL_UART_Receive u b n t).buf = b := by
  simp [BL_UART_Receive, HAL_UART_Receive, RxReply.stored, hs, hg]

/-- `BL_Get` when the receive of the length byte fails with nothing received:
the caller's buffer is as it was. -/
theorem get_count_fail (st : State) (u : Uart) (below : Nat) (buffer : List Nat)
    (max_len out_len : Nat) (hsup : BL_IsCommandSupported st BL_CMD_GET = true)
    (h0 : (u.rx 0).isAck) (h1 : (u.rx 1).status ≠ HAL_StatusTypeDef.HAL_OK)
    (hg : (u.rx 1).got = 0) :
    (BL_Get st u below buffer max_len out_len).ok = false ∧
    (BL_Get st u below buffer max_len out_len).below = below ∧
    (BL_Get st u below buffer max_len out_len).buffer = buffer ∧
    (BL_Get st u below buffer max_len out_len).out_len = out_len := by
  have hs : (BL_UART_Receive (BL_UART_Receive (BL_UART_Transmit u
      [BL_CMD_GET, u8 (BL_COMPLEMENT BL_CMD_GET)] 2 100).uart ack_uninitialised 1
      1000).uart buffer 1 1000).status ≠ HAL_StatusTypeDef.HAL_OK := h1
  have hb := receive_buf_nothing (BL_UART_Receive (BL_UART_Transmit u
    [BL_CMD_GET, u8 (BL_COMPLEMENT BL_CMD_GET)] 2 100).uart ack_uninitialised 1 1000).uart
    buffer 1 1000 h1 hg
  have e : BL_Get st u below buffer max_len out_len =
      ⟨false, below, (BL_UART_Receive (BL_UART_Receive (BL_UART_Transmit u
          [BL_CMD_GET, u8 (BL_COMPLEMENT BL_CMD_GET)] 2 100).uart ack_uninitialised 1
          1000).uart buffer 1 1000).buf, out_len,
        (BL_UART_Receive (BL_UART_Receive (BL_UART_Transmit u
          [BL_CMD_GET, u8 (BL_COMPLEMENT BL_CMD_GET)] 2 100).uart ack_uninitialised 1
          1000).uart buffer 1 1000).uart⟩ := by
    unfold BL_Get
    simp only [hsup, reduceCtorEq, ↓reduceIte]
    rw [if_neg (stage_isAck u _ _ _ _ _ h0), if_pos hs]
  rw [e]
  exact ⟨rfl, rfl, hb, rfl⟩

/-- `BL_Get` when the length byte `n` has arrived and fits, and the receive of
the `n + 1` bytes fails with nothing received: the length byte stays in the
first byte of the caller's buffer. -/
theorem get_data_fail (st : State) (u : Uart) (below : Nat) (buffer : List Nat)
    (max_len out_len : Nat) (hsup : BL_IsCommandSupported st BL_CMD_GET = true)
    (h0 : (u.rx 0).isAck) (h1 : (u.rx 1).status = HAL_StatusTypeDef.HAL_OK)
    (hm : u8 ((u.rx 1).byte 0) ≤ max_len)
    (h2 : (u.rx 2).status ≠ HAL_StatusTypeDef.HAL_OK) (hg : (u.rx 2).got = 0) :
    (BL_Get st u below buffer max_len out_len).ok = false ∧
    (BL_Get st u below buffer max_len out_len).below = below ∧
    (BL_Get st u below buffer max_len out_len).buffer =
      u8 ((u.rx 1).byte 0) :: buffer.drop 1 ∧
    (BL_Get st u below buffer max_len out_len).out_len = out_len := by
  have hb := receive_buf (BL_UART_Receive (BL_UART_Transmit u
    [BL_CMD_GET, u8 (BL_COMPLEMENT BL_CMD_GET)] 2 100).uart ack_uninitialised 1 1000).uart
    buffer 1 1000 h1
  have hb2 : (BL_UART_Receive (BL_UART_Receive (BL_UART_Transmit u
      [BL_CMD_GET, u8 (BL_COMPLEMENT BL_CMD_GET)] 2 100).uart ack_uninitialised 1
      1000).uart buffer 1 1000).buf = u8 ((u.rx 1).byte 0) :: buffer.drop 1 := by
    rw [hb]; rfl
  have hn := u8_lt ((u.rx 1).byte 0)
  have h16 : u16 (u8 ((u.rx 1).byte 0) + 1) = u8 ((u.rx 1).byte 0) + 1 := by
    unfold u16 u8 at *
    omega
  have hs : (BL_UART_Receive (BL_UART_Receive (BL_UART_Transmit u
      [BL_CMD_GET, u8 (BL_COMPLEMENT BL_CMD_GET)] 2 100).uart ack_uninitialised 1
      1000).uart buffer 1 1000).status = HAL_StatusTypeDef.HAL_OK := h1
  have hs3 : (BL_UART_Receive (BL_UART_Receive (BL_UART_Receive (BL_UART_Transmit u
      [BL_CMD_GET, u8 (BL_COMPLEMENT BL_CMD_GET)] 2 100).uart ack_uninitialised 1
      1000).uart buffer 1 1000).uart (below :: u8 ((u.rx 1).byte 0) :: buffer.drop 1)
      (u8 ((u.rx 1).byte 0) + 1) 1000).status ≠ HAL_StatusTypeDef.HAL_OK := h2
  have hb3 := receive_buf_nothing (BL_UART_Receive (BL_UART_Receive (BL_UART_Transmit u
    [BL_CMD_GET, u8 (BL_COMPLEMENT BL_CMD_GET)] 2 100).uart ack_uninitialised 1
    1000).uart buffer 1 1000).uart (below :: u8 ((u.rx 1).byte 0) :: buffer.drop 1)
    (u8 ((u.rx 1).byte 0) + 1) 1000 h2 hg
  have e : BL_Get st u below buffer max_len out_len =
      ⟨false,
        (BL_UART_Receive (BL_UART_Receive (BL_UART_Receive (BL_UART_Transmit u
          [BL_CMD_GET, u8 (BL_COMPLEMENT BL_CMD_GET)] 2 100).uart ack_uninitialised 1
          1000).uart buffer 1 1000).uart (below :: u8 ((u.rx 1).byte 0) :: buffer.drop 1)
          (u8 ((u.rx 1).byte 0) + 1) 1000).buf.headD below,
        (BL_UART_Receive (BL_UART_Receive (BL_UART_Receive (BL_UART_Transmit u
          [BL_CMD_GET, u8 (BL_COMPLEMENT BL_CMD_GET)] 2 100).uart ack_uninitialised 1
          1000).uart buffer 1 1000).uart (below :: u8 ((u.rx 1).byte 0) :: buffer.drop 1)
          (u8 ((u.rx 1).byte 0) + 1) 1000).buf.drop 1, out_len,
        (BL_UART_Receive (BL_UART_Receive (BL_UART_Receive (BL_UART_Transmit u
          [BL_CMD_GET, u8 (BL_COMPLEMENT BL_CMD_GET)] 2 100).uart ack_uninitialised 1
          1000).uart buffer 1 1000).uart (below :: u8 ((u.rx 1).byte 0) :: buffer.drop 1)
          (u8 ((u.rx 1).byte 0) + 1) 1000).uart⟩ := by
    unfold BL_Get
    simp only [hsup, reduceCtorEq, ↓reduceIte]
    rw [if_neg (stage_isAck u _ _ _ _ _ h0)]
    simp only [hb2, List.getD_cons_zero, u8_of_lt hn, h16]
    rw [if_neg (by rw [hs]; exact fun h => h rfl), if_neg (by omega), if_pos hs3]
  rw [e, hb3]
  exact ⟨rfl, rfl, rfl, rfl⟩

/-- `BL_Get` fails and leaves everything of its caller as it was when it is
refused, when the Get frame is not acknowledged, or when the receive of the
length byte fails with nothing received. -/
theorem get_unchanged (st : State) (u : Uart) (below : Nat) (buffer : List Nat)
    (max_len out_len : Nat)
    (h : BL_IsCommandSupported st BL_CMD_GET = false ∨ ¬ (u.rx 0).isAck ∨
      ((u.rx 1).status ≠ HAL_StatusTypeDef.HAL_OK ∧ (u.rx 1).got = 0)) :
    (BL_Get st u below buffer max_len out_len).ok = false ∧
    (BL_Get st u below buffer max_len out_len).below = below ∧
    (BL_Get st u below buffer max_len out_len).buffer = buffer ∧
    (BL_Get st u below buffer max_len out_len).out_len = out_len := by
  cases hs : BL_IsCommandSupported st BL_CMD_GET with
  | false =>
    rw [get_unsupported st u below buffer max_len out_len hs]
    exact ⟨rfl, rfl, rfl, rfl⟩
  | true =>
    by_cases h0 : (u.rx 0).isAck
    · rcases h with h | h | h
      · rw [hs] at h
        exact Bool.noConfusion h
      · exact absurd h0 h
      · exact get_count_fail st u below buffer max_len out_len hs h0 h.1 h.2
    · rcases get_cases st u below buffer max_len out_len hs with c | c | c | c
      · exact ⟨c.2.1, c.2.2.1, c.2.2.2.1, c.2.2.2.2.1⟩
      · exact absurd c.1 h0
      · exact absurd c.1 h0
      · exact absurd c.1 h0

/-- A failed `BL_Get` leaves `*out_len` as it was. -/
theorem get_failed_out_len (st : State) (u : Uart) (below : Nat) (buffer : List Nat)
    (max_len out_len : Nat) (hf : (BL_Get st u below buffer max_len out_len).ok = false) :
    (BL_Get st u below buffer max_len out_len).out_len = out_len := by
  cases hs : BL_IsCommandSupported st BL_CMD_GET with
  | false => rw [get_unsupported st u below buffer max_len out_len hs]
  | true =>
    rcases get_cases st u below buffer max_len out_len hs with c | c | c | c
    · exact c.2.2.2.2.1
    · exact c.2.2.2.2.1
    · exact c.2.2.2.2.2.2.1
    · obtain ⟨_, _, _, hok, _, _, hfail⟩ := c
      apply hfail
      intro h2
      rw [hok, h2] at hf
      simp at hf

/-- C21, as stated, fails: `BL_InitBootloader` hands `supported_cmd` itself to
`BL_Get` as the buffer, and the length byte is stored in its first entry before
anything is checked.  From the initial set `[0x00]`: when the length byte is
0x10, which exceeds the 15 bytes of the buffer, the handshake returns false
and the set is `[0x10]`; when the length byte is 1 and the following receive
times out, the handshake returns false and the set is `[1]`.  A later
handshake from that state, on a target that answers everything, sends the
synchronization byte only and returns false, since Get is no longer in the
set. -/
theorem failed_discovery_changes_set :
    State.initial.supported = [0x00] ∧
    (BL_InitBootloader State.initial
      (Uart.script [RxReply.timeout [], RxReply.bytes [BL_ACK], RxReply.bytes [BL_ACK],
        RxReply.bytes [0x10]]) 0).ok = false ∧
    (BL_InitBootloader State.initial
      (Uart.script [RxReply.timeout [], RxReply.bytes [BL_ACK], RxReply.bytes [BL_ACK],
        RxReply.bytes [0x10]]) 0).st.supported = [0x10] ∧
    (BL_InitBootloader State.initial
      (Uart.script [RxReply.timeout [], RxReply.bytes [BL_ACK], RxReply.bytes [BL_ACK],
        RxReply.bytes [1], RxReply.timeout []]) 0).ok = false ∧
    (BL_InitBootloader State.initial
      (Uart.script [RxReply.timeout [], RxReply.bytes [BL_ACK], RxReply.bytes [BL_ACK],
        RxReply.bytes [1], RxReply.timeout []]) 0).st.supported = [1] ∧
    (BL_InitBootloader
      (BL_InitBootloader State.initial
        (Uart.script [RxReply.timeout [], RxReply.bytes [BL_ACK], RxReply.bytes [BL_ACK],
          RxReply.bytes [0x10]]) 0).st
      (Uart.handshake 0x31) 0).ok = false ∧
    frames (BL_InitBootloader
      (BL_InitBootloader State.initial
        (Uart.script [RxReply.timeout [], RxReply.bytes [BL_ACK], RxReply.bytes [BL_ACK],
          RxReply.bytes [0x10]]) 0).st
      (Uart.handshake 0x31) 0).uart.log = [[0x7F]] := by
  decide

/-- C21, amended.  For every state and every transport, whenever
`BL_InitBootloader` returns false it leaves the length of the
Supported-Command Set as it was.  It returns false with the set, contents and
length, as before the call when the synchronization byte is not acknowledged,
when Get is refused as unsupported, when the Get frame is not acknowledged, or
when the receive of the length byte fails with nothing received.  When the Get
frame is acknowledged and the length byte `n` has arrived, and `n` exceeds the
15 bytes of the buffer or the following receive fails with nothing received,
it returns false with `n` in the first entry of `supported_cmd` and the other
entries and the length as before. -/
theorem failed_discovery (st : State) (u : Uart) (below : Nat) :
    ((BL_InitBootloader st u below).ok = false →
      (BL_InitBootloader st u below).st.supported_cmd_len = st.supported_cmd_len) ∧
    (¬ (u.rx 1).isAck ∨ BL_IsCommandSupported st BL_CMD_GET = false ∨ ¬ (u.rx 2).isAck ∨
        ((u.rx 3).status ≠ HAL_StatusTypeDef.HAL_OK ∧ (u.rx 3).got = 0) →
      (BL_InitBootloader st u below).ok = false ∧
      (BL_InitBootloader st u below).st.supported_cmd = st.supported_cmd ∧
      (BL_InitBootloader st u below).st.supported_cmd_len = st.supported_cmd_len) ∧
    ((u.rx 1).isAck → BL_IsCommandSupported st BL_CMD_GET = true → (u.rx 2).isAck →
      (u.rx 3).status = HAL_StatusTypeDef.HAL_OK →
      (15 < u8 ((u.rx 3).byte 0) ∨
        ((u.rx 4).status ≠ HAL_StatusTypeDef.HAL_OK ∧ (u.rx 4).got = 0)) →
      (BL_InitBootloader st u below).ok = false ∧
      (BL_InitBootloader st u below).st.supported_cmd =
        u8 ((u.rx 3).byte 0) :: st.supported_cmd.drop 1 ∧
      (BL_InitBootloader st u below).st.supported_cmd_len = st.supported_cmd_len) := by
  refine ⟨?_, ?_, ?_⟩
  · by_cases hsync : (u.rx 1).isAck
    · rw [init_acked st u below hsync]
      intro hf
      exact get_failed_out_len st (sync_stage u) below st.supported_cmd 15
        st.supported_cmd_len hf
    · rw [init_not_acked st u below hsync]
      intro _
      rfl
  · intro h
    by_cases hsync : (u.rx 1).isAck
    · have hg : BL_IsCommandSupported st BL_CMD_GET = false ∨ ¬ ((sync_stage u).rx 0).isAck ∨
          (((sync_stage u).rx 1).status ≠ HAL_StatusTypeDef.HAL_OK ∧
            ((sync_stage u).rx 1).got = 0) := by
        rcases h with h | h | h | h
        · exact absurd hsync h
        · exact Or.inl h
        · exact Or.inr (Or.inl h)
        · exact Or.inr (Or.inr h)
      obtain ⟨hok, _, hbuf, hlen⟩ := get_unchanged st (sync_stage u) below st.supported_cmd 15
        st.supported_cmd_len hg
      rw [init_acked st u below hsync]
      exact ⟨hok, hbuf, hlen⟩
    · rw [init_not_acked st u below hsync]
      exact ⟨rfl, rfl, rfl⟩
  · intro hsync hsup hack hcount hlate
    have a0 : ((sync_stage u).rx 0).isAck := hack
    have a1 : ((sync_stage u).rx 1).status = HAL_StatusTypeDef.HAL_OK := hcount
    rw [init_acked st u below hsync]
    by_cases hm : u8 ((u.rx 3).byte 0) ≤ 15
    · have h4 : (u.rx 4).status ≠ HAL_StatusTypeDef.HAL_OK ∧ (u.rx 4).got = 0 := by
        rcases hlate with h | h
        · omega
        · exact h
      obtain ⟨hok, _, hbuf, hlen⟩ := get_data_fail st (sync_stage u) below st.supported_cmd 15
        st.supported_cmd_len hsup a0 a1 hm h4.1 h4.2
      exact ⟨hok, hbuf, hlen⟩
    · rcases get_cases st (sync_stage u) below st.supported_cmd 15 st.supported_cmd_len hsup with
        c | c | c | c
      · exact absurd a0 c.1
      · exact absurd a1 c.2.1
      · obtain ⟨_, _, _, hok, _, hbuf, hlen, _⟩ := c
        exact ⟨hok, hbuf, hlen⟩
      · exact absurd c.2.2.1 hm

/-- C21, amended, on a target that does not acknowledge the synchronization
byte, and on one whose length byte 0x10 exceeds the buffer. -/
theorem failed_discovery_witness :
    (BL_InitBootloader State.initial Uart.silent 0).st.supported_cmd =
      State.initial.supported_cmd ∧
    (BL_InitBootloader State.initial
      (Uart.script [RxReply.timeout [], RxReply.bytes [BL_ACK], RxReply.bytes [BL_ACK],
        RxReply.bytes [0x10]]) 0).st.supported_cmd = 0x10 :: List.replicate 14 0 :=
  ⟨((failed_discovery State.initial Uart.silent 0).2.1
      (Or.inl (fun h => absurd h.1 (by decide)))).2.1,
    ((failed_discovery State.initial
      (Uart.script [RxReply.timeout [], RxReply.bytes [BL_ACK], RxReply.bytes [BL_ACK],
        RxReply.bytes [0x10]]) 0).2.2 ⟨rfl, rfl⟩ (by decide) ⟨rfl, rfl⟩ rfl
      (Or.inl (by decide))).2.1⟩

end Bootloader
